import Mathlib

/-!
# Surface state machine of `src/wayland/surface_interface.cpp`

A shallow embedding of the compositor-side surface state machine
(`KWaylandServer::SurfaceInterfacePrivate`, `SurfaceState`) together with
theorems about staging, merging and committing surface state.

Conventions of the embedding

* C++ pointers are modelled as `Option` values; a pointed-to object is
  identified by a natural number.
* Qt value types (`QSize`, `QRect`, `QRegion`, `QMatrix4x4`, ...) are modelled
  by small executable structures.  `float`/`qreal` quantities are modelled by
  exact rationals.
* A member function that mutates the object is a function from the state
  before the call to the state after it.  Signals (`Q_EMIT`) and calls into
  collaborating objects are appended to the `log` of the surface, protocol
  errors posted to the client are appended to `errors`.
* A member function that follows pointers to other surfaces takes these
  surfaces as data: the chain of parent surfaces is a list, and a surface with
  the surfaces of its sub-surfaces is a `SurfaceTree`.
-/

namespace KWaylandServer

/-! ## Qt value types -/

/-- Rounding of a real to the nearest integer as done by `qRound`. -/
def qRound (d : ℚ) : Int := ⌊d + 1 / 2⌋

/-- Integer point, `QPoint`. -/
structure QPoint where
  x : Int
  y : Int
  deriving DecidableEq, Repr

/-- Real point, `QPointF`. -/
structure QPointF where
  x : ℚ
  y : ℚ
  deriving DecidableEq

/-- Conversion `QPointF::toPoint()`: coordinates rounded with `qRound`. -/
def QPointF.toPoint (p : QPointF) : QPoint := ⟨qRound p.x, qRound p.y⟩

/-- Difference `operator-(const QPointF &, const QPointF &)` of a real point
and an integer point. -/
def QPointF.minus (p : QPointF) (q : QPoint) : QPointF := ⟨p.x - q.x, p.y - q.y⟩

/-- Integer size, `QSize`. -/
structure QSize where
  width : Int
  height : Int
  deriving DecidableEq, Repr

namespace QSize

/-- The default constructed `QSize()`, an invalid size. -/
def null : QSize := ⟨-1, -1⟩

/-- Validity `QSize::isValid()`. -/
def isValid (s : QSize) : Bool := decide (0 ≤ s.width) && decide (0 ≤ s.height)

/-- Emptiness `QSize::isEmpty()`. -/
def isEmpty (s : QSize) : Bool := decide (s.width < 1) || decide (s.height < 1)

/-- Swap of width and height, `QSize::transpose()`. -/
def transpose (s : QSize) : QSize := ⟨s.height, s.width⟩

/-- Division `operator/(const QSize &, qreal)`: both components are divided
and rounded with `qRound`. -/
def divScale (s : QSize) (c : Int) : QSize :=
  ⟨qRound ((s.width : ℚ) / (c : ℚ)), qRound ((s.height : ℚ) / (c : ℚ))⟩

end QSize

/-- Real size, `QSizeF`. -/
structure QSizeF where
  width : ℚ
  height : ℚ
  deriving DecidableEq

/-- Conversion `QSizeF::toSize()`: components rounded with `qRound`. -/
def QSizeF.toSize (s : QSizeF) : QSize := ⟨qRound s.width, qRound s.height⟩

/-- Real rectangle, `QRectF`, given by its top left corner and its size. -/
structure QRectF where
  x : ℚ
  y : ℚ
  width : ℚ
  height : ℚ
  deriving DecidableEq

namespace QRectF

/-- The default constructed `QRectF()`. -/
def null : QRectF := ⟨0, 0, 0, 0⟩

/-- Validity `QRectF::isValid()`. -/
def isValid (r : QRectF) : Bool := decide (0 < r.width) && decide (0 < r.height)

/-- Size `QRectF::size()`. -/
def size (r : QRectF) : QSizeF := ⟨r.width, r.height⟩

/-- Rectangle `QRectF(const QPointF &, const QSizeF &)` for an integer point
and an integer size. -/
def ofSize (p : QPoint) (s : QSize) : QRectF := ⟨p.x, p.y, s.width, s.height⟩

/-- The left edge of a rectangle, also when its width is negative. -/
def left (r : QRectF) : ℚ := if r.width < 0 then r.x + r.width else r.x

/-- The right edge of a rectangle, also when its width is negative. -/
def right (r : QRectF) : ℚ := if r.width < 0 then r.x else r.x + r.width

/-- The top edge of a rectangle, also when its height is negative. -/
def top (r : QRectF) : ℚ := if r.height < 0 then r.y + r.height else r.y

/-- The bottom edge of a rectangle, also when its height is negative. -/
def bottom (r : QRectF) : ℚ := if r.height < 0 then r.y else r.y + r.height

/-- Membership `QRectF::contains(const QPointF &)`: a rectangle of width or
height zero contains no point, and the points on all four edges belong to the
rectangle. -/
def contains (r : QRectF) (p : QPointF) : Bool :=
  if r.left = r.right then false
  else if p.x < r.left ∨ p.x > r.right then false
  else if r.top = r.bottom then false
  else if p.y < r.top ∨ p.y > r.bottom then false
  else true

end QRectF

/-- Integer rectangle, `QRect`, given by its top left corner and its size; it
covers the points `(px, py)` with `x ≤ px < x + width`, `y ≤ py < y + height`. -/
structure QRect where
  x : Int
  y : Int
  width : Int
  height : Int
  deriving DecidableEq, Repr

namespace QRect

/-- Rectangle `QRect(const QPoint &, const QSize &)`. -/
def ofSize (p : QPoint) (s : QSize) : QRect := ⟨p.x, p.y, s.width, s.height⟩

/-- Emptiness `QRect::isEmpty()`. -/
def isEmpty (r : QRect) : Bool := decide (r.width ≤ 0) || decide (r.height ≤ 0)

/-- Membership `QRect::contains(const QPoint &)`. -/
def contains (r : QRect) (px py : Int) : Bool :=
  decide (r.x ≤ px) && decide (px < r.x + r.width) &&
    decide (r.y ≤ py) && decide (py < r.y + r.height)

/-- Intersection `QRect::intersected`. -/
def intersected (a b : QRect) : QRect :=
  let x1 := max a.x b.x
  let y1 := max a.y b.y
  let x2 := min (a.x + a.width) (b.x + b.width)
  let y2 := min (a.y + a.height) (b.y + b.height)
  ⟨x1, y1, x2 - x1, y2 - y1⟩

end QRect

/-! ## Regions -/

/-- Region `QRegion`: a finite union of integer rectangles.  Qt keeps the
rectangles of a region in a canonical banded form; the model keeps the
rectangles the region was built from, which denote the same set of points
(`QRegion.contains`).  Comparison of regions is `QRegion.equal`. -/
structure QRegion where
  rects : List QRect
  deriving DecidableEq, Repr

namespace QRegion

/-- The default constructed, empty `QRegion()`. -/
def empty : QRegion := ⟨[]⟩

/-- Region `QRegion(const QRect &)`; an empty rectangle gives the empty region. -/
def ofRect (r : QRect) : QRegion := if r.isEmpty then ⟨[]⟩ else ⟨[r]⟩

/-- Emptiness `QRegion::isEmpty()`. -/
def isEmpty (r : QRegion) : Bool := r.rects.all QRect.isEmpty

/-- Membership `QRegion::contains(const QPoint &)`. -/
def contains (r : QRegion) (px py : Int) : Bool := r.rects.any fun q => q.contains px py

/-- Union `QRegion::united`, also `operator|=` and `operator+=`. -/
def united (a b : QRegion) : QRegion := ⟨a.rects ++ b.rects⟩

/-- Intersection `QRegion::intersected`, also `operator&`. -/
def intersected (a b : QRegion) : QRegion :=
  ⟨(a.rects.flatMap fun ra => b.rects.map fun rb => ra.intersected rb).filter
      fun r => !r.isEmpty⟩

/-- Left and right edges of the rectangles of a region. -/
def xcuts (r : QRegion) : List Int := r.rects.flatMap fun q => [q.x, q.x + q.width]

/-- Top and bottom edges of the rectangles of a region. -/
def ycuts (r : QRegion) : List Int := r.rects.flatMap fun q => [q.y, q.y + q.height]

/-- Comparison `operator==` of regions: two regions are equal when they cover
the same points.  Membership in a union of rectangles is constant on the cells
of the grid spanned by the edges of the rectangles, so it is enough to compare
membership at the grid points. -/
def equal (a b : QRegion) : Bool :=
  (a.xcuts ++ b.xcuts).all fun px =>
    (a.ycuts ++ b.ycuts).all fun py => a.contains px py == b.contains px py

end QRegion

/-- Modelled from the spec: the helper `infiniteRegion()` of `utils.h` is not
part of the sources at hand.  It is the default input region ("infinite
input"): the rectangle `(INT_MIN / 2, INT_MIN / 2, INT_MAX, INT_MAX)`. -/
def infiniteRegion : QRegion :=
  QRegion.ofRect ⟨-1073741824, -1073741824, 2147483647, 2147483647⟩

/-! ## Matrices -/

/-- Transformation matrix `QMatrix4x4`, restricted to its two dimensional
affine part, which is all the surface code uses: the point `(x, y)` is mapped
to `(m11 * x + m12 * y + dx, m21 * x + m22 * y + dy)`.  The `float` entries are
modelled by exact rationals. -/
structure QMatrix4x4 where
  m11 : ℚ
  m12 : ℚ
  m21 : ℚ
  m22 : ℚ
  dx : ℚ
  dy : ℚ
  deriving DecidableEq

namespace QMatrix4x4

/-- The default constructed identity matrix. -/
def identity : QMatrix4x4 := ⟨1, 0, 0, 1, 0, 0⟩

/-- Post-multiplication by a scaling, `QMatrix4x4::scale(x, y)`. -/
def scale (m : QMatrix4x4) (sx sy : ℚ) : QMatrix4x4 :=
  ⟨m.m11 * sx, m.m12 * sy, m.m21 * sx, m.m22 * sy, m.dx, m.dy⟩

/-- Post-multiplication by a translation, `QMatrix4x4::translate(x, y)`. -/
def translate (m : QMatrix4x4) (tx ty : ℚ) : QMatrix4x4 :=
  ⟨m.m11, m.m12, m.m21, m.m22,
    m.m11 * tx + m.m12 * ty + m.dx, m.m21 * tx + m.m22 * ty + m.dy⟩

/-- Post-multiplication by the rotation with cosine `c` and sine `s` about the
z axis. -/
def rotateCS (m : QMatrix4x4) (c s : ℚ) : QMatrix4x4 :=
  ⟨m.m11 * c + m.m12 * s, m.m12 * c - m.m11 * s,
    m.m21 * c + m.m22 * s, m.m22 * c - m.m21 * s, m.dx, m.dy⟩

/-- Rotation `QMatrix4x4::rotate(angle, 0, 0, 1)` about the z axis for the
angles the surface code uses.  Qt treats the multiples of 90 degrees exactly:
sine and cosine are `1, 0` for `90` and `-270`, `-1, 0` for `-90` and `270`,
`0, -1` for `180` and `-180`; angle `0` is the identity.  Other angles are not
used by the surface code and leave the matrix as it is in the model. -/
def rotate (m : QMatrix4x4) (angle : Int) : QMatrix4x4 :=
  if angle = 90 ∨ angle = -270 then m.rotateCS 0 1
  else if angle = -90 ∨ angle = 270 then m.rotateCS 0 (-1)
  else if angle = 180 ∨ angle = -180 then m.rotateCS (-1) 0
  else m

/-- Image of a point, `QMatrix4x4::map(const QPointF &)`. -/
def map (m : QMatrix4x4) (p : QPointF) : QPointF :=
  ⟨m.m11 * p.x + m.m12 * p.y + m.dx, m.m21 * p.x + m.m22 * p.y + m.dy⟩

/-- Determinant of the linear part. -/
def det (m : QMatrix4x4) : ℚ := m.m11 * m.m22 - m.m12 * m.m21

/-- Inverse `QMatrix4x4::inverted()`; a singular matrix gives the identity. -/
def inverted (m : QMatrix4x4) : QMatrix4x4 :=
  if m.det = 0 then identity
  else
    ⟨m.m22 / m.det, -m.m12 / m.det, -m.m21 / m.det, m.m11 / m.det,
      (m.m12 * m.dy - m.m22 * m.dx) / m.det, (m.m21 * m.dx - m.m11 * m.dy) / m.det⟩

/-- Image of a rectangle, `QMatrix4x4::mapRect(const QRect &)`: the bounding
rectangle of the images of the four corners, each rounded with `qRound`. -/
def mapRect (m : QMatrix4x4) (r : QRect) : QRect :=
  let tl := m.map ⟨r.x, r.y⟩
  let tr := m.map ⟨r.x + r.width, r.y⟩
  let bl := m.map ⟨r.x, r.y + r.height⟩
  let br := m.map ⟨r.x + r.width, r.y + r.height⟩
  let xmin := min (min (qRound tl.x) (qRound tr.x)) (min (qRound bl.x) (qRound br.x))
  let xmax := max (max (qRound tl.x) (qRound tr.x)) (max (qRound bl.x) (qRound br.x))
  let ymin := min (min (qRound tl.y) (qRound tr.y)) (min (qRound bl.y) (qRound br.y))
  let ymax := max (max (qRound tl.y) (qRound tr.y)) (max (qRound bl.y) (qRound br.y))
  ⟨xmin, ymin, xmax - xmin, ymax - ymin⟩

end QMatrix4x4

/-- Region mapped through a matrix, rectangle by rectangle (`map_helper`). -/
def map_helper (matrix : QMatrix4x4) (region : QRegion) : QRegion :=
  region.rects.foldl (fun result rect => result.united (QRegion.ofRect (matrix.mapRect rect)))
    QRegion.empty

/-! ## Objects referred to by a surface -/

/-- Client buffer `ClientBuffer`: the object is identified by `id`, `size` is
what `ClientBuffer::size()` returns. -/
structure ClientBuffer where
  id : Nat
  size : QSize
  deriving DecidableEq, Repr

/-- Buffer resource `wl_resource *buffer` handed to `wl_surface.attach` when
it is not null; `clientBuffer` is what
`compositor->display()->clientBufferForResource(buffer)` returns for it. -/
structure WlBuffer where
  clientBuffer : Option ClientBuffer
  deriving DecidableEq, Repr

/-- Frame callback object `KWaylandFrameCallback *`. -/
abbrev KWaylandFrameCallback := Nat

/-- Child handle `SubSurfaceInterface *` kept in the `below` and `above` lists. -/
abbrev SubSurfacePtr := Nat

/-- The sub-surface role object of a surface, `SubSurfaceInterface`, seen
from the surface: `isSynchronized` is what `subSurface->isSynchronized()`
returns. -/
structure SubSurfaceInterface where
  id : SubSurfacePtr
  isSynchronized : Bool
  deriving DecidableEq, Repr

/-- Buffer transform `OutputInterface::Transform`, in the order of the
protocol values `0 .. 7` (`WL_OUTPUT_TRANSFORM_NORMAL ..
WL_OUTPUT_TRANSFORM_FLIPPED_270`). -/
inductive Transform where
  | Normal
  | Rotated90
  | Rotated180
  | Rotated270
  | Flipped
  | Flipped90
  | Flipped180
  | Flipped270
  deriving DecidableEq, Repr

/-- Conversion `OutputInterface::Transform(transform)` of a protocol value. -/
def Transform.ofInt (transform : Int) : Transform :=
  if transform = 0 then .Normal
  else if transform = 1 then .Rotated90
  else if transform = 2 then .Rotated180
  else if transform = 3 then .Rotated270
  else if transform = 4 then .Flipped
  else if transform = 5 then .Flipped90
  else if transform = 6 then .Flipped180
  else .Flipped270

/-- The protocol constant `WL_OUTPUT_TRANSFORM_FLIPPED_270`. -/
def WL_OUTPUT_TRANSFORM_FLIPPED_270 : Int := 7

/-! ## Surface state -/

/-- The viewport part of `SurfaceState`. -/
structure Viewport where
  sourceGeometry : QRectF := QRectF.null
  destinationSize : QSize := QSize.null
  sourceGeometryIsSet : Bool := false
  destinationSizeIsSet : Bool := false
  deriving DecidableEq

/-- Modelled from the spec: the declaration of `SurfaceState`
(`surface_interface_p.h`) is not part of the sources at hand.  The fields are
the ones `surface_interface.cpp` reads and writes; the defaults are those of
the data model (no buffer, empty damage, empty opaque region, infinite input
region, scale `1`, transform `Normal`, every flag unset).  The source field
`opaque` is called `opaqueRegion` here. -/
structure SurfaceState where
  damage : QRegion := QRegion.empty
  bufferDamage : QRegion := QRegion.empty
  opaqueRegion : QRegion := QRegion.empty
  input : QRegion := infiniteRegion
  inputIsSet : Bool := false
  opaqueIsSet : Bool := false
  bufferIsSet : Bool := false
  shadowIsSet : Bool := false
  blurIsSet : Bool := false
  contrastIsSet : Bool := false
  slideIsSet : Bool := false
  childrenChanged : Bool := false
  bufferScaleIsSet : Bool := false
  bufferTransformIsSet : Bool := false
  bufferScale : Int := 1
  bufferTransform : Transform := Transform.Normal
  frameCallbacks : List KWaylandFrameCallback := []
  offset : QPoint := ⟨0, 0⟩
  buffer : Option ClientBuffer := none
  shadow : Option Nat := none
  blur : Option Nat := none
  contrast : Option Nat := none
  slide : Option Nat := none
  below : List SubSurfacePtr := []
  above : List SubSurfacePtr := []
  viewport : Viewport := {}
  deriving DecidableEq

/-- Merge `SurfaceState::mergeInto(SurfaceState *target)`.  The result is the
pair of the source after the call and the target after the call. -/
def SurfaceState.mergeInto (source target : SurfaceState) : SurfaceState × SurfaceState :=
  let target1 : SurfaceState :=
    { target with
      buffer := if source.bufferIsSet then source.buffer else target.buffer
      offset := if source.bufferIsSet then source.offset else target.offset
      damage := if source.bufferIsSet then source.damage else target.damage
      bufferDamage := if source.bufferIsSet then source.bufferDamage else target.bufferDamage
      bufferIsSet := if source.bufferIsSet then source.bufferIsSet else target.bufferIsSet
      viewport :=
        { sourceGeometry :=
            if source.viewport.sourceGeometryIsSet then source.viewport.sourceGeometry
            else target.viewport.sourceGeometry
          sourceGeometryIsSet :=
            if source.viewport.sourceGeometryIsSet then true
            else target.viewport.sourceGeometryIsSet
          destinationSize :=
            if source.viewport.destinationSizeIsSet then source.viewport.destinationSize
            else target.viewport.destinationSize
          destinationSizeIsSet :=
            if source.viewport.destinationSizeIsSet then true
            else target.viewport.destinationSizeIsSet }
      below := if source.childrenChanged then source.below else target.below
      above := if source.childrenChanged then source.above else target.above
      childrenChanged := if source.childrenChanged then true else target.childrenChanged
      frameCallbacks := target.frameCallbacks ++ source.frameCallbacks
      shadow := if source.shadowIsSet then source.shadow else target.shadow
      shadowIsSet := if source.shadowIsSet then true else target.shadowIsSet
      blur := if source.blurIsSet then source.blur else target.blur
      blurIsSet := if source.blurIsSet then true else target.blurIsSet
      contrast := if source.contrastIsSet then source.contrast else target.contrast
      contrastIsSet := if source.contrastIsSet then true else target.contrastIsSet
      slide := if source.slideIsSet then source.slide else target.slide
      slideIsSet := if source.slideIsSet then true else target.slideIsSet
      input := if source.inputIsSet then source.input else target.input
      inputIsSet := if source.inputIsSet then true else target.inputIsSet
      opaqueRegion := if source.opaqueIsSet then source.opaqueRegion else target.opaqueRegion
      opaqueIsSet := if source.opaqueIsSet then true else target.opaqueIsSet
      bufferScale := if source.bufferScaleIsSet then source.bufferScale else target.bufferScale
      bufferScaleIsSet := if source.bufferScaleIsSet then true else target.bufferScaleIsSet
      bufferTransform :=
        if source.bufferTransformIsSet then source.bufferTransform else target.bufferTransform
      bufferTransformIsSet :=
        if source.bufferTransformIsSet then true else target.bufferTransformIsSet }
  -- `*this = SurfaceState{}; below = target->below; above = target->above;`
  ({ below := target1.below, above := target1.above }, target1)

/-- Output handle `OutputInterface *`. -/
abbrev OutputPtr := Nat

/-- Life time of a pointer constraint, `LockedPointerV1Interface::LifeTime` and
`ConfinedPointerV1Interface::LifeTime`. -/
inductive LifeTime where
  | OneShot
  | Persistent
  deriving DecidableEq, Repr

/-- The two kinds of pointer constraint: a pointer lock
(`LockedPointerV1Interface`) and a pointer confinement
(`ConfinedPointerV1Interface`). -/
inductive ConstraintKind where
  | lock
  | confinement
  deriving DecidableEq, Repr

/-- A live `QMetaObject::Connection` of the surface to a signal of a pointer
constraint: `sender` is the constraint object, `kind` tells which of the two
`cleanUp` closures the connected slot runs. -/
structure Connection where
  sender : Nat
  kind : ConstraintKind
  deriving DecidableEq, Repr

/-! ## The private state of a surface -/

/-- What a surface emits or calls while it handles a request: the signals of
`SurfaceInterface` (`Q_EMIT`), the calls into collaborating objects, and the
reference counting calls on client buffers. -/
inductive Event where
  | opaqueChanged (region : QRegion)
  | inputChanged (region : QRegion)
  | bufferScaleChanged (scale : Int)
  | bufferTransformChanged (transform : Transform)
  | mapped
  | unmapped
  | damaged (region : QRegion)
  | surfaceToBufferMatrixChanged
  | bufferSizeChanged
  | sizeChanged
  | shadowChanged
  | blurChanged
  | contrastChanged
  | slideOnShowHideChanged
  | childSubSurfacesChanged
  | committed
  | lockedPointerCommit (lock : Nat)
  | confinedPointerCommit (confinement : Nat)
  | bufferUnref (buffer : ClientBuffer)
  | bufferRef (buffer : ClientBuffer)
  | parentCommit (child : SubSurfacePtr)
  | roleCommit
  | pointerConstraintsChanged
  | childSubSurfaceAdded (child : SubSurfacePtr)
  | childSubSurfaceRemoved (child : SubSurfacePtr)
  | childSetOutputs (child : SubSurfacePtr) (outputs : List OutputPtr)
  | send_enter (outputResource : Nat)
  | send_leave (outputResource : Nat)
  | send_done (frameCallback : KWaylandFrameCallback) (callbackData : Nat)
  | frameCallbackDestroy (frameCallback : KWaylandFrameCallback)
  deriving DecidableEq

/-- Errors posted to the client (`wl_resource_post_error`,
`wl_resource_post_no_memory`). -/
inductive ProtocolError where
  | invalid_scale (scale : Int)
  | invalid_transform (transform : Int)
  | no_memory
  deriving DecidableEq, Repr

/-- Modelled from the spec: the declaration of `SurfaceInterfacePrivate`
(`surface_interface_p.h`) is not part of the sources at hand.  The fields are
the members `surface_interface.cpp` reads and writes.  `role` tells whether a
role object is attached; `log` collects the events of the surface in the order
they happen and `errors` the protocol errors posted to the client.  A
disconnected `QMetaObject::Connection` is `none`. -/
structure SurfaceInterfacePrivate where
  current : SurfaceState := {}
  pending : SurfaceState := {}
  cached : SurfaceState := {}
  subSurface : Option SubSurfaceInterface := none
  surfaceToBufferMatrix : QMatrix4x4 := QMatrix4x4.identity
  bufferToSurfaceMatrix : QMatrix4x4 := QMatrix4x4.identity
  bufferSize : QSize := ⟨0, 0⟩
  surfaceSize : QSize := ⟨0, 0⟩
  inputRegion : QRegion := QRegion.empty
  bufferRef : Option ClientBuffer := none
  subSurfaceIsMapped : Bool := true
  hasCacheState : Bool := false
  role : Bool := false
  lockedPointer : Option Nat := none
  confinedPointer : Option Nat := none
  constrainsOneShotConnection : Option Connection := none
  constrainsUnboundConnection : Option Connection := none
  outputs : List OutputPtr := []
  log : List Event := []
  errors : List ProtocolError := []
  deriving DecidableEq

/-- The argument `SurfaceInterface *anchor` of `raiseChild` and `lowerChild`,
seen from the surface `q`: the surface `q` itself (`anchor == q`), or another
surface, given by what `anchor->subSurface()` returns (`none` for a surface
without the sub-surface role). -/
inductive Anchor where
  | parent
  | surface (subSurface : Option SubSurfacePtr)
  deriving DecidableEq, Repr

/-- The argument `SurfaceState *next` of `applyState`: the address of the
pending or of the cached state of the surface. -/
inductive StateRef where
  | pending
  | cached
  deriving DecidableEq, Repr

namespace SurfaceInterfacePrivate

/-- The state a `StateRef` points to. -/
def state (d : SurfaceInterfacePrivate) : StateRef → SurfaceState
  | .pending => d.pending
  | .cached => d.cached

/-- Assignment through a `StateRef`. -/
def setState (d : SurfaceInterfacePrivate) (ref : StateRef) (s : SurfaceState) :
    SurfaceInterfacePrivate :=
  match ref with
  | .pending => { d with pending := s }
  | .cached => { d with cached := s }

/-! ### Staging requests -/

/-- Setter `setShadow`. -/
def setShadow (d : SurfaceInterfacePrivate) (shadow : Option Nat) : SurfaceInterfacePrivate :=
  { d with pending := { d.pending with shadow := shadow, shadowIsSet := true } }

/-- Setter `setBlur`. -/
def setBlur (d : SurfaceInterfacePrivate) (blur : Option Nat) : SurfaceInterfacePrivate :=
  { d with pending := { d.pending with blur := blur, blurIsSet := true } }

/-- Setter `setSlide`. -/
def setSlide (d : SurfaceInterfacePrivate) (slide : Option Nat) : SurfaceInterfacePrivate :=
  { d with pending := { d.pending with slide := slide, slideIsSet := true } }

/-- Setter `setContrast`. -/
def setContrast (d : SurfaceInterfacePrivate) (contrast : Option Nat) :
    SurfaceInterfacePrivate :=
  { d with pending := { d.pending with contrast := contrast, contrastIsSet := true } }

/-- Request `surface_attach`; `buffer` is `none` for a null buffer resource. -/
def surface_attach (d : SurfaceInterfacePrivate) (buffer : Option WlBuffer) (x y : Int) :
    SurfaceInterfacePrivate :=
  let pending1 : SurfaceState := { d.pending with bufferIsSet := true, offset := ⟨x, y⟩ }
  match buffer with
  | none =>
    -- got a null buffer, deletes content in next frame
    { d with pending :=
        { pending1 with buffer := none, damage := QRegion.empty, bufferDamage := QRegion.empty } }
  | some resource => { d with pending := { pending1 with buffer := resource.clientBuffer } }

/-- Request `surface_damage`. -/
def surface_damage (d : SurfaceInterfacePrivate) (x y width height : Int) :
    SurfaceInterfacePrivate :=
  { d with pending :=
      { d.pending with
        damage := d.pending.damage.united (QRegion.ofRect ⟨x, y, width, height⟩) } }

/-- Request `surface_frame`; `callbackResource` is the result of
`wl_resource_create`, `none` when the allocation failed. -/
def surface_frame (d : SurfaceInterfacePrivate)
    (callbackResource : Option KWaylandFrameCallback) : SurfaceInterfacePrivate :=
  match callbackResource with
  | none => { d with errors := d.errors ++ [ProtocolError.no_memory] }
  | some callback =>
    { d with pending :=
        { d.pending with frameCallbacks := d.pending.frameCallbacks ++ [callback] } }

/-- Request `surface_set_opaque_region`; `region` is the region of
`RegionInterface::get(region)`, `none` when that is null. -/
def surface_set_opaque_region (d : SurfaceInterfacePrivate) (region : Option QRegion) :
    SurfaceInterfacePrivate :=
  { d with pending :=
      { d.pending with
        opaqueRegion := match region with
          | some r => r
          | none => QRegion.empty
        opaqueIsSet := true } }

/-- Request `surface_set_input_region`; `region` is the region of
`RegionInterface::get(region)`, `none` when that is null. -/
def surface_set_input_region (d : SurfaceInterfacePrivate) (region : Option QRegion) :
    SurfaceInterfacePrivate :=
  { d with pending :=
      { d.pending with
        input := match region with
          | some r => r
          | none => infiniteRegion
        inputIsSet := true } }

/-- Request `surface_set_buffer_transform`. -/
def surface_set_buffer_transform (d : SurfaceInterfacePrivate) (transform : Int) :
    SurfaceInterfacePrivate :=
  if transform < 0 ∨ transform > WL_OUTPUT_TRANSFORM_FLIPPED_270 then
    { d with errors := d.errors ++ [ProtocolError.invalid_transform transform] }
  else
    { d with pending :=
        { d.pending with
          bufferTransform := Transform.ofInt transform
          bufferTransformIsSet := true } }

/-- Request `surface_set_buffer_scale`. -/
def surface_set_buffer_scale (d : SurfaceInterfacePrivate) (scale : Int) :
    SurfaceInterfacePrivate :=
  if scale < 1 then
    { d with errors := d.errors ++ [ProtocolError.invalid_scale scale] }
  else
    { d with pending := { d.pending with bufferScale := scale, bufferScaleIsSet := true } }

/-- Request `surface_damage_buffer`. -/
def surface_damage_buffer (d : SurfaceInterfacePrivate) (x y width height : Int) :
    SurfaceInterfacePrivate :=
  { d with pending :=
      { d.pending with
        bufferDamage := d.pending.bufferDamage.united (QRegion.ofRect ⟨x, y, width, height⟩) } }

/-! ### Accessors of `SurfaceInterface` -/

/-- Accessor `SurfaceInterface::size()`. -/
def size (d : SurfaceInterfacePrivate) : QSize := d.surfaceSize

/-- Accessor `SurfaceInterface::damage()`. -/
def damage (d : SurfaceInterfacePrivate) : QRegion := d.current.damage

/-- Accessor `SurfaceInterface::input()`. -/
def input (d : SurfaceInterfacePrivate) : QRegion := d.inputRegion

/-- Accessor `SurfaceInterface::buffer()`. -/
def buffer (d : SurfaceInterfacePrivate) : Option ClientBuffer := d.bufferRef

/-- Region version of `SurfaceInterface::mapFromBuffer`. -/
def mapFromBuffer (d : SurfaceInterfacePrivate) (region : QRegion) : QRegion :=
  map_helper d.bufferToSurfaceMatrix region

/-- Region version of `SurfaceInterface::mapToBuffer`. -/
def mapToBuffer (d : SurfaceInterfacePrivate) (region : QRegion) : QRegion :=
  map_helper d.surfaceToBufferMatrix region

/-! ### Committing -/

/-- Matrix builder `buildSurfaceToBufferMatrix`.  The translations are by the
integer quotients `bufferSize.width() / current.bufferScale` and
`bufferSize.height() / current.bufferScale`. -/
def buildSurfaceToBufferMatrix (d : SurfaceInterfacePrivate) : QMatrix4x4 :=
  match d.current.buffer with
  | none => QMatrix4x4.identity
  | some _ =>
    let w : ℚ := ((Int.tdiv d.bufferSize.width d.current.bufferScale : Int) : ℚ)
    let h : ℚ := ((Int.tdiv d.bufferSize.height d.current.bufferScale : Int) : ℚ)
    let m0 := QMatrix4x4.identity.scale d.current.bufferScale d.current.bufferScale
    let m1 :=
      match d.current.bufferTransform with
      | .Normal => m0
      | .Flipped => m0
      | .Rotated90 => (m0.translate 0 h).rotate (-90)
      | .Flipped90 => (m0.translate 0 h).rotate (-90)
      | .Rotated180 => (m0.translate w h).rotate (-180)
      | .Flipped180 => (m0.translate w h).rotate (-180)
      | .Rotated270 => (m0.translate w 0).rotate (-270)
      | .Flipped270 => (m0.translate w 0).rotate (-270)
    let m2 :=
      match d.current.bufferTransform with
      | .Flipped => (m1.translate w 0).scale (-1) 1
      | .Flipped180 => (m1.translate w 0).scale (-1) 1
      | .Flipped90 => (m1.translate h 0).scale (-1) 1
      | .Flipped270 => (m1.translate h 0).scale (-1) 1
      | _ => m1
    if d.current.viewport.sourceGeometry.isValid then
      (m2.translate d.current.viewport.sourceGeometry.x
          d.current.viewport.sourceGeometry.y).scale
        (d.current.viewport.sourceGeometry.width / (d.surfaceSize.width : ℚ))
        (d.current.viewport.sourceGeometry.height / (d.surfaceSize.height : ℚ))
    else m2

/-- The list `[e]` when `c` holds, the empty list otherwise: a guarded
`Q_EMIT`. -/
def emitIf (c : Bool) (e : Event) : List Event := if c then [e] else []

/-- Commit `applyState(SurfaceState *next)`. -/
def applyState (d : SurfaceInterfacePrivate) (next : StateRef) : SurfaceInterfacePrivate :=
  let source := d.state next
  let bufferChanged := source.bufferIsSet
  let opaqueRegionChanged := source.opaqueIsSet
  let scaleFactorChanged :=
    source.bufferScaleIsSet && (d.current.bufferScale != source.bufferScale)
  let transformChanged :=
    source.bufferTransformIsSet && (d.current.bufferTransform != source.bufferTransform)
  let shadowChanged := source.shadowIsSet
  let blurChanged := source.blurIsSet
  let contrastChanged := source.contrastIsSet
  let slideChanged := source.slideIsSet
  let childrenChanged := source.childrenChanged
  let visibilityChanged := bufferChanged && (d.current.buffer.isSome != source.buffer.isSome)
  let oldSurfaceSize := d.surfaceSize
  let oldBufferSize := d.bufferSize
  let oldSurfaceToBufferMatrix := d.surfaceToBufferMatrix
  let oldInputRegion := d.inputRegion
  -- next->mergeInto(&current)
  let merged := source.mergeInto d.current
  let current1 := merged.2
  -- commit of the pointer constraints
  let constraintCommits : List Event :=
    (match d.lockedPointer with
      | some lock => [Event.lockedPointerCommit lock]
      | none => []) ++
    (match d.confinedPointer with
      | some confinement => [Event.confinedPointerCommit confinement]
      | none => [])
  -- the buffer reference
  let refEvents : List Event :=
    if d.bufferRef != current1.buffer then
      (match d.bufferRef with
        | some old => [Event.bufferUnref old]
        | none => []) ++
      (match current1.buffer with
        | some new => [Event.bufferRef new]
        | none => [])
    else []
  let bufferRef1 := if d.bufferRef != current1.buffer then current1.buffer else d.bufferRef
  -- sizes
  let bufferSize1 : QSize :=
    match current1.buffer with
    | some buffer => buffer.size
    | none => QSize.null
  let surfaceSize1 : QSize :=
    match current1.buffer with
    | some buffer =>
      if current1.viewport.destinationSize.isValid then current1.viewport.destinationSize
      else if current1.viewport.sourceGeometry.isValid then
        current1.viewport.sourceGeometry.size.toSize
      else
        match current1.bufferTransform with
        | .Rotated90 => (buffer.size.divScale current1.bufferScale).transpose
        | .Rotated270 => (buffer.size.divScale current1.bufferScale).transpose
        | .Flipped90 => (buffer.size.divScale current1.bufferScale).transpose
        | .Flipped270 => (buffer.size.divScale current1.bufferScale).transpose
        | .Normal => buffer.size.divScale current1.bufferScale
        | .Rotated180 => buffer.size.divScale current1.bufferScale
        | .Flipped => buffer.size.divScale current1.bufferScale
        | .Flipped180 => buffer.size.divScale current1.bufferScale
    | none => QSize.null
  let d1 : SurfaceInterfacePrivate :=
    { d.setState next merged.1 with
      current := current1
      bufferRef := bufferRef1
      bufferSize := bufferSize1
      surfaceSize := surfaceSize1 }
  -- matrices and input region
  let surfaceToBufferMatrix1 := d1.buildSurfaceToBufferMatrix
  let bufferToSurfaceMatrix1 := surfaceToBufferMatrix1.inverted
  let inputRegion1 :=
    current1.input.intersected (QRegion.ofRect (QRect.ofSize ⟨0, 0⟩ surfaceSize1))
  let subSurfaceIsMapped1 :=
    if visibilityChanged then bufferRef1.isSome else d.subSurfaceIsMapped
  -- damage
  let newDamage :=
    bufferChanged && current1.buffer.isSome &&
      (!current1.damage.isEmpty || !current1.bufferDamage.isEmpty)
  let windowRegion := QRegion.ofRect ⟨0, 0, surfaceSize1.width, surfaceSize1.height⟩
  let damage1 :=
    if newDamage then
      windowRegion.intersected
        (current1.damage.united (map_helper bufferToSurfaceMatrix1 current1.bufferDamage))
    else current1.damage
  let events : List Event :=
    constraintCommits ++ refEvents ++
    emitIf opaqueRegionChanged (Event.opaqueChanged current1.opaqueRegion) ++
    emitIf (!(oldInputRegion.equal inputRegion1)) (Event.inputChanged inputRegion1) ++
    emitIf scaleFactorChanged (Event.bufferScaleChanged current1.bufferScale) ++
    emitIf transformChanged (Event.bufferTransformChanged current1.bufferTransform) ++
    emitIf visibilityChanged (if bufferRef1.isSome then Event.mapped else Event.unmapped) ++
    emitIf newDamage (Event.damaged damage1) ++
    emitIf (surfaceToBufferMatrix1 != oldSurfaceToBufferMatrix)
      Event.surfaceToBufferMatrixChanged ++
    emitIf (bufferSize1 != oldBufferSize) Event.bufferSizeChanged ++
    emitIf (surfaceSize1 != oldSurfaceSize) Event.sizeChanged ++
    emitIf shadowChanged Event.shadowChanged ++
    emitIf blurChanged Event.blurChanged ++
    emitIf contrastChanged Event.contrastChanged ++
    emitIf slideChanged Event.slideOnShowHideChanged ++
    emitIf childrenChanged Event.childSubSurfacesChanged ++
    -- The position of a sub-surface is applied when its parent is committed.
    current1.below.map Event.parentCommit ++
    current1.above.map Event.parentCommit ++
    emitIf d.role Event.roleCommit ++
    [Event.committed]
  { d1 with
    current := { current1 with damage := damage1 }
    surfaceToBufferMatrix := surfaceToBufferMatrix1
    bufferToSurfaceMatrix := bufferToSurfaceMatrix1
    inputRegion := inputRegion1
    subSurfaceIsMapped := subSurfaceIsMapped1
    log := d.log ++ events }

/-- Commit of a sub-surface into its cache, `commitToCache`. -/
def commitToCache (d : SurfaceInterfacePrivate) : SurfaceInterfacePrivate :=
  let merged := d.pending.mergeInto d.cached
  { d with pending := merged.1, cached := merged.2, hasCacheState := true }

/-- Commit of the cache of a sub-surface, `commitFromCache`. -/
def commitFromCache (d : SurfaceInterfacePrivate) : SurfaceInterfacePrivate :=
  { d.applyState StateRef.cached with hasCacheState := false }

/-- Commit of a surface that has the sub-surface role, `commitSubSurface`. -/
def commitSubSurface (d : SurfaceInterfacePrivate) (subSurface : SubSurfaceInterface) :
    SurfaceInterfacePrivate :=
  if subSurface.isSynchronized then d.commitToCache
  else if d.hasCacheState then d.commitToCache.commitFromCache
  else d.applyState StateRef.pending

/-- Request `surface_commit`. -/
def surface_commit (d : SurfaceInterfacePrivate) : SurfaceInterfacePrivate :=
  match d.subSurface with
  | some subSurface => d.commitSubSurface subSurface
  | none => d.applyState StateRef.pending

/-! ### Sub-surfaces of the surface -/

/-- Child registration `addChild`.  The call `child->surface()->setOutputs(outputs)`
into the surface of the child is recorded as `Event.childSetOutputs`. -/
def addChild (d : SurfaceInterfacePrivate) (child : SubSurfacePtr) : SurfaceInterfacePrivate :=
  -- protocol is not precise on how to handle the addition of new sub surfaces
  { d with
    pending := { d.pending with above := d.pending.above ++ [child] }
    cached := { d.cached with above := d.cached.above ++ [child] }
    current := { d.current with above := d.current.above ++ [child] }
    log := d.log ++
      [Event.childSetOutputs child d.outputs, Event.childSubSurfaceAdded child,
        Event.childSubSurfacesChanged] }

/-- Removal of every occurrence of a child from a list, `QList::removeAll`. -/
def removeAll (l : List SubSurfacePtr) (child : SubSurfacePtr) : List SubSurfacePtr :=
  l.filter fun c => c != child

/-- Child removal `removeChild`. -/
def removeChild (d : SurfaceInterfacePrivate) (child : SubSurfacePtr) :
    SurfaceInterfacePrivate :=
  { d with
    pending :=
      { d.pending with
        below := removeAll d.pending.below child, above := removeAll d.pending.above child }
    cached :=
      { d.cached with
        below := removeAll d.cached.below child, above := removeAll d.cached.above child }
    current :=
      { d.current with
        below := removeAll d.current.below child, above := removeAll d.current.above child }
    log := d.log ++ [Event.childSubSurfaceRemoved child, Event.childSubSurfacesChanged] }

/-- Restacking `raiseChild(subsurface, anchor)`; the result is the returned
flag and the state after the call.  `QList::removeOne` is `List.erase`; the
test `anchorIndex != -1` on the result of `QList::indexOf` is membership in the
list.  The assertion `subsurface->parentSurface() == q` concerns the
sub-surface object and is a precondition on the caller. -/
def raiseChild (d : SurfaceInterfacePrivate) (subsurface : SubSurfacePtr) (anchor : Anchor) :
    Bool × SurfaceInterfacePrivate :=
  let below1 := d.pending.below.erase subsurface
  let above1 := d.pending.above.erase subsurface
  let removed : SurfaceInterfacePrivate :=
    { d with pending := { d.pending with below := below1, above := above1 } }
  match anchor with
  | .parent =>
    -- Pretend as if the parent surface were before the first child in the above list.
    (true,
      { d with
        pending :=
          { d.pending with
            below := below1
            above := above1.insertIdx 0 subsurface
            childrenChanged := true } })
  | .surface none => (false, removed)
  | .surface (some anchorSubSurface) =>
    if anchorSubSurface ∈ above1 then
      (true,
        { d with
          pending :=
            { d.pending with
              below := below1
              above := above1.insertIdx (above1.indexOf anchorSubSurface + 1) subsurface
              childrenChanged := true } })
    else if anchorSubSurface ∈ below1 then
      (true,
        { d with
          pending :=
            { d.pending with
              below := below1.insertIdx (below1.indexOf anchorSubSurface + 1) subsurface
              above := above1
              childrenChanged := true } })
    else (false, removed) -- The anchor belongs to other sub-surface tree.

/-- Restacking `lowerChild(subsurface, anchor)`; the result is the returned
flag and the state after the call. -/
def lowerChild (d : SurfaceInterfacePrivate) (subsurface : SubSurfacePtr) (anchor : Anchor) :
    Bool × SurfaceInterfacePrivate :=
  let below1 := d.pending.below.erase subsurface
  let above1 := d.pending.above.erase subsurface
  let removed : SurfaceInterfacePrivate :=
    { d with pending := { d.pending with below := below1, above := above1 } }
  match anchor with
  | .parent =>
    -- Pretend as if the parent surface were after the last child in the below list.
    (true,
      { d with
        pending :=
          { d.pending with
            below := below1.insertIdx below1.length subsurface
            above := above1
            childrenChanged := true } })
  | .surface none => (false, removed)
  | .surface (some anchorSubSurface) =>
    if anchorSubSurface ∈ above1 then
      (true,
        { d with
          pending :=
            { d.pending with
              below := below1
              above := above1.insertIdx (above1.indexOf anchorSubSurface) subsurface
              childrenChanged := true } })
    else if anchorSubSurface ∈ below1 then
      (true,
        { d with
          pending :=
            { d.pending with
              below := below1.insertIdx (below1.indexOf anchorSubSurface) subsurface
              above := above1
              childrenChanged := true } })
    else (false, removed) -- The anchor belongs to other sub-surface tree.

/-! ### Outputs -/

/-- Output membership `SurfaceInterface::setOutputs`.  `clientResources o` is
what `o->clientResources(client())` returns, the resources the client of the
surface has bound for the output `o`.  The recursive calls into the surfaces
of the children are recorded as `Event.childSetOutputs`.  The connections to
the `removed` and `bound` signals of the outputs, kept in
`outputDestroyedConnections` and `outputBoundConnections`, serve later signals
of the outputs and are left out, and with them the assertion on
`outputBoundConnections`. -/
def setOutputs (clientResources : OutputPtr → List Nat) (d : SurfaceInterfacePrivate)
    (outputs : List OutputPtr) : SurfaceInterfacePrivate :=
  let removedOutputs := outputs.foldl (fun removed o => removed.erase o) d.outputs
  let leaves := removedOutputs.flatMap fun o => (clientResources o).map Event.send_leave
  let addedOutputsOutputs := d.outputs.foldl (fun added o => added.erase o) outputs
  let enters := addedOutputsOutputs.flatMap fun o => (clientResources o).map Event.send_enter
  { d with
    outputs := outputs
    log := d.log ++ leaves ++ enters ++
      d.current.below.map (fun child => Event.childSetOutputs child outputs) ++
      d.current.above.map (fun child => Event.childSetOutputs child outputs) }

/-! ### Pointer constraints -/

/-- The closure `cleanUp` of `installPointerConstraint(LockedPointerV1Interface *)`. -/
def cleanUpLockedPointer (d : SurfaceInterfacePrivate) : SurfaceInterfacePrivate :=
  { d with
    lockedPointer := none
    constrainsOneShotConnection := none
    constrainsUnboundConnection := none
    log := d.log ++ [Event.pointerConstraintsChanged] }

/-- The closure `cleanUp` of `installPointerConstraint(ConfinedPointerV1Interface *)`. -/
def cleanUpConfinedPointer (d : SurfaceInterfacePrivate) : SurfaceInterfacePrivate :=
  { d with
    confinedPointer := none
    constrainsOneShotConnection := none
    constrainsUnboundConnection := none
    log := d.log ++ [Event.pointerConstraintsChanged] }

/-- Installation `installPointerConstraint(LockedPointerV1Interface *lock)`;
`lifeTime` is what `lock->lifeTime()` returns.  A failing `Q_ASSERT` is fatal:
the result is `none`. -/
def installPointerConstraintLocked (d : SurfaceInterfacePrivate) (lock : Nat)
    (lifeTime : LifeTime) : Option SurfaceInterfacePrivate :=
  if d.lockedPointer.isSome then none -- Q_ASSERT(!lockedPointer)
  else if d.confinedPointer.isSome then none -- Q_ASSERT(!confinedPointer)
  else
    some
      { d with
        lockedPointer := some lock
        constrainsOneShotConnection :=
          if lifeTime = LifeTime.OneShot then some ⟨lock, ConstraintKind.lock⟩
          else d.constrainsOneShotConnection
        constrainsUnboundConnection := some ⟨lock, ConstraintKind.lock⟩
        log := d.log ++ [Event.pointerConstraintsChanged] }

/-- Installation `installPointerConstraint(ConfinedPointerV1Interface *confinement)`;
`lifeTime` is what `confinement->lifeTime()` returns.  A failing `Q_ASSERT` is
fatal: the result is `none`. -/
def installPointerConstraintConfined (d : SurfaceInterfacePrivate) (confinement : Nat)
    (lifeTime : LifeTime) : Option SurfaceInterfacePrivate :=
  if d.lockedPointer.isSome then none -- Q_ASSERT(!lockedPointer)
  else if d.confinedPointer.isSome then none -- Q_ASSERT(!confinedPointer)
  else
    some
      { d with
        confinedPointer := some confinement
        constrainsOneShotConnection :=
          if lifeTime = LifeTime.OneShot then some ⟨confinement, ConstraintKind.confinement⟩
          else d.constrainsOneShotConnection
        constrainsUnboundConnection := some ⟨confinement, ConstraintKind.confinement⟩
        log := d.log ++ [Event.pointerConstraintsChanged] }

/-- Delivery of the signal `LockedPointerV1Interface::lockedChanged` of the
lock `sender`: the slot connected by `constrainsOneShotConnection` runs when
that connection is live; `isLocked` is what `lockedPointer->isLocked()`
returns. -/
def lockedChanged (d : SurfaceInterfacePrivate) (sender : Nat) (isLocked : Bool) :
    SurfaceInterfacePrivate :=
  if d.constrainsOneShotConnection = some ⟨sender, ConstraintKind.lock⟩ then
    if isLocked then d else d.cleanUpLockedPointer
  else d

/-- Delivery of the signal `ConfinedPointerV1Interface::confinedChanged` of
the confinement `sender`; `isConfined` is what `confinedPointer->isConfined()`
returns. -/
def confinedChanged (d : SurfaceInterfacePrivate) (sender : Nat) (isConfined : Bool) :
    SurfaceInterfacePrivate :=
  if d.constrainsOneShotConnection = some ⟨sender, ConstraintKind.confinement⟩ then
    if isConfined then d else d.cleanUpConfinedPointer
  else d

/-- Delivery of the signal `destroyed` of the pointer constraint `sender`: the
`cleanUp` closure connected by `constrainsUnboundConnection` runs when that
connection is live. -/
def constraintDestroyed (d : SurfaceInterfacePrivate) (sender : Nat) : SurfaceInterfacePrivate :=
  if d.constrainsUnboundConnection = some ⟨sender, ConstraintKind.lock⟩ then
    d.cleanUpLockedPointer
  else if d.constrainsUnboundConnection = some ⟨sender, ConstraintKind.confinement⟩ then
    d.cleanUpConfinedPointer
  else d

/-! ### Frame callbacks and destruction -/

/-- The handler `KWaylandFrameCallback::callback_destroy_resource` of a frame
callback of the surface: the callback is removed from the three queues. -/
def callback_destroy_resource (d : SurfaceInterfacePrivate)
    (frameCallback : KWaylandFrameCallback) : SurfaceInterfacePrivate :=
  { d with
    current := { d.current with frameCallbacks := d.current.frameCallbacks.erase frameCallback }
    pending := { d.pending with frameCallbacks := d.pending.frameCallbacks.erase frameCallback }
    cached := { d.cached with frameCallbacks := d.cached.frameCallbacks.erase frameCallback } }

/-- Call `frameCallback->destroy()` on a frame callback of the surface: the
resource is destroyed, upon which `callback_destroy_resource` runs. -/
def destroyFrameCallback (d : SurfaceInterfacePrivate)
    (frameCallback : KWaylandFrameCallback) : SurfaceInterfacePrivate :=
  callback_destroy_resource
    { d with log := d.log ++ [Event.frameCallbackDestroy frameCallback] } frameCallback

/-- The destructor `~SurfaceInterfacePrivate`: the frame callbacks of copies
of the current, the pending and the cached queue are destroyed, and the
current buffer is unreferenced.  The list `surfaces` of all surfaces is not
part of the state. -/
def destructor (d : SurfaceInterfacePrivate) : SurfaceInterfacePrivate :=
  let d1 := d.current.frameCallbacks.foldl destroyFrameCallback d
  let d2 := d1.pending.frameCallbacks.foldl destroyFrameCallback d1
  let d3 := d2.cached.frameCallbacks.foldl destroyFrameCallback d2
  match d3.current.buffer with
  | some buffer => { d3 with log := d3.log ++ [Event.bufferUnref buffer] }
  | none => d3

/-! ### Mapping of points -/

/-- Point version of `SurfaceInterface::mapToBuffer`. -/
def mapToBufferPoint (d : SurfaceInterfacePrivate) (point : QPointF) : QPointF :=
  d.surfaceToBufferMatrix.map point

/-- Point version of `SurfaceInterface::mapFromBuffer`. -/
def mapFromBufferPoint (d : SurfaceInterfacePrivate) (point : QPointF) : QPointF :=
  d.bufferToSurfaceMatrix.map point

/-! ### Frame callbacks of a rendered frame -/

/-- Accessor `SurfaceInterface::hasFrameCallbacks()`. -/
def hasFrameCallbacks (d : SurfaceInterfacePrivate) : Bool := !d.current.frameCallbacks.isEmpty

/-- The loop `while (!d->current.frameCallbacks.isEmpty())` of `frameRendered`,
run for at most `rounds` rounds: the first callback is taken from the current
queue, `send_done(msec)` is called on it and it is destroyed. -/
def notifyFrameCallbacks (msec : Nat) :
    Nat → SurfaceInterfacePrivate → SurfaceInterfacePrivate
  | 0, d => d
  | rounds + 1, d =>
    match d.current.frameCallbacks with
    | [] => d
    | frameCallback :: rest =>
      notifyFrameCallbacks msec rounds
        (destroyFrameCallback
          { d with
            current := { d.current with frameCallbacks := rest }
            log := d.log ++ [Event.send_done frameCallback msec] }
          frameCallback)

/-- The part of `SurfaceInterface::frameRendered(msec)` that concerns the
surface itself: the loop over its current frame callbacks.  Every round takes
a callback from the queue, so as many rounds as the queue is long empty it. -/
def frameRenderedCallbacks (d : SurfaceInterfacePrivate) (msec : Nat) :
    SurfaceInterfacePrivate :=
  notifyFrameCallbacks msec d.current.frameCallbacks.length d

/-! ### Mapping state -/

/-- Query `SurfaceInterface::isMapped()`.  `ancestors` is the chain of parent
surfaces: its head is the surface `d->subSurface->parentSurface()` returns,
followed by the chain of that surface; it is empty when `parentSurface()` is
null. -/
def isMapped (d : SurfaceInterfacePrivate) (ancestors : List SurfaceInterfacePrivate) : Bool :=
  match d.subSurface with
  | some _ =>
    -- "A sub-surface becomes mapped, when a non-NULL wl_buffer is applied and
    -- the parent surface is mapped."
    d.subSurfaceIsMapped &&
      (match ancestors with
        | [] => false
        | parent :: rest => isMapped parent rest)
  | none => d.current.buffer.isSome

/-! ### Request traces -/

/-- The requests a client or a collaborating protocol object can make on a
surface: the staging requests and the commit. -/
inductive Request where
  | attach (buffer : Option WlBuffer) (x y : Int)
  | damage (x y width height : Int)
  | damageBuffer (x y width height : Int)
  | frame (callbackResource : Option KWaylandFrameCallback)
  | setOpaqueRegion (region : Option QRegion)
  | setInputRegion (region : Option QRegion)
  | setBufferScale (scale : Int)
  | setBufferTransform (transform : Int)
  | setShadow (shadow : Option Nat)
  | setBlur (blur : Option Nat)
  | setSlide (slide : Option Nat)
  | setContrast (contrast : Option Nat)
  | commit
  deriving DecidableEq

/-- The staging requests are all requests but the commit. -/
def Request.isStaging : Request → Bool
  | .commit => false
  | _ => true

/-- The handler of a request. -/
def handle (d : SurfaceInterfacePrivate) : Request → SurfaceInterfacePrivate
  | .attach buffer x y => d.surface_attach buffer x y
  | .damage x y width height => d.surface_damage x y width height
  | .damageBuffer x y width height => d.surface_damage_buffer x y width height
  | .frame callbackResource => d.surface_frame callbackResource
  | .setOpaqueRegion region => d.surface_set_opaque_region region
  | .setInputRegion region => d.surface_set_input_region region
  | .setBufferScale scale => d.surface_set_buffer_scale scale
  | .setBufferTransform transform => d.surface_set_buffer_transform transform
  | .setShadow shadow => d.setShadow shadow
  | .setBlur blur => d.setBlur blur
  | .setSlide slide => d.setSlide slide
  | .setContrast contrast => d.setContrast contrast
  | .commit => d.surface_commit

/-- The requests of a list handled one after the other. -/
def run (d : SurfaceInterfacePrivate) (requests : List Request) : SurfaceInterfacePrivate :=
  requests.foldl handle d

/-- Everything that acts on a surface: the requests of the client, the
operations of its sub-surfaces, the output management, and the installation
and the signals of pointer constraints. -/
inductive Action where
  | request (r : Request)
  | addChild (child : SubSurfacePtr)
  | removeChild (child : SubSurfacePtr)
  | raiseChild (subsurface : SubSurfacePtr) (anchor : Anchor)
  | lowerChild (subsurface : SubSurfacePtr) (anchor : Anchor)
  | setOutputs (clientResources : OutputPtr → List Nat) (outputs : List OutputPtr)
  | installLocked (lock : Nat) (lifeTime : LifeTime)
  | installConfined (confinement : Nat) (lifeTime : LifeTime)
  | lockedChanged (sender : Nat) (isLocked : Bool)
  | confinedChanged (sender : Nat) (isConfined : Bool)
  | constraintDestroyed (sender : Nat)

/-- The effect of an action; `none` when an assertion of the code fails. -/
def act (d : SurfaceInterfacePrivate) : Action → Option SurfaceInterfacePrivate
  | .request r => some (handle d r)
  | .addChild child => some (d.addChild child)
  | .removeChild child => some (d.removeChild child)
  | .raiseChild subsurface anchor => some (d.raiseChild subsurface anchor).2
  | .lowerChild subsurface anchor => some (d.lowerChild subsurface anchor).2
  | .setOutputs clientResources outputs => some (d.setOutputs clientResources outputs)
  | .installLocked lock lifeTime => d.installPointerConstraintLocked lock lifeTime
  | .installConfined confinement lifeTime =>
    d.installPointerConstraintConfined confinement lifeTime
  | .lockedChanged sender isLocked => some (d.lockedChanged sender isLocked)
  | .confinedChanged sender isConfined => some (d.confinedChanged sender isConfined)
  | .constraintDestroyed sender => some (d.constraintDestroyed sender)

/-- The actions of a list performed one after the other; `none` when an
assertion of the code fails on the way. -/
def actAll (d : SurfaceInterfacePrivate) : List Action → Option SurfaceInterfacePrivate
  | [] => some d
  | a :: rest =>
    match act d a with
    | some d1 => actAll d1 rest
    | none => none

end SurfaceInterfacePrivate

open SurfaceInterfacePrivate

/-! ## A surface with its sub-surfaces -/

mutual
/-- A surface together with the surfaces of its current sub-surfaces: `below`
resolves the handles of `d.current.below` and `above` those of
`d.current.above`, in the order of these lists. -/
inductive SurfaceTree where
  | node (d : SurfaceInterfacePrivate) (below above : SubSurfaceList)
/-- A list of sub-surfaces: for each its handle, what `position()` returns,
and the tree of the surface `surface()` returns. -/
inductive SubSurfaceList where
  | nil
  | cons (subsurface : SubSurfacePtr) (position : QPoint) (surface : SurfaceTree)
      (rest : SubSurfaceList)
end

/-- The private state of the surface at the root of a tree. -/
def SurfaceTree.d : SurfaceTree → SurfaceInterfacePrivate
  | .node d _ _ => d

/-- The handles of a list of sub-surfaces. -/
def SubSurfaceList.handles : SubSurfaceList → List SubSurfacePtr
  | .nil => []
  | .cons subsurface _ _ rest => subsurface :: rest.handles

mutual
/-- The tree describes its surfaces: at every surface the sub-surfaces below
and above are the ones the current state lists, and the surface of each is a
sub-surface with that handle. -/
def SurfaceTree.wellFormed : SurfaceTree → Bool
  | .node d below above =>
    decide (below.handles = d.current.below) && decide (above.handles = d.current.above) &&
      below.wellFormed && above.wellFormed
/-- Well-formedness of the trees of a list of sub-surfaces. -/
def SubSurfaceList.wellFormed : SubSurfaceList → Bool
  | .nil => true
  | .cons subsurface _ surface rest =>
    decide (surface.d.subSurface.map (fun s => s.id) = some subsurface) &&
      surface.wellFormed && rest.wellFormed
end

mutual
/-- The surfaces of a tree: the root, then those below, then those above. -/
def SurfaceTree.surfaces : SurfaceTree → List SurfaceInterfacePrivate
  | .node d below above => d :: (below.surfaces ++ above.surfaces)
/-- The surfaces of the trees of a list of sub-surfaces. -/
def SubSurfaceList.surfaces : SubSurfaceList → List SurfaceInterfacePrivate
  | .nil => []
  | .cons _ _ surface rest => surface.surfaces ++ rest.surfaces
end

mutual
/-- Notification `SurfaceInterface::frameRendered(msec)` on the surface at the
root: the tree after the call, and the calls on frame callbacks in the order
they are made. -/
def SurfaceTree.frameRendered : SurfaceTree → Nat → SurfaceTree × List Event
  | .node d below above, msec =>
    let d1 := d.frameRenderedCallbacks msec
    let belowRendered := below.frameRendered msec
    let aboveRendered := above.frameRendered msec
    (.node d1 belowRendered.1 aboveRendered.1,
      d1.log.drop d.log.length ++ belowRendered.2 ++ aboveRendered.2)
/-- The loops of `frameRendered` over the sub-surfaces. -/
def SubSurfaceList.frameRendered : SubSurfaceList → Nat → SubSurfaceList × List Event
  | .nil, _ => (.nil, [])
  | .cons subsurface position surface rest, msec =>
    let first := surface.frameRendered msec
    let others := rest.frameRendered msec
    (.cons subsurface position first.1 others.1, first.2 ++ others.2)
end

mutual
/-- Output membership `SurfaceInterface::setOutputs(outputs)` on the surface
at the root, with the calls into the surfaces of the sub-surfaces carried
out. -/
def SurfaceTree.setOutputs (clientResources : OutputPtr → List Nat) :
    SurfaceTree → List OutputPtr → SurfaceTree
  | .node d below above, outputs =>
    .node (d.setOutputs clientResources outputs) (below.setOutputs clientResources outputs)
      (above.setOutputs clientResources outputs)
/-- The loops of `setOutputs` over the sub-surfaces. -/
def SubSurfaceList.setOutputs (clientResources : OutputPtr → List Nat) :
    SubSurfaceList → List OutputPtr → SubSurfaceList
  | .nil, _ => .nil
  | .cons subsurface position surface rest, outputs =>
    .cons subsurface position (surface.setOutputs clientResources outputs)
      (rest.setOutputs clientResources outputs)
end

/-- A surface found by `surfaceAt` or `inputSurfaceAt`: its private state,
its chain of parent surfaces, and the position asked for in its coordinates. -/
structure SurfaceHit where
  surface : SurfaceInterfacePrivate
  ancestors : List SurfaceInterfacePrivate
  position : QPointF
  deriving DecidableEq

mutual
/-- Query `SurfaceInterface::surfaceAt(position)` on the surface at the root;
`ancestors` is the chain of parent surfaces of the root.  The surface of a
sub-surface in the current lists has the root as its parent surface. -/
def SurfaceTree.surfaceAt :
    SurfaceTree → List SurfaceInterfacePrivate → QPointF → Option SurfaceHit
  | .node d below above, ancestors, position =>
    if !d.isMapped ancestors then none
    else
      match above.surfaceAtReversed (d :: ancestors) position with
      | some s => some s
      | none =>
        -- check whether the geometry contains the pos
        if !d.size.isEmpty && (QRectF.ofSize ⟨0, 0⟩ d.size).contains position then
          some ⟨d, ancestors, position⟩
        else below.surfaceAtReversed (d :: ancestors) position
/-- The loops of `surfaceAt` over the sub-surfaces, from the last to the
first. -/
def SubSurfaceList.surfaceAtReversed :
    SubSurfaceList → List SurfaceInterfacePrivate → QPointF → Option SurfaceHit
  | .nil, _, _ => none
  | .cons _ childPosition surface rest, ancestors, position =>
    match rest.surfaceAtReversed ancestors position with
    | some s => some s
    | none => surface.surfaceAt ancestors (position.minus childPosition)
end

mutual
/-- Query `SurfaceInterface::inputSurfaceAt(position)` on the surface at the
root; `ancestors` is the chain of parent surfaces of the root. -/
def SurfaceTree.inputSurfaceAt :
    SurfaceTree → List SurfaceInterfacePrivate → QPointF → Option SurfaceHit
  | .node d below above, ancestors, position =>
    if !d.isMapped ancestors then none
    else
      match above.inputSurfaceAtReversed (d :: ancestors) position with
      | some s => some s
      | none =>
        -- check whether the geometry and input region contain the pos
        if !d.size.isEmpty && (QRectF.ofSize ⟨0, 0⟩ d.size).contains position &&
            d.input.contains position.toPoint.x position.toPoint.y then
          some ⟨d, ancestors, position⟩
        else below.inputSurfaceAtReversed (d :: ancestors) position
/-- The loops of `inputSurfaceAt` over the sub-surfaces, from the last to the
first. -/
def SubSurfaceList.inputSurfaceAtReversed :
    SubSurfaceList → List SurfaceInterfacePrivate → QPointF → Option SurfaceHit
  | .nil, _, _ => none
  | .cons _ childPosition surface rest, ancestors, position =>
    match rest.inputSurfaceAtReversed ancestors position with
    | some s => some s
    | none => surface.inputSurfaceAt ancestors (position.minus childPosition)
end

/-! ## Definitions used to state the properties -/

/-- Two states of a surface show the same to its consumers: the current
state, the surface size, the buffer size, both matrices, the effective input
region and the buffer reference are the same, and so is the log of emitted
events. -/
def sameVisible (d d' : SurfaceInterfacePrivate) : Prop :=
  d'.current = d.current ∧ d'.surfaceSize = d.surfaceSize ∧ d'.bufferSize = d.bufferSize ∧
  d'.surfaceToBufferMatrix = d.surfaceToBufferMatrix ∧
  d'.bufferToSurfaceMatrix = d.bufferToSurfaceMatrix ∧
  d'.input = d.input ∧ d'.bufferRef = d.bufferRef ∧ d'.log = d.log

/-- The transforms that swap width and height: `Rotated90`, `Rotated270`,
`Flipped90` and `Flipped270`. -/
def Transform.swapsAxes : Transform → Bool
  | .Rotated90 => true
  | .Rotated270 => true
  | .Flipped90 => true
  | .Flipped270 => true
  | .Normal => false
  | .Rotated180 => false
  | .Flipped => false
  | .Flipped180 => false

/-- The requests of a number of rounds, each an attach followed by a commit. -/
def attachCommitRounds (rounds : List (Option WlBuffer × Int × Int)) : List Request :=
  rounds.flatMap fun round => [Request.attach round.1 round.2.1 round.2.2, Request.commit]

/-- The client buffer an attach request stages: none for a null resource. -/
def attachedBuffer (buffer : Option WlBuffer) : Option ClientBuffer :=
  match buffer with
  | some resource => resource.clientBuffer
  | none => none

/-- The commit of a desynchronized sub-surface as the specification words it:
the current state after first merging the cached state into the current
state and then merging the pending state into the current state. -/
def mergeCachedThenPending (d : SurfaceInterfacePrivate) : SurfaceState :=
  (d.pending.mergeInto (d.cached.mergeInto d.current).2).2

/-- The events `applyState` produces before its signals: the commits of the
pointer constraints and the reference counting calls on buffers. -/
def Event.isPrologue : Event → Bool
  | .lockedPointerCommit _ => true
  | .confinedPointerCommit _ => true
  | .bufferUnref _ => true
  | .bufferRef _ => true
  | _ => false

/-- The signals `applyState` emits between the reference counting of the
buffer and the parent-commit hooks of the children, in the order of the code,
written with the state before and the state after the call. -/
def applyStateSignals (d : SurfaceInterfacePrivate) (next : StateRef) : List Event :=
  emitIf (d.state next).opaqueIsSet (Event.opaqueChanged (d.applyState next).current.opaqueRegion) ++
  emitIf (!(d.input.equal (d.applyState next).input)) (Event.inputChanged (d.applyState next).input) ++
  emitIf ((d.state next).bufferScaleIsSet && (d.current.bufferScale != (d.state next).bufferScale))
    (Event.bufferScaleChanged (d.applyState next).current.bufferScale) ++
  emitIf ((d.state next).bufferTransformIsSet &&
      (d.current.bufferTransform != (d.state next).bufferTransform))
    (Event.bufferTransformChanged (d.applyState next).current.bufferTransform) ++
  emitIf ((d.state next).bufferIsSet && (d.current.buffer.isSome != (d.state next).buffer.isSome))
    (if (d.applyState next).bufferRef.isSome then Event.mapped else Event.unmapped) ++
  emitIf ((d.state next).bufferIsSet && (d.state next).buffer.isSome &&
      (!(d.state next).damage.isEmpty || !(d.state next).bufferDamage.isEmpty))
    (Event.damaged (d.applyState next).damage) ++
  emitIf ((d.applyState next).surfaceToBufferMatrix != d.surfaceToBufferMatrix)
    Event.surfaceToBufferMatrixChanged ++
  emitIf ((d.applyState next).bufferSize != d.bufferSize) Event.bufferSizeChanged ++
  emitIf ((d.applyState next).size != d.size) Event.sizeChanged ++
  emitIf (d.state next).shadowIsSet Event.shadowChanged ++
  emitIf (d.state next).blurIsSet Event.blurChanged ++
  emitIf (d.state next).contrastIsSet Event.contrastChanged ++
  emitIf (d.state next).slideIsSet Event.slideOnShowHideChanged ++
  emitIf (d.state next).childrenChanged Event.childSubSurfacesChanged

/-- An entry of the stacking order of a surface and its children: the surface
itself, called the parent, or one of its children. -/
inductive StackEntry where
  | parent
  | child (subsurface : SubSurfacePtr)
  deriving DecidableEq, Repr

/-- The stacking order a state describes, from bottom to top: the children
below the parent, the parent, the children above the parent. -/
def stackingOrder (s : SurfaceState) : List StackEntry :=
  s.below.map StackEntry.child ++ StackEntry.parent :: s.above.map StackEntry.child

/-- The anchor argument that names an entry of the stacking order. -/
def anchorOf : StackEntry → Anchor
  | .parent => Anchor.parent
  | .child subsurface => Anchor.surface (some subsurface)

/-- The children of a surface after a child operation, given the children
before it: `addChild` adds the child, `removeChild` removes it, restacking
keeps the children. -/
def liveChildren (live : List SubSurfacePtr) : Action → List SubSurfacePtr
  | .addChild child => live ++ [child]
  | .removeChild child => live.filter fun c => c != child
  | _ => live

/-- A child operation that respects the protocol: a child is added only when
it is not a child yet, and a child is restacked only when it is a child and
the call succeeds. -/
def validChildAction (d : SurfaceInterfacePrivate) (live : List SubSurfacePtr) : Action → Prop
  | .addChild child => child ∉ live
  | .removeChild _ => True
  | .raiseChild subsurface anchor => subsurface ∈ live ∧ (d.raiseChild subsurface anchor).1 = true
  | .lowerChild subsurface anchor => subsurface ∈ live ∧ (d.lowerChild subsurface anchor).1 = true
  | _ => False

/-- A connection of the pointer constraints serves the bound constraint: it
is disconnected, or its sender is the lock or the confinement the surface is
bound to. -/
def servesBinding (d : SurfaceInterfacePrivate) : Option Connection → Bool
  | none => true
  | some ⟨sender, ConstraintKind.lock⟩ => d.lockedPointer == some sender
  | some ⟨sender, ConstraintKind.confinement⟩ => d.confinedPointer == some sender

/-- Both connections of the pointer constraints serve the bound constraint;
so it is on a new surface, where both are disconnected. -/
def connectionsServeBinding (d : SurfaceInterfacePrivate) : Prop :=
  servesBinding d d.constrainsOneShotConnection = true ∧
    servesBinding d d.constrainsUnboundConnection = true

instance (d : SurfaceInterfacePrivate) : Decidable (connectionsServeBinding d) := by
  unfold connectionsServeBinding
  infer_instance

/-- The condition-change events of a pointer lock delivered one after the
other, each with what `isLocked()` returns at its delivery. -/
def lockedChanges (d : SurfaceInterfacePrivate) (sender : Nat) (changes : List Bool) :
    SurfaceInterfacePrivate :=
  changes.foldl (fun s isLocked => s.lockedChanged sender isLocked) d

/-- The condition-change events of a pointer confinement delivered one after
the other, each with what `isConfined()` returns at its delivery. -/
def confinedChanges (d : SurfaceInterfacePrivate) (sender : Nat) (changes : List Bool) :
    SurfaceInterfacePrivate :=
  changes.foldl (fun s isConfined => s.confinedChanged sender isConfined) d

/-- The request is a `surface_attach`. -/
def SurfaceInterfacePrivate.Request.isAttach : Request → Bool
  | .attach _ _ _ => true
  | _ => false

/-- The request stages damage: `surface_damage` or `surface_damage_buffer`. -/
def SurfaceInterfacePrivate.Request.isDamage : Request → Bool
  | .damage _ _ _ _ => true
  | .damageBuffer _ _ _ _ => true
  | _ => false

/-- The commit of the surface applies a cached state whose buffer is set: the
surface is a desynchronized sub-surface that has cache state, and the buffer
of the cached state is set. -/
def promotesCachedBuffer (d : SurfaceInterfacePrivate) : Bool :=
  match d.subSurface with
  | some subSurface => !subSurface.isSynchronized && d.hasCacheState && d.cached.bufferIsSet
  | none => false

/-- The state with other staged surface damage and buffer damage. -/
def withStagedDamage (d : SurfaceInterfacePrivate) (damage bufferDamage : QRegion) :
    SurfaceInterfacePrivate :=
  { d with pending := { d.pending with damage := damage, bufferDamage := bufferDamage } }

/-- The reference counting calls on client buffers. -/
def Event.isReferenceCount : Event → Bool
  | .bufferRef _ => true
  | .bufferUnref _ => true
  | _ => false

/-- The reference counting calls a surface has made, in the order it made
them. -/
def referenceCalls (log : List Event) : List Event :=
  log.filter Event.isReferenceCount

/-- The references a surface holds on a buffer: the number of its `ref()`
calls on the buffer less the number of its `unref()` calls. -/
def referencesHeld (log : List Event) (buffer : ClientBuffer) : Int :=
  (log.count (Event.bufferRef buffer) : Int) - (log.count (Event.bufferUnref buffer) : Int)

/-- The surface holds one reference on its current buffer and none on any
other buffer, and `bufferRef` is the current buffer. -/
def referencesBalanced (d : SurfaceInterfacePrivate) : Prop :=
  d.bufferRef = d.current.buffer ∧
    ∀ buffer : ClientBuffer,
      referencesHeld d.log buffer = if d.current.buffer = some buffer then 1 else 0

/-- The reference counting calls of a commit that finds the reference `old`
and the current buffer `new`. -/
def referenceChange (old new : Option ClientBuffer) : List Event :=
  if old = new then []
  else
    (match old with
      | some buffer => [Event.bufferUnref buffer]
      | none => []) ++
    (match new with
      | some buffer => [Event.bufferRef buffer]
      | none => [])

/-- The image of the surface point `(x, y)` in a buffer with the transform
`transform` and the scale `s`, for a surface that is `w` wide and `h` high
before the transform swaps its axes. -/
def transformedPoint (transform : Transform) (s w h x y : ℚ) : QPointF :=
  match transform with
  | .Normal => ⟨s * x, s * y⟩
  | .Rotated90 => ⟨s * y, s * (h - x)⟩
  | .Rotated180 => ⟨s * (w - x), s * (h - y)⟩
  | .Rotated270 => ⟨s * (w - y), s * x⟩
  | .Flipped => ⟨s * (w - x), s * y⟩
  | .Flipped90 => ⟨s * y, s * x⟩
  | .Flipped180 => ⟨s * x, s * (h - y)⟩
  | .Flipped270 => ⟨s * (w - y), s * (h - x)⟩

/-- The four corners of the rectangle `(0, 0, width, height)`. -/
def corners (width height : Int) : List QPointF :=
  [⟨0, 0⟩, ⟨width, 0⟩, ⟨0, height⟩, ⟨width, height⟩]

/-- The calls `frameRendered` makes on the frame callbacks of a queue: on each
in turn `send_done(msec)` and `destroy()`. -/
def frameCallbackCalls (msec : Nat) (callbacks : List KWaylandFrameCallback) : List Event :=
  callbacks.flatMap fun frameCallback =>
    [Event.send_done frameCallback msec, Event.frameCallbackDestroy frameCallback]

/-- The frame callbacks of a surface are distinct objects: none occurs twice
in the current, the pending and the cached queue taken together. -/
def distinctFrameCallbacks (d : SurfaceInterfacePrivate) : Prop :=
  (d.current.frameCallbacks ++ d.pending.frameCallbacks ++ d.cached.frameCallbacks).Nodup

instance (d : SurfaceInterfacePrivate) : Decidable (distinctFrameCallbacks d) := by
  unfold distinctFrameCallbacks
  infer_instance

/-- The state of a surface after its current frame callbacks have been
notified and destroyed. -/
def withFrameCallbacksDone (msec : Nat) (d : SurfaceInterfacePrivate) :
    SurfaceInterfacePrivate :=
  { d with
    current := { d.current with frameCallbacks := [] }
    log := d.log ++ frameCallbackCalls msec d.current.frameCallbacks }

mutual
/-- The current frame callbacks of the surfaces of a tree: those of the root
in queue order, then those of the sub-surfaces below, then those of the
sub-surfaces above, each with its own sub-surfaces in the same way. -/
def SurfaceTree.frameCallbacks : SurfaceTree → List KWaylandFrameCallback
  | .node d below above => d.current.frameCallbacks ++ below.frameCallbacks ++ above.frameCallbacks
/-- The current frame callbacks of the trees of a list of sub-surfaces. -/
def SubSurfaceList.frameCallbacks : SubSurfaceList → List KWaylandFrameCallback
  | .nil => []
  | .cons _ _ surface rest => surface.frameCallbacks ++ rest.frameCallbacks
end

/-- All frame callbacks the surfaces of a tree hold, in their current, pending
and cached queues. -/
def SurfaceTree.allFrameCallbacks (t : SurfaceTree) : List KWaylandFrameCallback :=
  t.surfaces.flatMap fun d =>
    d.current.frameCallbacks ++ d.pending.frameCallbacks ++ d.cached.frameCallbacks

mutual
/-- The surfaces of a tree that a position can hit, in paint order from top to
bottom, each with the position in its coordinates: nothing when the surface at
the root is not mapped; otherwise the sub-surfaces above from the last to the
first, each with its own sub-surfaces in the same way and the position
translated by the position of the sub-surface, then the surface itself, then
the sub-surfaces below from the last to the first. -/
def SurfaceTree.paintOrder :
    SurfaceTree → List SurfaceInterfacePrivate → QPointF → List SurfaceHit
  | .node d below above, ancestors, position =>
    if d.isMapped ancestors then
      above.paintOrder (d :: ancestors) position ++
        ⟨d, ancestors, position⟩ :: below.paintOrder (d :: ancestors) position
    else []
/-- The paint order of the trees of a list of sub-surfaces, from the last to
the first. -/
def SubSurfaceList.paintOrder :
    SubSurfaceList → List SurfaceInterfacePrivate → QPointF → List SurfaceHit
  | .nil, _, _ => []
  | .cons _ childPosition surface rest, ancestors, position =>
    rest.paintOrder ancestors position ++
      surface.paintOrder ancestors (position.minus childPosition)
end

/-- The size of the surface is not empty and the rectangle `(0, 0, size)`
contains the position. -/
def SurfaceHit.inBounds (hit : SurfaceHit) : Bool :=
  !hit.surface.size.isEmpty && (QRectF.ofSize ⟨0, 0⟩ hit.surface.size).contains hit.position

/-- The effective input region of the surface contains the position, rounded
to an integer point. -/
def SurfaceHit.inInput (hit : SurfaceHit) : Bool :=
  hit.surface.input.contains hit.position.toPoint.x hit.position.toPoint.y

/-! ## Concrete surfaces and traces -/

/-- A 64x64 client buffer. -/
def buffer64 : ClientBuffer := ⟨1, ⟨64, 64⟩⟩

/-- A 128x128 client buffer. -/
def buffer128 : ClientBuffer := ⟨2, ⟨128, 128⟩⟩

/-- A newly created top-level surface: every member has its default value. -/
def freshSurface : SurfaceInterfacePrivate := {}

/-- A trace of staging requests without a commit. -/
def stagingTrace : List Request :=
  [.attach (some ⟨some buffer64⟩) 0 0, .damage 0 0 10 10, .setBufferScale 2,
    .setBufferScale 0, .setBufferTransform 5, .frame (some 7), .setInputRegion none,
    .attach none 3 4, .setShadow (some 1)]

/-- The first commit of the scenario: a 64x64 buffer attached to a new
top-level surface and committed. -/
def firstCommit : SurfaceInterfacePrivate :=
  run freshSurface [.attach (some ⟨some buffer64⟩) 0 0, .commit]

/-- The second commit of the scenario: a 128x128 buffer attached with buffer
scale 2 and committed. -/
def secondCommit : SurfaceInterfacePrivate :=
  run firstCommit [.attach (some ⟨some buffer128⟩) 0 0, .setBufferScale 2, .commit]

/-- A synchronized sub-surface with a committed 64x64 buffer. -/
def synchronizedChild : SurfaceInterfacePrivate :=
  { run freshSurface [.attach (some ⟨some buffer64⟩) 0 0, .commit] with
    subSurface := some ⟨1, true⟩ }

/-- A sub-surface that committed a 64x64 buffer with full damage while it was
synchronized, became desynchronized afterwards and then staged the buffer
scale 2. -/
def cachedThenDesynchronized : SurfaceInterfacePrivate :=
  run
    { run { freshSurface with subSurface := some ⟨1, true⟩ }
        [.attach (some ⟨some buffer64⟩) 0 0, .damage 0 0 64 64, .commit] with
      subSurface := some ⟨1, false⟩ }
    [.setBufferScale 2]

/-- A top-level surface with a committed 64x64 buffer that has staged a
128x128 buffer with scale 2, buffer damage on the whole buffer and surface
damage `(0, 0, 10, 10)`. -/
def stagedDamage : SurfaceInterfacePrivate :=
  run firstCommit
    [.attach (some ⟨some buffer128⟩) 0 0, .setBufferScale 2, .damageBuffer 0 0 128 128,
      .damage 0 0 10 10]

/-- A top-level surface with the children 1, 2 and 3, child 1 lowered below
the parent, after a commit. -/
def stackedChildren : SurfaceInterfacePrivate :=
  run ((((freshSurface.addChild 1).addChild 2).addChild 3).lowerChild 1 Anchor.parent).2
    [.commit]

/-- A top-level surface with a committed buffer on which the persistent
pointer confinement 5 has been installed. -/
def confinedSurface : SurfaceInterfacePrivate :=
  { run freshSurface [.attach (some ⟨some buffer64⟩) 0 0, .commit] with
    confinedPointer := some 5
    constrainsUnboundConnection := some ⟨5, ConstraintKind.confinement⟩
    log := (run freshSurface [.attach (some ⟨some buffer64⟩) 0 0, .commit]).log ++
      [Event.pointerConstraintsChanged] }

/-- A top-level surface with a committed buffer on which the one-shot pointer
lock 7 has been installed. -/
def lockedSurface : SurfaceInterfacePrivate :=
  { firstCommit with
    lockedPointer := some 7
    constrainsOneShotConnection := some ⟨7, ConstraintKind.lock⟩
    constrainsUnboundConnection := some ⟨7, ConstraintKind.lock⟩
    log := firstCommit.log ++ [Event.pointerConstraintsChanged] }

/-- The surface of the first commit with a staged 128x128 buffer of scale 2
and transform `Flipped90`, and a viewport source rectangle `(16, 8, 32, 24)`. -/
def viewportStaged : SurfaceInterfacePrivate :=
  { run firstCommit
      [.attach (some ⟨some buffer128⟩) 0 0, .setBufferScale 2, .setBufferTransform 5] with
    pending :=
      { (run firstCommit
          [.attach (some ⟨some buffer128⟩) 0 0, .setBufferScale 2,
            .setBufferTransform 5]).pending with
        viewport := { sourceGeometry := ⟨16, 8, 32, 24⟩, sourceGeometryIsSet := true } } }

/-- The surface of the first commit with a staged 128x64 buffer of scale 2
and transform `Rotated90`. -/
def rotatedStaged : SurfaceInterfacePrivate :=
  run firstCommit
    [.attach (some ⟨some ⟨3, ⟨128, 64⟩⟩⟩) 0 0, .setBufferScale 2, .setBufferTransform 1]

/-- The surface of the first commit with the sub-surface 1 above it, at the
position `(10, 10)`: the parent has the current frame callbacks 4 and 5 and
the pending frame callback 9, the sub-surface has a committed 64x64 buffer,
the current frame callback 6 and the cached frame callback 8. -/
def parentWithChild : SurfaceTree :=
  .node
    { firstCommit with
      current := { firstCommit.current with above := [1], frameCallbacks := [4, 5] }
      pending := { firstCommit.pending with above := [1], frameCallbacks := [9] }
      cached := { firstCommit.cached with above := [1] }
      outputs := [1, 2] }
    .nil
    (.cons 1 ⟨10, 10⟩
      (.node
        { firstCommit with
          subSurface := some ⟨1, false⟩
          current := { firstCommit.current with frameCallbacks := [6] }
          cached := { firstCommit.cached with frameCallbacks := [8] }
          outputs := [2, 3] }
        .nil .nil)
      .nil)

/-! ## Comparison of regions -/

/-- Among the cuts of a list either all lie to the right of `v` or there is a
greatest one that is not to the right of `v`. -/
theorem exists_floor_cut (C : List Int) (v : Int) :
    (∀ c ∈ C, v < c) ∨ ∃ x0 ∈ C, x0 ≤ v ∧ ∀ c ∈ C, c ≤ v → c ≤ x0 := by
  induction C with
  | nil => left; simp
  | cons a t ih =>
    by_cases ha : a ≤ v
    · right
      rcases ih with h | ⟨x0, hx0, hle, hmax⟩
      · refine ⟨a, by simp, ha, ?_⟩
        intro c hc hcv
        rcases List.mem_cons.1 hc with rfl | hc
        · exact le_refl _
        · have := h c hc
          omega
      · by_cases hax : a ≤ x0
        · refine ⟨x0, List.mem_cons_of_mem _ hx0, hle, ?_⟩
          intro c hc hcv
          rcases List.mem_cons.1 hc with rfl | hc
          · exact hax
          · exact hmax c hc hcv
        · refine ⟨a, by simp, ha, ?_⟩
          intro c hc hcv
          rcases List.mem_cons.1 hc with rfl | hc
          · exact le_refl _
          · have := hmax c hc hcv
            omega
    · rcases ih with h | ⟨x0, hx0, hle, hmax⟩
      · left
        intro c hc
        rcases List.mem_cons.1 hc with rfl | hc
        · omega
        · exact h c hc
      · right
        refine ⟨x0, List.mem_cons_of_mem _ hx0, hle, ?_⟩
        intro c hc hcv
        rcases List.mem_cons.1 hc with rfl | hc
        · omega
        · exact hmax c hc hcv

theorem QRect.rect_contains_eq_of_floor (q : QRect) (px x0 py y0 : Int)
    (hx : x0 ≤ px) (hx1 : q.x ≤ px → q.x ≤ x0) (hx2 : q.x + q.width ≤ px → q.x + q.width ≤ x0)
    (hy : y0 ≤ py) (hy1 : q.y ≤ py → q.y ≤ y0)
    (hy2 : q.y + q.height ≤ py → q.y + q.height ≤ y0) :
    q.contains px py = q.contains x0 y0 := by
  have e1 : (q.x ≤ px) = (q.x ≤ x0) := propext ⟨hx1, fun h => le_trans h hx⟩
  have e2 : (px < q.x + q.width) = (x0 < q.x + q.width) :=
    propext ⟨fun h => lt_of_le_of_lt hx h, fun h => by by_contra hn; have := hx2 (not_lt.1 hn); omega⟩
  have e3 : (q.y ≤ py) = (q.y ≤ y0) := propext ⟨hy1, fun h => le_trans h hy⟩
  have e4 : (py < q.y + q.height) = (y0 < q.y + q.height) :=
    propext ⟨fun h => lt_of_le_of_lt hy h, fun h => by by_contra hn; have := hy2 (not_lt.1 hn); omega⟩
  simp only [QRect.contains, e1, e2, e3, e4]

theorem QRegion.mem_xcuts (r : QRegion) (q : QRect) (h : q ∈ r.rects) :
    q.x ∈ r.xcuts ∧ q.x + q.width ∈ r.xcuts := by
  simp only [QRegion.xcuts, List.mem_flatMap]
  exact ⟨⟨q, h, by simp⟩, ⟨q, h, by simp⟩⟩

theorem QRegion.mem_ycuts (r : QRegion) (q : QRect) (h : q ∈ r.rects) :
    q.y ∈ r.ycuts ∧ q.y + q.height ∈ r.ycuts := by
  simp only [QRegion.ycuts, List.mem_flatMap]
  exact ⟨⟨q, h, by simp⟩, ⟨q, h, by simp⟩⟩

theorem QRegion.contains_eq_of_floor (r : QRegion) (X Y : List Int) (px x0 py y0 : Int)
    (hX : ∀ c ∈ r.xcuts, c ∈ X) (hY : ∀ c ∈ r.ycuts, c ∈ Y)
    (hx : x0 ≤ px) (hxm : ∀ c ∈ X, c ≤ px → c ≤ x0)
    (hy : y0 ≤ py) (hym : ∀ c ∈ Y, c ≤ py → c ≤ y0) :
    r.contains px py = r.contains x0 y0 := by
  simp only [QRegion.contains]
  have : ∀ q ∈ r.rects, q.contains px py = q.contains x0 y0 := by
    intro q hq
    have h1 := r.mem_xcuts q hq
    have h2 := r.mem_ycuts q hq
    exact q.rect_contains_eq_of_floor px x0 py y0 hx (hxm _ (hX _ h1.1)) (hxm _ (hX _ h1.2))
      hy (hym _ (hY _ h2.1)) (hym _ (hY _ h2.2))
  rw [Bool.eq_iff_iff]
  simp only [List.any_eq_true]
  constructor
  · rintro ⟨q, hq, h⟩; exact ⟨q, hq, (this q hq) ▸ h⟩
  · rintro ⟨q, hq, h⟩; exact ⟨q, hq, (this q hq).symm ▸ h⟩

theorem QRegion.contains_eq_false_of_left (r : QRegion) (X : List Int) (px py : Int)
    (hX : ∀ c ∈ r.xcuts, c ∈ X) (h : ∀ c ∈ X, px < c) : r.contains px py = false := by
  simp only [QRegion.contains, List.any_eq_false]
  intro q hq
  have := h _ (hX _ (r.mem_xcuts q hq).1)
  simp [QRect.contains]
  intro h1
  omega

theorem QRegion.contains_eq_false_of_above (r : QRegion) (Y : List Int) (px py : Int)
    (hY : ∀ c ∈ r.ycuts, c ∈ Y) (h : ∀ c ∈ Y, py < c) : r.contains px py = false := by
  simp only [QRegion.contains, List.any_eq_false]
  intro q hq
  have := h _ (hY _ (r.mem_ycuts q hq).1)
  simp [QRect.contains]
  intro h1 h2 h3
  omega

/-- The comparison `QRegion.equal` holds exactly when the two regions cover
the same points. -/
theorem QRegion.equal_iff (a b : QRegion) :
    a.equal b = true ↔ ∀ px py : Int, a.contains px py = b.contains px py := by
  constructor
  · intro h px py
    simp only [QRegion.equal, List.all_eq_true, beq_iff_eq] at h
    have hXa : ∀ c ∈ a.xcuts, c ∈ a.xcuts ++ b.xcuts := fun c hc => List.mem_append_left _ hc
    have hXb : ∀ c ∈ b.xcuts, c ∈ a.xcuts ++ b.xcuts := fun c hc => List.mem_append_right _ hc
    have hYa : ∀ c ∈ a.ycuts, c ∈ a.ycuts ++ b.ycuts := fun c hc => List.mem_append_left _ hc
    have hYb : ∀ c ∈ b.ycuts, c ∈ a.ycuts ++ b.ycuts := fun c hc => List.mem_append_right _ hc
    rcases exists_floor_cut (a.xcuts ++ b.xcuts) px with hx | ⟨x0, hx0, hxle, hxm⟩
    · rw [a.contains_eq_false_of_left _ px py hXa hx, b.contains_eq_false_of_left _ px py hXb hx]
    · rcases exists_floor_cut (a.ycuts ++ b.ycuts) py with hy | ⟨y0, hy0, hyle, hym⟩
      · rw [a.contains_eq_false_of_above _ px py hYa hy,
          b.contains_eq_false_of_above _ px py hYb hy]
      · rw [a.contains_eq_of_floor _ _ px x0 py y0 hXa hYa hxle hxm hyle hym,
          b.contains_eq_of_floor _ _ px x0 py y0 hXb hYb hxle hxm hyle hym]
        exact h x0 hx0 y0 hy0
  · intro h
    simp only [QRegion.equal, List.all_eq_true, beq_iff_eq]
    intro px _ py _
    exact h px py

/-! ## Merging -/

/-- C3: after `source.mergeInto(target)` every flag-guarded field of the
target (buffer with offset, damage and buffer damage; viewport source
rectangle; viewport destination size; shadow; blur; contrast; slide; input;
opaque region; buffer scale; buffer transform) has the value of the source and
a set flag when the flag of the source was set, and has the previous value and
flag of the target otherwise; the frame callbacks of the target are its
previous callbacks followed by the callbacks of the source, in order. -/
theorem mergeInto_target_fields (source target : SurfaceState) :
    (if source.bufferIsSet then
        (source.mergeInto target).2.buffer = source.buffer ∧
        (source.mergeInto target).2.offset = source.offset ∧
        (source.mergeInto target).2.damage = source.damage ∧
        (source.mergeInto target).2.bufferDamage = source.bufferDamage ∧
        (source.mergeInto target).2.bufferIsSet = true
      else
        (source.mergeInto target).2.buffer = target.buffer ∧
        (source.mergeInto target).2.offset = target.offset ∧
        (source.mergeInto target).2.damage = target.damage ∧
        (source.mergeInto target).2.bufferDamage = target.bufferDamage ∧
        (source.mergeInto target).2.bufferIsSet = target.bufferIsSet) ∧
    (if source.viewport.sourceGeometryIsSet then
        (source.mergeInto target).2.viewport.sourceGeometry = source.viewport.sourceGeometry ∧
        (source.mergeInto target).2.viewport.sourceGeometryIsSet = true
      else
        (source.mergeInto target).2.viewport.sourceGeometry = target.viewport.sourceGeometry ∧
        (source.mergeInto target).2.viewport.sourceGeometryIsSet =
          target.viewport.sourceGeometryIsSet) ∧
    (if source.viewport.destinationSizeIsSet then
        (source.mergeInto target).2.viewport.destinationSize =
          source.viewport.destinationSize ∧
        (source.mergeInto target).2.viewport.destinationSizeIsSet = true
      else
        (source.mergeInto target).2.viewport.destinationSize =
          target.viewport.destinationSize ∧
        (source.mergeInto target).2.viewport.destinationSizeIsSet =
          target.viewport.destinationSizeIsSet) ∧
    (if source.shadowIsSet then
        (source.mergeInto target).2.shadow = source.shadow ∧
        (source.mergeInto target).2.shadowIsSet = true
      else
        (source.mergeInto target).2.shadow = target.shadow ∧
        (source.mergeInto target).2.shadowIsSet = target.shadowIsSet) ∧
    (if source.blurIsSet then
        (source.mergeInto target).2.blur = source.blur ∧
        (source.mergeInto target).2.blurIsSet = true
      else
        (source.mergeInto target).2.blur = target.blur ∧
        (source.mergeInto target).2.blurIsSet = target.blurIsSet) ∧
    (if source.contrastIsSet then
        (source.mergeInto target).2.contrast = source.contrast ∧
        (source.mergeInto target).2.contrastIsSet = true
      else
        (source.mergeInto target).2.contrast = target.contrast ∧
        (source.mergeInto target).2.contrastIsSet = target.contrastIsSet) ∧
    (if source.slideIsSet then
        (source.mergeInto target).2.slide = source.slide ∧
        (source.mergeInto target).2.slideIsSet = true
      else
        (source.mergeInto target).2.slide = target.slide ∧
        (source.mergeInto target).2.slideIsSet = target.slideIsSet) ∧
    (if source.inputIsSet then
        (source.mergeInto target).2.input = source.input ∧
        (source.mergeInto target).2.inputIsSet = true
      else
        (source.mergeInto target).2.input = target.input ∧
        (source.mergeInto target).2.inputIsSet = target.inputIsSet) ∧
    (if source.opaqueIsSet then
        (source.mergeInto target).2.opaqueRegion = source.opaqueRegion ∧
        (source.mergeInto target).2.opaqueIsSet = true
      else
        (source.mergeInto target).2.opaqueRegion = target.opaqueRegion ∧
        (source.mergeInto target).2.opaqueIsSet = target.opaqueIsSet) ∧
    (if source.bufferScaleIsSet then
        (source.mergeInto target).2.bufferScale = source.bufferScale ∧
        (source.mergeInto target).2.bufferScaleIsSet = true
      else
        (source.mergeInto target).2.bufferScale = target.bufferScale ∧
        (source.mergeInto target).2.bufferScaleIsSet = target.bufferScaleIsSet) ∧
    (if source.bufferTransformIsSet then
        (source.mergeInto target).2.bufferTransform = source.bufferTransform ∧
        (source.mergeInto target).2.bufferTransformIsSet = true
      else
        (source.mergeInto target).2.bufferTransform = target.bufferTransform ∧
        (source.mergeInto target).2.bufferTransformIsSet = target.bufferTransformIsSet) ∧
    (source.mergeInto target).2.frameCallbacks =
      target.frameCallbacks ++ source.frameCallbacks := by
  refine ⟨?_, ?_, ?_, ?_, ?_, ?_, ?_, ?_, ?_, ?_, ?_, rfl⟩ <;>
    (split <;> simp_all [SurfaceState.mergeInto])

/-- C4, the claim as stated fails: a source whose `childrenChanged` flag is
unset and whose only child is in its `below` list, merged into a target that
has the child in its `above` list, leaves the lists of the target as they
were, so they are not the lists of the source. -/
theorem mergeInto_children_not_always_carried :
    (SurfaceState.mergeInto { below := [1] } { above := [1] }).2.below ≠
        ({ below := [1] } : SurfaceState).below ∧
    (SurfaceState.mergeInto { below := [1] } { above := [1] }).2.above ≠
        ({ below := [1] } : SurfaceState).above := by
  simp [SurfaceState.mergeInto]

/-- C4, amended: after `source.mergeInto(target)` the `below` and `above`
lists of the target are those of the source as they were before the merge
when the `childrenChanged` flag of the source is set, and are the previous
lists of the target when it is not set. -/
theorem mergeInto_children (source target : SurfaceState) :
    if source.childrenChanged then
      (source.mergeInto target).2.below = source.below ∧
      (source.mergeInto target).2.above = source.above ∧
      (source.mergeInto target).2.childrenChanged = true
    else
      (source.mergeInto target).2.below = target.below ∧
      (source.mergeInto target).2.above = target.above ∧
      (source.mergeInto target).2.childrenChanged = target.childrenChanged := by
  split <;> simp_all [SurfaceState.mergeInto]

/-- C5: after `source.mergeInto(target)` the source is a default constructed
`SurfaceState` (every flag unset, no buffer, empty damage and buffer damage,
no frame callbacks) except that its `below` and `above` lists are those of the
target after the merge; merging the reset source into the same target a
second time leaves the target as it is. -/
theorem mergeInto_resets_source (source target : SurfaceState) :
    (source.mergeInto target).1 =
      { below := (source.mergeInto target).2.below,
        above := (source.mergeInto target).2.above } ∧
    ((source.mergeInto target).1.bufferIsSet = false ∧
      (source.mergeInto target).1.viewport.sourceGeometryIsSet = false ∧
      (source.mergeInto target).1.viewport.destinationSizeIsSet = false ∧
      (source.mergeInto target).1.childrenChanged = false ∧
      (source.mergeInto target).1.shadowIsSet = false ∧
      (source.mergeInto target).1.blurIsSet = false ∧
      (source.mergeInto target).1.contrastIsSet = false ∧
      (source.mergeInto target).1.slideIsSet = false ∧
      (source.mergeInto target).1.inputIsSet = false ∧
      (source.mergeInto target).1.opaqueIsSet = false ∧
      (source.mergeInto target).1.bufferScaleIsSet = false ∧
      (source.mergeInto target).1.bufferTransformIsSet = false) ∧
    ((source.mergeInto target).1.buffer = none ∧
      (source.mergeInto target).1.damage = QRegion.empty ∧
      (source.mergeInto target).1.bufferDamage = QRegion.empty ∧
      (source.mergeInto target).1.frameCallbacks = []) ∧
    ((source.mergeInto target).1.mergeInto (source.mergeInto target).2).2 =
      (source.mergeInto target).2 := by
  refine ⟨rfl, ?_, ?_, ?_⟩
  · simp [SurfaceState.mergeInto]
  · simp [SurfaceState.mergeInto]
  · simp [SurfaceState.mergeInto]

/-! ## Staging -/

theorem sameVisible_refl (d : SurfaceInterfacePrivate) : sameVisible d d := by
  simp [sameVisible]

theorem sameVisible_trans {a b c : SurfaceInterfacePrivate} (h1 : sameVisible a b)
    (h2 : sameVisible b c) : sameVisible a c := by
  obtain ⟨a1, a2, a3, a4, a5, a6, a7, a8⟩ := h1
  obtain ⟨b1, b2, b3, b4, b5, b6, b7, b8⟩ := h2
  exact ⟨b1.trans a1, b2.trans a2, b3.trans a3, b4.trans a4, b5.trans a5, b6.trans a6,
    b7.trans a7, b8.trans a8⟩

/-- A staging request changes neither what the surface shows nor the cached
state, the sub-surface role or the cache flag. -/
theorem handle_staging (d : SurfaceInterfacePrivate) (r : Request)
    (h : r.isStaging = true) :
    sameVisible d (handle d r) ∧ (handle d r).cached = d.cached ∧
      (handle d r).subSurface = d.subSurface ∧
      (handle d r).hasCacheState = d.hasCacheState := by
  cases r with
  | commit => simp [Request.isStaging] at h
  | attach buffer x y =>
    cases buffer <;> simp [handle, surface_attach, sameVisible, input]
  | frame callbackResource =>
    cases callbackResource <;> simp [handle, surface_frame, sameVisible, input]
  | setBufferScale scale =>
    by_cases hs : scale < 1 <;> simp [handle, surface_set_buffer_scale, sameVisible, input, hs]
  | setBufferTransform transform =>
    by_cases hs : transform < 0 ∨ transform > WL_OUTPUT_TRANSFORM_FLIPPED_270 <;>
      simp [handle, surface_set_buffer_transform, sameVisible, input, hs]
  | _ =>
    simp [handle, surface_damage, surface_damage_buffer, surface_set_opaque_region,
      surface_set_input_region, setShadow, setBlur, setSlide, setContrast, sameVisible, input]

theorem run_staging (requests : List Request) :
    ∀ d : SurfaceInterfacePrivate, (∀ r ∈ requests, r.isStaging = true) →
      sameVisible d (run d requests) ∧ (run d requests).cached = d.cached := by
  induction requests with
  | nil => intro d _; exact ⟨sameVisible_refl d, rfl⟩
  | cons r rs ih =>
    intro d h
    have h1 := handle_staging d r (h r (List.mem_cons_self r rs))
    have h2 := ih (handle d r) (fun r' hr' => h r' (List.mem_cons_of_mem r hr'))
    exact ⟨sameVisible_trans h1.1 h2.1, h2.2.trans h1.2.1⟩

/-- C6: each staging request (`surface_attach`, `surface_damage`,
`surface_damage_buffer`, `surface_frame`, `surface_set_opaque_region`,
`surface_set_input_region`, `surface_set_buffer_scale`,
`surface_set_buffer_transform`, `setShadow`, `setBlur`, `setSlide`,
`setContrast`) changes only the pending state: whatever the state and the
arguments, the current state, the cached state, the surface size, the buffer
size, both matrices, the effective input region and the buffer reference are
the same after the request as before and nothing is emitted; so after any
sequence of staging requests, made without a commit, nothing of that has
changed. -/
theorem staging_changes_only_pending (d : SurfaceInterfacePrivate) (requests : List Request)
    (h : ∀ r ∈ requests, r.isStaging = true) :
    (sameVisible d (run d requests) ∧ (run d requests).cached = d.cached) ∧
    (∀ buffer x y, sameVisible d (d.surface_attach buffer x y) ∧
      (d.surface_attach buffer x y).cached = d.cached) ∧
    (∀ x y width height, sameVisible d (d.surface_damage x y width height) ∧
      (d.surface_damage x y width height).cached = d.cached) ∧
    (∀ x y width height, sameVisible d (d.surface_damage_buffer x y width height) ∧
      (d.surface_damage_buffer x y width height).cached = d.cached) ∧
    (∀ callback, sameVisible d (d.surface_frame callback) ∧
      (d.surface_frame callback).cached = d.cached) ∧
    (∀ region, sameVisible d (d.surface_set_opaque_region region) ∧
      (d.surface_set_opaque_region region).cached = d.cached) ∧
    (∀ region, sameVisible d (d.surface_set_input_region region) ∧
      (d.surface_set_input_region region).cached = d.cached) ∧
    (∀ scale, sameVisible d (d.surface_set_buffer_scale scale) ∧
      (d.surface_set_buffer_scale scale).cached = d.cached) ∧
    (∀ transform, sameVisible d (d.surface_set_buffer_transform transform) ∧
      (d.surface_set_buffer_transform transform).cached = d.cached) ∧
    (∀ shadow, sameVisible d (d.setShadow shadow) ∧ (d.setShadow shadow).cached = d.cached) ∧
    (∀ blur, sameVisible d (d.setBlur blur) ∧ (d.setBlur blur).cached = d.cached) ∧
    (∀ slide, sameVisible d (d.setSlide slide) ∧ (d.setSlide slide).cached = d.cached) ∧
    (∀ contrast, sameVisible d (d.setContrast contrast) ∧
      (d.setContrast contrast).cached = d.cached) := by
  refine ⟨run_staging requests d h, ?_, ?_, ?_, ?_, ?_, ?_, ?_, ?_, ?_, ?_, ?_, ?_⟩
  · intro buffer x y
    have := handle_staging d (.attach buffer x y) rfl
    exact ⟨this.1, this.2.1⟩
  · intro x y width height
    have := handle_staging d (.damage x y width height) rfl
    exact ⟨this.1, this.2.1⟩
  · intro x y width height
    have := handle_staging d (.damageBuffer x y width height) rfl
    exact ⟨this.1, this.2.1⟩
  · intro callback
    have := handle_staging d (.frame callback) rfl
    exact ⟨this.1, this.2.1⟩
  · intro region
    have := handle_staging d (.setOpaqueRegion region) rfl
    exact ⟨this.1, this.2.1⟩
  · intro region
    have := handle_staging d (.setInputRegion region) rfl
    exact ⟨this.1, this.2.1⟩
  · intro scale
    have := handle_staging d (.setBufferScale scale) rfl
    exact ⟨this.1, this.2.1⟩
  · intro transform
    have := handle_staging d (.setBufferTransform transform) rfl
    exact ⟨this.1, this.2.1⟩
  · intro shadow
    have := handle_staging d (.setShadow shadow) rfl
    exact ⟨this.1, this.2.1⟩
  · intro blur
    have := handle_staging d (.setBlur blur) rfl
    exact ⟨this.1, this.2.1⟩
  · intro slide
    have := handle_staging d (.setSlide slide) rfl
    exact ⟨this.1, this.2.1⟩
  · intro contrast
    have := handle_staging d (.setContrast contrast) rfl
    exact ⟨this.1, this.2.1⟩

/-- C6 at a concrete trace: nine staging requests on a new surface. -/
theorem staging_changes_only_pending_witness :
    (∀ r ∈ stagingTrace, r.isStaging = true) ∧
    sameVisible freshSurface (run freshSurface stagingTrace) ∧
    (run freshSurface stagingTrace).cached = freshSurface.cached :=
  ⟨by decide, (staging_changes_only_pending freshSurface stagingTrace (by decide)).1⟩

/-- C7: `surface_set_buffer_scale` is rejected, with the `invalid_scale` error
posted, exactly when `scale < 1`, and `surface_set_buffer_transform` is
rejected, with the `invalid_transform` error posted, exactly when the value is
outside `0 .. 7`.  A rejected request leaves the pending, cached and current
state as they are (only the error is posted); an accepted request posts no
error and sets nothing but the pending value and its flag. -/
theorem scale_and_transform_validation (d : SurfaceInterfacePrivate) (value : Int) :
    (if value < 1 then
        d.surface_set_buffer_scale value =
          { d with errors := d.errors ++ [ProtocolError.invalid_scale value] } ∧
        (d.surface_set_buffer_scale value).pending = d.pending ∧
        (d.surface_set_buffer_scale value).cached = d.cached ∧
        (d.surface_set_buffer_scale value).current = d.current
      else
        d.surface_set_buffer_scale value =
          { d with pending := { d.pending with bufferScale := value, bufferScaleIsSet := true } } ∧
        (d.surface_set_buffer_scale value).errors = d.errors) ∧
    (if value < 0 ∨ 7 < value then
        d.surface_set_buffer_transform value =
          { d with errors := d.errors ++ [ProtocolError.invalid_transform value] } ∧
        (d.surface_set_buffer_transform value).pending = d.pending ∧
        (d.surface_set_buffer_transform value).cached = d.cached ∧
        (d.surface_set_buffer_transform value).current = d.current
      else
        d.surface_set_buffer_transform value =
          { d with pending :=
              { d.pending with
                bufferTransform := Transform.ofInt value
                bufferTransformIsSet := true } } ∧
        (d.surface_set_buffer_transform value).errors = d.errors) := by
  constructor
  · by_cases h : value < 1 <;> simp [surface_set_buffer_scale, h]
  · by_cases h : value < 0 ∨ 7 < value <;>
      simp [surface_set_buffer_transform, WL_OUTPUT_TRANSFORM_FLIPPED_270, h]

/-- C8: `surface_attach` with a null buffer leaves no pending buffer and
empty pending damage and buffer damage, whatever damage had been staged, sets
`bufferIsSet` and records the offset; `surface_attach` with a buffer that is
not null stages the client buffer of the resource, sets `bufferIsSet`, records
the offset and leaves the pending damage and buffer damage as they were. -/
theorem attach_null_clears_damage (d : SurfaceInterfacePrivate) (x y : Int) :
    ((d.surface_attach none x y).pending.buffer = none ∧
      (d.surface_attach none x y).pending.damage = QRegion.empty ∧
      (d.surface_attach none x y).pending.bufferDamage = QRegion.empty ∧
      (d.surface_attach none x y).pending.bufferIsSet = true ∧
      (d.surface_attach none x y).pending.offset = ⟨x, y⟩ ∧
      (d.surface_attach none x y).pending.damage.isEmpty = true ∧
      (d.surface_attach none x y).pending.bufferDamage.isEmpty = true) ∧
    (∀ resource : WlBuffer,
      (d.surface_attach (some resource) x y).pending.buffer = resource.clientBuffer ∧
      (d.surface_attach (some resource) x y).pending.damage = d.pending.damage ∧
      (d.surface_attach (some resource) x y).pending.bufferDamage = d.pending.bufferDamage ∧
      (d.surface_attach (some resource) x y).pending.bufferIsSet = true ∧
      (d.surface_attach (some resource) x y).pending.offset = ⟨x, y⟩) := by
  constructor
  · simp [surface_attach, QRegion.isEmpty, QRegion.empty]
  · intro resource
    simp [surface_attach]

/-! ## Committing -/

/-- The sizes `applyState` computes. -/
theorem applyState_size_cases (d : SurfaceInterfacePrivate) (next : StateRef) :
    match (d.applyState next).current.buffer with
    | some buffer =>
      (d.applyState next).bufferSize = buffer.size ∧
      (d.applyState next).size =
        if (d.applyState next).current.viewport.destinationSize.isValid then
          (d.applyState next).current.viewport.destinationSize
        else if (d.applyState next).current.viewport.sourceGeometry.isValid then
          (d.applyState next).current.viewport.sourceGeometry.size.toSize
        else if (d.applyState next).current.bufferTransform.swapsAxes then
          (buffer.size.divScale (d.applyState next).current.bufferScale).transpose
        else buffer.size.divScale (d.applyState next).current.bufferScale
    | none =>
      (d.applyState next).size = QSize.null ∧ (d.applyState next).bufferSize = QSize.null := by
  simp only [applyState, size]
  cases hb : ((d.state next).mergeInto d.current).2.buffer with
  | none => simp
  | some buffer =>
    simp only [true_and]
    split_ifs with h1 h2 h3 <;>
      cases ht : ((d.state next).mergeInto d.current).2.bufferTransform <;>
      simp_all [Transform.swapsAxes]

/-- C9: after every `applyState` that leaves a current buffer, the buffer size
is the size of that buffer and the surface size is the viewport destination
size if that is valid; otherwise the size of the viewport source rectangle
(as an integer size) if that rectangle is valid; otherwise the size of the
buffer divided by the buffer scale, with width and height swapped for
`Rotated90`, `Rotated270`, `Flipped90` and `Flipped270` and not swapped for the
other four transforms.  When no current buffer remains, the surface size and
the buffer size are both the null size. -/
theorem applyState_sizes (d : SurfaceInterfacePrivate) (next : StateRef) :
    match (d.applyState next).current.buffer with
    | some buffer =>
      (d.applyState next).bufferSize = buffer.size ∧
      (d.applyState next).size =
        if (d.applyState next).current.viewport.destinationSize.isValid then
          (d.applyState next).current.viewport.destinationSize
        else if (d.applyState next).current.viewport.sourceGeometry.isValid then
          (d.applyState next).current.viewport.sourceGeometry.size.toSize
        else if (d.applyState next).current.bufferTransform.swapsAxes then
          (buffer.size.divScale (d.applyState next).current.bufferScale).transpose
        else buffer.size.divScale (d.applyState next).current.bufferScale
    | none =>
      (d.applyState next).size = QSize.null ∧ (d.applyState next).bufferSize = QSize.null :=
  applyState_size_cases d next

theorem mem_emitIf (e e' : Event) (c : Bool) : e ∈ emitIf c e' ↔ c = true ∧ e = e' := by
  cases c <;> simp [emitIf]

/-- C10: `applyState` emits `sizeChanged` if and only if the surface size
after the commit differs from the size before it, `bufferSizeChanged` if and
only if the buffer size differs, and `surfaceToBufferMatrixChanged` if and
only if the matrix differs.  On a new top-level surface, attaching a 64x64
buffer (scale 1) and committing gives the size 64x64 and maps the surface;
attaching a 128x128 buffer with scale 2 and committing gives the size 64x64
again, `bufferSizeChanged` is emitted and `sizeChanged` is not. -/
theorem applyState_geometry_signals :
    (∀ (d : SurfaceInterfacePrivate) (next : StateRef),
      ∃ events : List Event,
        (d.applyState next).log = d.log ++ events ∧
        (Event.sizeChanged ∈ events ↔ (d.applyState next).size ≠ d.size) ∧
        (Event.bufferSizeChanged ∈ events ↔ (d.applyState next).bufferSize ≠ d.bufferSize) ∧
        (Event.surfaceToBufferMatrixChanged ∈ events ↔
          (d.applyState next).surfaceToBufferMatrix ≠ d.surfaceToBufferMatrix)) ∧
    (firstCommit.size = ⟨64, 64⟩ ∧ firstCommit.current.buffer = some buffer64 ∧
      firstCommit.buffer = some buffer64 ∧
      firstCommit.log =
        [Event.bufferRef buffer64, Event.inputChanged firstCommit.input, Event.mapped,
          Event.bufferSizeChanged, Event.sizeChanged, Event.committed]) ∧
    (secondCommit.size = ⟨64, 64⟩ ∧ secondCommit.bufferSize = ⟨128, 128⟩ ∧
      secondCommit.log = firstCommit.log ++
        [Event.bufferUnref buffer64, Event.bufferRef buffer128, Event.bufferScaleChanged 2,
          Event.surfaceToBufferMatrixChanged, Event.bufferSizeChanged, Event.committed] ∧
      Event.bufferSizeChanged ∈ secondCommit.log.drop firstCommit.log.length ∧
      Event.sizeChanged ∉ secondCommit.log.drop firstCommit.log.length) := by
  refine ⟨?_, by decide!, by decide!⟩
  intro d next
  refine ⟨_, rfl, ?_, ?_, ?_⟩
  all_goals
    simp only [List.mem_append, mem_emitIf, List.mem_map, List.mem_singleton]
    simp [applyState, size]
    intro h
    exfalso
    rcases h with ((h | h) | ⟨_, h | h⟩) | ⟨_, h⟩
    · split at h <;> simp at h
    · split at h <;> simp at h
    · split at h <;> simp at h
    · split at h <;> simp at h
    · split at h <;> split at h <;> simp at h

/-! ## Commits of a sub-surface -/

theorem surface_commit_synchronized (d : SurfaceInterfacePrivate) (sub : SubSurfaceInterface)
    (h1 : d.subSurface = some sub) (h2 : sub.isSynchronized = true) :
    d.surface_commit = d.commitToCache := by
  simp [surface_commit, commitSubSurface, h1, h2]

theorem handle_synchronized (d : SurfaceInterfacePrivate) (sub : SubSurfaceInterface)
    (h1 : d.subSurface = some sub) (h2 : sub.isSynchronized = true) (r : Request) :
    sameVisible d (handle d r) ∧ (handle d r).subSurface = some sub := by
  by_cases hr : r.isStaging = true
  · have h := handle_staging d r hr
    exact ⟨h.1, h.2.2.1.trans h1⟩
  · cases r <;> simp [Request.isStaging] at hr
    simp only [handle, surface_commit_synchronized d sub h1 h2]
    simp [commitToCache, sameVisible, input, h1]

theorem run_synchronized (requests : List Request) :
    ∀ (d : SurfaceInterfacePrivate) (sub : SubSurfaceInterface),
      d.subSurface = some sub → sub.isSynchronized = true →
      sameVisible d (run d requests) ∧ (run d requests).subSurface = some sub := by
  induction requests with
  | nil => intro d sub h1 _; exact ⟨sameVisible_refl d, h1⟩
  | cons r rs ih =>
    intro d sub h1 h2
    have h := handle_synchronized d sub h1 h2 r
    have h' := ih (handle d r) sub h.2 h2
    exact ⟨sameVisible_trans h.1 h'.1, h'.2⟩

theorem run_append (d : SurfaceInterfacePrivate) (xs ys : List Request) :
    run d (xs ++ ys) = run (run d xs) ys := by
  simp [run, List.foldl_append]

/-- C1: on a surface that is a sub-surface whose `isSynchronized()` is true,
any number of commits, interleaved with any staging requests, leave the
current state, the surface size, the buffer size, both matrices, the
effective input region and the buffer reference as they were and emit
nothing; each such commit only merges the pending state into the cached state
and sets `hasCacheState`; after attach and commit rounds the cached buffer is
the buffer of the last attach. -/
theorem synchronized_commits_are_deferred (d : SurfaceInterfacePrivate)
    (sub : SubSurfaceInterface) (h1 : d.subSurface = some sub)
    (h2 : sub.isSynchronized = true) :
    (∀ requests : List Request, sameVisible d (run d requests)) ∧
    (∀ requests : List Request,
      (run d requests).surface_commit =
        { run d requests with
          pending := ((run d requests).pending.mergeInto (run d requests).cached).1
          cached := ((run d requests).pending.mergeInto (run d requests).cached).2
          hasCacheState := true }) ∧
    (∀ (rounds : List (Option WlBuffer × Int × Int)) (last : Option WlBuffer) (x y : Int),
      (run d (attachCommitRounds (rounds ++ [(last, x, y)]))).cached.buffer =
        attachedBuffer last) := by
  refine ⟨fun requests => (run_synchronized requests d sub h1 h2).1, ?_, ?_⟩
  · intro requests
    have h := (run_synchronized requests d sub h1 h2).2
    rw [surface_commit_synchronized _ sub h h2]
    rfl
  · intro rounds last x y
    have h := (run_synchronized (attachCommitRounds rounds) d sub h1 h2).2
    have hsplit : attachCommitRounds (rounds ++ [(last, x, y)]) =
        attachCommitRounds rounds ++ [Request.attach last x y, Request.commit] := by
      simp [attachCommitRounds]
    rw [hsplit, run_append]
    generalize run d (attachCommitRounds rounds) = d' at h
    have h3 : (d'.surface_attach last x y).subSurface = some sub := by
      cases last <;> simpa [surface_attach] using h
    simp only [run, List.foldl, handle]
    rw [surface_commit_synchronized _ sub h3 h2]
    cases last <;> simp [commitToCache, surface_attach, SurfaceState.mergeInto, attachedBuffer]

/-- C1 at a concrete surface: three attach and commit rounds on a
synchronized sub-surface show nothing and leave the third buffer cached. -/
theorem synchronized_commits_are_deferred_witness :
    synchronizedChild.subSurface = some ⟨1, true⟩ ∧
    sameVisible synchronizedChild
      (run synchronizedChild
        (attachCommitRounds
          [(some ⟨some buffer128⟩, 0, 0), (none, 0, 0), (some ⟨some buffer64⟩, 0, 0)])) ∧
    (run synchronizedChild
        (attachCommitRounds
          ([(some ⟨some buffer128⟩, 0, 0), (none, 0, 0)] ++
            [(some ⟨some ⟨3, ⟨32, 32⟩⟩⟩, 0, 0)]))).cached.buffer = some ⟨3, ⟨32, 32⟩⟩ :=
  ⟨rfl,
    (synchronized_commits_are_deferred synchronizedChild ⟨1, true⟩ rfl rfl).1 _,
    (synchronized_commits_are_deferred synchronizedChild ⟨1, true⟩ rfl rfl).2.2 _ _ 0 0⟩

theorem mergeInto_assoc (p c cur : SurfaceState) :
    ((p.mergeInto c).2.mergeInto cur).2 = (p.mergeInto (c.mergeInto cur).2).2 := by
  simp only [SurfaceState.mergeInto]
  simp only [SurfaceState.mk.injEq, Viewport.mk.injEq]
  refine ⟨?_, ?_, ?_, ?_, ?_, ?_, ?_, ?_, ?_, ?_, ?_, ?_, ?_, ?_, ?_, ?_, ?_, ?_, ?_, ?_, ?_,
    ?_, ?_, ?_, ?_, ?_, ?_, ?_, ?_⟩ <;>
    first
      | (split_ifs <;> simp_all)
      | simp

/-- C2, the claim as stated fails: for a desynchronized sub-surface with cache
state, whose cache holds a 64x64 buffer with the damage `(0, 0, 64, 64)` and
whose pending state holds the buffer scale 2, the commit leaves the damage
`(0, 0, 32, 32)` in the current state, while merging the cached and then the
pending state into the current state leaves the damage `(0, 0, 64, 64)`, and
so does applying the cached state and then the pending state. -/
theorem desynchronized_commit_damage_differs :
    cachedThenDesynchronized.subSurface = some ⟨1, false⟩ ∧
    cachedThenDesynchronized.hasCacheState = true ∧
    cachedThenDesynchronized.surface_commit.current ≠
      mergeCachedThenPending cachedThenDesynchronized ∧
    cachedThenDesynchronized.surface_commit.current.damage = ⟨[⟨0, 0, 32, 32⟩]⟩ ∧
    (mergeCachedThenPending cachedThenDesynchronized).damage = ⟨[⟨0, 0, 64, 64⟩]⟩ ∧
    ((cachedThenDesynchronized.applyState .cached).applyState .pending).current.damage =
      ⟨[⟨0, 0, 64, 64⟩]⟩ ∧
    QRegion.equal ⟨[⟨0, 0, 32, 32⟩]⟩ ⟨[⟨0, 0, 64, 64⟩]⟩ = false := by
  decide!

/-- C2, amended: for a desynchronized sub-surface with `hasCacheState` set, a
commit leaves `current` with the same field values other than `damage`, the
same child lists and the same frame callbacks as first merging the cached
state into the current state and then merging the pending state into it (the
callbacks are those of current, then cached, then pending); the damage of
`current` is the damage of that merge, replaced, when the merge set a buffer
that is not null and the merged damage or buffer damage is not empty, by the
surface rectangle intersected with the union of the merged damage and the
merged buffer damage mapped to the surface; afterwards `hasCacheState` is
false.  With no cache state the commit applies the pending state to the
current state directly. -/
theorem desynchronized_commit_promotes_cache (d : SurfaceInterfacePrivate)
    (sub : SubSurfaceInterface) (h1 : d.subSurface = some sub)
    (h2 : sub.isSynchronized = false) :
    if d.hasCacheState then
      d.surface_commit.current =
        { mergeCachedThenPending d with damage := d.surface_commit.current.damage } ∧
      d.surface_commit.current.damage =
        (if (d.pending.bufferIsSet || d.cached.bufferIsSet) &&
            (mergeCachedThenPending d).buffer.isSome &&
            (!(mergeCachedThenPending d).damage.isEmpty ||
              !(mergeCachedThenPending d).bufferDamage.isEmpty) then
          (QRegion.ofRect
              ⟨0, 0, d.surface_commit.size.width, d.surface_commit.size.height⟩).intersected
            ((mergeCachedThenPending d).damage.united
              (d.surface_commit.mapFromBuffer (mergeCachedThenPending d).bufferDamage))
        else (mergeCachedThenPending d).damage) ∧
      (mergeCachedThenPending d).frameCallbacks =
        d.current.frameCallbacks ++ d.cached.frameCallbacks ++ d.pending.frameCallbacks ∧
      d.surface_commit.hasCacheState = false
    else d.surface_commit = d.applyState StateRef.pending := by
  by_cases hc : d.hasCacheState = true
  · have hm : ((d.pending.mergeInto d.cached).2.mergeInto d.current).2 =
        mergeCachedThenPending d := mergeInto_assoc _ _ _
    have hb : ((d.pending.mergeInto d.cached).2).bufferIsSet =
        (d.pending.bufferIsSet || d.cached.bufferIsSet) := by
      cases hp : d.pending.bufferIsSet <;> simp [SurfaceState.mergeInto, hp]
    simp only [hc, if_true]
    simp only [surface_commit, commitSubSurface, h1, h2, hc, commitFromCache, commitToCache,
      applyState, state, setState, size, mapFromBuffer, hm, hb]
    refine ⟨rfl, ?_, ?_, rfl⟩
    · simp
    · simp [mergeCachedThenPending, SurfaceState.mergeInto, List.append_assoc]
  · simp [hc, surface_commit, commitSubSurface, h1, h2]

/-- C2, amended, at the sub-surface `cachedThenDesynchronized`. -/
theorem desynchronized_commit_promotes_cache_witness :
    cachedThenDesynchronized.subSurface = some ⟨1, false⟩ ∧
    (if cachedThenDesynchronized.hasCacheState then
      cachedThenDesynchronized.surface_commit.current =
        { mergeCachedThenPending cachedThenDesynchronized with
          damage := cachedThenDesynchronized.surface_commit.current.damage } ∧
      cachedThenDesynchronized.surface_commit.current.damage =
        (if (cachedThenDesynchronized.pending.bufferIsSet ||
              cachedThenDesynchronized.cached.bufferIsSet) &&
            (mergeCachedThenPending cachedThenDesynchronized).buffer.isSome &&
            (!(mergeCachedThenPending cachedThenDesynchronized).damage.isEmpty ||
              !(mergeCachedThenPending cachedThenDesynchronized).bufferDamage.isEmpty) then
          (QRegion.ofRect
              ⟨0, 0, cachedThenDesynchronized.surface_commit.size.width,
                cachedThenDesynchronized.surface_commit.size.height⟩).intersected
            ((mergeCachedThenPending cachedThenDesynchronized).damage.united
              (cachedThenDesynchronized.surface_commit.mapFromBuffer
                (mergeCachedThenPending cachedThenDesynchronized).bufferDamage))
        else (mergeCachedThenPending cachedThenDesynchronized).damage) ∧
      (mergeCachedThenPending cachedThenDesynchronized).frameCallbacks =
        cachedThenDesynchronized.current.frameCallbacks ++
          cachedThenDesynchronized.cached.frameCallbacks ++
          cachedThenDesynchronized.pending.frameCallbacks ∧
      cachedThenDesynchronized.surface_commit.hasCacheState = false
    else cachedThenDesynchronized.surface_commit =
      cachedThenDesynchronized.applyState StateRef.pending) :=
  ⟨by decide!, desynchronized_commit_promotes_cache cachedThenDesynchronized ⟨1, false⟩
    (by decide!) rfl⟩

/-! ## Signals and hooks of a commit -/

/-- The log of `applyState`: the events of the prologue, the signals, the
parent-commit hooks of the children below and above, the commit hook of the
role, and `committed`. -/
theorem applyState_log (d : SurfaceInterfacePrivate) (next : StateRef) :
    ∃ prologue : List Event,
      (∀ e ∈ prologue, e.isPrologue = true) ∧
      (d.applyState next).log =
        d.log ++ (prologue ++ applyStateSignals d next ++
          ((d.applyState next).current.below.map Event.parentCommit ++
            (d.applyState next).current.above.map Event.parentCommit ++
            emitIf d.role Event.roleCommit ++ [Event.committed])) := by
  refine ⟨(match d.lockedPointer with
      | some lock => [Event.lockedPointerCommit lock]
      | none => []) ++
    (match d.confinedPointer with
      | some confinement => [Event.confinedPointerCommit confinement]
      | none => []) ++
    (if d.bufferRef != ((d.state next).mergeInto d.current).2.buffer then
      (match d.bufferRef with
        | some old => [Event.bufferUnref old]
        | none => []) ++
      (match ((d.state next).mergeInto d.current).2.buffer with
        | some new => [Event.bufferRef new]
        | none => [])
    else []), ?_, ?_⟩
  · intro e he
    simp only [List.mem_append] at he
    rcases he with (he | he) | he
    · split at he <;> simp at he; subst he; rfl
    · split at he <;> simp at he; subst he; rfl
    · split at he
      · simp only [List.mem_append] at he
        rcases he with he | he
        · split at he <;> simp at he; subst he; rfl
        · split at he <;> simp at he; subst he; rfl
      · simp at he
  · cases hb : (d.state next).bufferIsSet <;>
      simp [applyState, applyStateSignals, size, input, damage, SurfaceState.mergeInto, hb,
        List.append_assoc]

theorem QRect.rect_contains_intersected (a b : QRect) (px py : Int) :
    (a.intersected b).contains px py = (a.contains px py && b.contains px py) := by
  rw [Bool.eq_iff_iff]
  simp only [QRect.contains, QRect.intersected, Bool.and_eq_true, decide_eq_true_eq]
  constructor
  · rintro ⟨⟨⟨h1, h2⟩, h3⟩, h4⟩
    have := le_max_left a.x b.x
    have := le_max_right a.x b.x
    have := le_max_left a.y b.y
    have := le_max_right a.y b.y
    have := min_le_left (a.x + a.width) (b.x + b.width)
    have := min_le_right (a.x + a.width) (b.x + b.width)
    have := min_le_left (a.y + a.height) (b.y + b.height)
    have := min_le_right (a.y + a.height) (b.y + b.height)
    omega
  · rintro ⟨⟨⟨⟨h1, h2⟩, h3⟩, h4⟩, ⟨⟨h5, h6⟩, h7⟩, h8⟩
    refine ⟨⟨⟨max_le h1 h5, ?_⟩, max_le h3 h7⟩, ?_⟩
    · have : px < min (a.x + a.width) (b.x + b.width) := lt_min h2 h6
      omega
    · have : py < min (a.y + a.height) (b.y + b.height) := lt_min h4 h8
      omega

theorem QRect.not_isEmpty_of_contains (r : QRect) (px py : Int) (h : r.contains px py = true) :
    r.isEmpty = false := by
  simp only [QRect.contains, Bool.and_eq_true, decide_eq_true_eq] at h
  simp only [QRect.isEmpty, Bool.or_eq_false_iff, decide_eq_false_iff_not]
  omega

theorem QRegion.contains_ofRect (r : QRect) (px py : Int) :
    (QRegion.ofRect r).contains px py = r.contains px py := by
  unfold QRegion.ofRect
  split
  · rename_i h
    cases hc : r.contains px py
    · simp [QRegion.contains]
    · rw [r.not_isEmpty_of_contains px py hc] at h
      simp at h
  · simp [QRegion.contains]

theorem QRegion.contains_intersected (a b : QRegion) (px py : Int) :
    (a.intersected b).contains px py = (a.contains px py && b.contains px py) := by
  rw [Bool.eq_iff_iff]
  simp only [QRegion.contains, QRegion.intersected, List.any_eq_true, List.mem_filter,
    List.mem_flatMap, List.mem_map, Bool.and_eq_true]
  constructor
  · rintro ⟨q, ⟨⟨ra, hra, rb, hrb, rfl⟩, _⟩, hq⟩
    rw [QRect.rect_contains_intersected, Bool.and_eq_true] at hq
    exact ⟨⟨ra, hra, hq.1⟩, ⟨rb, hrb, hq.2⟩⟩
  · rintro ⟨⟨ra, hra, h1⟩, ⟨rb, hrb, h2⟩⟩
    have hq : (ra.intersected rb).contains px py = true := by
      rw [QRect.rect_contains_intersected, h1, h2]; rfl
    refine ⟨ra.intersected rb, ⟨⟨ra, hra, rb, hrb, rfl⟩, ?_⟩, hq⟩
    simp [QRect.not_isEmpty_of_contains _ px py hq]

theorem QRegion.intersected_empty (a : QRegion) : a.intersected ⟨[]⟩ = ⟨[]⟩ := by
  simp [QRegion.intersected]

/-- C11: after every `applyState` the effective input region returned by
`input()` is the intersection of `current.input` with the rectangle
`(0, 0, surface size)`: a point is in it exactly when it is in `current.input`
and in that rectangle, so the region lies within the bounds of the surface,
and it is empty when the surface has no buffer.  `inputChanged` is emitted,
with the new region, if and only if the new region does not cover the same
points as the effective input region before the commit. -/
theorem applyState_input_region (d : SurfaceInterfacePrivate) (next : StateRef) :
    (d.applyState next).input =
      (d.applyState next).current.input.intersected
        (QRegion.ofRect (QRect.ofSize ⟨0, 0⟩ (d.applyState next).size)) ∧
    (∀ px py : Int, (d.applyState next).input.contains px py =
      ((d.applyState next).current.input.contains px py &&
        (QRect.ofSize ⟨0, 0⟩ (d.applyState next).size).contains px py)) ∧
    (∀ px py : Int, (d.applyState next).input.contains px py = true →
      0 ≤ px ∧ px < (d.applyState next).size.width ∧
      0 ≤ py ∧ py < (d.applyState next).size.height) ∧
    ((d.applyState next).current.buffer = none →
      (d.applyState next).input = QRegion.empty ∧ (d.applyState next).input.isEmpty = true) ∧
    (∃ events : List Event,
      (d.applyState next).log = d.log ++ events ∧
      (Event.inputChanged (d.applyState next).input ∈ events ↔
        ¬ ∀ px py : Int, d.input.contains px py = (d.applyState next).input.contains px py) ∧
      (∀ region, Event.inputChanged region ∈ events → region = (d.applyState next).input)) := by
  have h1 : (d.applyState next).input =
      (d.applyState next).current.input.intersected
        (QRegion.ofRect (QRect.ofSize ⟨0, 0⟩ (d.applyState next).size)) := rfl
  have h2 : ∀ px py : Int, (d.applyState next).input.contains px py =
      ((d.applyState next).current.input.contains px py &&
        (QRect.ofSize ⟨0, 0⟩ (d.applyState next).size).contains px py) := by
    intro px py
    rw [h1, QRegion.contains_intersected, QRegion.contains_ofRect]
  refine ⟨h1, h2, ?_, ?_, ?_⟩
  · intro px py h
    rw [h2, Bool.and_eq_true] at h
    have := h.2
    simp only [QRect.contains, QRect.ofSize, Bool.and_eq_true, decide_eq_true_eq] at this
    omega
  · intro hb
    have hs : (d.applyState next).size = QSize.null := by
      have := applyState_size_cases d next
      rw [hb] at this
      exact this.1
    have : (d.applyState next).input = QRegion.empty := by
      rw [h1, hs]
      simp [QRect.ofSize, QSize.null, QRegion.ofRect, QRect.isEmpty, QRegion.intersected_empty,
        QRegion.empty]
    rw [this]
    simp [QRegion.empty, QRegion.isEmpty]
  · obtain ⟨prologue, hp, hlog⟩ := applyState_log d next
    refine ⟨_, hlog, ?_, ?_⟩
    · rw [← QRegion.equal_iff]
      simp only [List.mem_append, applyStateSignals, mem_emitIf, List.mem_map, List.mem_singleton]
      constructor
      · rintro ((h | h) | h)
        · have := hp _ h
          simp [Event.isPrologue] at this
        · simp at h
          rcases h with h | h
          · simpa using h
          · split at h <;> simp at h
        · simp at h
      · intro h
        left; right
        simp [h]
    · intro region
      simp only [List.mem_append, applyStateSignals, mem_emitIf, List.mem_map, List.mem_singleton]
      rintro ((h | h) | h)
      · have := hp _ h
        simp [Event.isPrologue] at this
      · simp at h
        rcases h with h | h
        · exact h.2
        · split at h <;> simp at h
      · simp at h

theorem applyState_bufferRef (d : SurfaceInterfacePrivate) (next : StateRef) :
    (d.applyState next).bufferRef = (d.applyState next).current.buffer := by
  simp only [applyState]
  split_ifs with h
  · rfl
  · simpa using h

theorem applyState_current_buffer (d : SurfaceInterfacePrivate) (next : StateRef) :
    (d.applyState next).current.buffer =
      if (d.state next).bufferIsSet then (d.state next).buffer else d.current.buffer := by
  simp [applyState, SurfaceState.mergeInto]

theorem not_mem_prologue (prologue : List Event) (hp : ∀ e ∈ prologue, e.isPrologue = true)
    (e : Event) (he : e.isPrologue = false) : e ∉ prologue := by
  intro h
  rw [hp e h] at he
  exact Bool.noConfusion he

theorem count_emitIf (x e : Event) (c : Bool) :
    (emitIf c e).count x = if c = true ∧ e = x then 1 else 0 := by
  cases c <;> simp [emitIf, List.count_singleton]

/-- C12, the claim as stated fails: on a new surface, staging the opaque
region and the shadow with the values they already have (the empty region, no
shadow) and committing leaves both values as they were, and `opaqueChanged`
and `shadowChanged` are emitted all the same. -/
theorem flag_notifications_without_change :
    (run freshSurface [.setOpaqueRegion none, .setShadow none, .commit]).current.opaqueRegion =
      freshSurface.current.opaqueRegion ∧
    (run freshSurface [.setOpaqueRegion none, .setShadow none, .commit]).current.shadow =
      freshSurface.current.shadow ∧
    Event.opaqueChanged freshSurface.current.opaqueRegion ∈
      (run freshSurface [.setOpaqueRegion none, .setShadow none, .commit]).log ∧
    Event.shadowChanged ∈
      (run freshSurface [.setOpaqueRegion none, .setShadow none, .commit]).log := by
  decide!

/-- C12, amended: for every commit, `bufferScaleChanged` and
`bufferTransformChanged` are emitted if and only if the buffer scale,
respectively the buffer transform, of the current state after the commit
differs from its value before the commit, and they carry the new value;
`opaqueChanged`, `shadowChanged`, `blurChanged`, `contrastChanged` and
`slideOnShowHideChanged` are emitted if and only if the committed state has
the corresponding flag set, whether or not the value differs. -/
theorem applyState_change_signals (d : SurfaceInterfacePrivate) (next : StateRef) :
    ∃ events : List Event,
      (d.applyState next).log = d.log ++ events ∧
      (Event.bufferScaleChanged (d.applyState next).current.bufferScale ∈ events ↔
        (d.applyState next).current.bufferScale ≠ d.current.bufferScale) ∧
      (∀ scale, Event.bufferScaleChanged scale ∈ events →
        scale = (d.applyState next).current.bufferScale) ∧
      (Event.bufferTransformChanged (d.applyState next).current.bufferTransform ∈ events ↔
        (d.applyState next).current.bufferTransform ≠ d.current.bufferTransform) ∧
      (∀ transform, Event.bufferTransformChanged transform ∈ events →
        transform = (d.applyState next).current.bufferTransform) ∧
      (Event.opaqueChanged (d.applyState next).current.opaqueRegion ∈ events ↔
        (d.state next).opaqueIsSet = true) ∧
      (∀ region, Event.opaqueChanged region ∈ events →
        region = (d.applyState next).current.opaqueRegion) ∧
      (Event.shadowChanged ∈ events ↔ (d.state next).shadowIsSet = true) ∧
      (Event.blurChanged ∈ events ↔ (d.state next).blurIsSet = true) ∧
      (Event.contrastChanged ∈ events ↔ (d.state next).contrastIsSet = true) ∧
      (Event.slideOnShowHideChanged ∈ events ↔ (d.state next).slideIsSet = true) := by
  obtain ⟨prologue, hp, hlog⟩ := applyState_log d next
  have hscale : (d.applyState next).current.bufferScale =
      if (d.state next).bufferScaleIsSet then (d.state next).bufferScale
      else d.current.bufferScale := by
    simp [applyState, SurfaceState.mergeInto]
  have htransform : (d.applyState next).current.bufferTransform =
      if (d.state next).bufferTransformIsSet then (d.state next).bufferTransform
      else d.current.bufferTransform := by
    simp [applyState, SurfaceState.mergeInto]
  refine ⟨_, hlog, ?_, ?_, ?_, ?_, ?_, ?_, ?_, ?_, ?_, ?_⟩
  all_goals
    simp only [List.mem_append, applyStateSignals, mem_emitIf, List.mem_map, List.mem_singleton]
  · constructor
    · rintro ((h | h) | h)
      · exact absurd h (not_mem_prologue _ hp _ rfl)
      · simp at h
        rcases h with h | h
        · rw [hscale]; simp [h.1, Ne.symm h.2]
        · split at h <;> simp at h
      · simp at h
    · intro h
      left; right
      rw [hscale] at h
      by_cases hs : (d.state next).bufferScaleIsSet = true
      · simp [hs] at h; simp [hs, Ne.symm h]
      · simp [hs] at h
  · intro scale
    rintro ((h | h) | h)
    · exact absurd h (not_mem_prologue _ hp _ rfl)
    · simp at h
      rcases h with h | h
      · exact h.2
      · split at h <;> simp at h
    · simp at h
  · constructor
    · rintro ((h | h) | h)
      · exact absurd h (not_mem_prologue _ hp _ rfl)
      · simp at h
        rcases h with h | h
        · rw [htransform]; simp [h.1, Ne.symm h.2]
        · split at h <;> simp at h
      · simp at h
    · intro h
      left; right
      rw [htransform] at h
      by_cases hs : (d.state next).bufferTransformIsSet = true
      · simp [hs] at h; simp [hs, Ne.symm h]
      · simp [hs] at h
  · intro transform
    rintro ((h | h) | h)
    · exact absurd h (not_mem_prologue _ hp _ rfl)
    · simp at h
      rcases h with h | h
      · exact h.2
      · split at h <;> simp at h
    · simp at h
  · constructor
    · rintro ((h | h) | h)
      · exact absurd h (not_mem_prologue _ hp _ rfl)
      · simp at h
        rcases h with h | h
        · exact h
        · split at h <;> simp at h
      · simp at h
    · intro h
      left; right
      simp [h]
  · intro region
    rintro ((h | h) | h)
    · exact absurd h (not_mem_prologue _ hp _ rfl)
    · simp at h
      rcases h with h | h
      · exact h.2
      · split at h <;> simp at h
    · simp at h
  all_goals
    constructor
    · rintro ((h | h) | h)
      · exact absurd h (not_mem_prologue _ hp _ rfl)
      · simp at h
        rcases h with h | h
        · split at h <;> simp at h
        · exact h
      · simp at h
    · intro h
      left; right
      simp [h]

/-- C13: `applyState` emits `mapped` exactly when the surface had no current
buffer before the commit and has one after it, and `unmapped` exactly when it
had a current buffer before and has none after; it emits neither when the
presence of a buffer is the same before and after, and never more than one of
them. -/
theorem applyState_mapped_unmapped (d : SurfaceInterfacePrivate) (next : StateRef) :
    ∃ events : List Event,
      (d.applyState next).log = d.log ++ events ∧
      (Event.mapped ∈ events ↔
        d.current.buffer = none ∧ (d.applyState next).current.buffer ≠ none) ∧
      (Event.unmapped ∈ events ↔
        d.current.buffer ≠ none ∧ (d.applyState next).current.buffer = none) ∧
      events.count Event.mapped + events.count Event.unmapped ≤ 1 := by
  obtain ⟨prologue, hp, hlog⟩ := applyState_log d next
  have hb := applyState_current_buffer d next
  have hr := applyState_bufferRef d next
  refine ⟨_, hlog, ?_, ?_, ?_⟩
  · simp only [List.mem_append, applyStateSignals, mem_emitIf, List.mem_map, List.mem_singleton]
    constructor
    · rintro ((h | h) | h)
      · exact absurd h (not_mem_prologue _ hp _ rfl)
      · simp at h
        obtain ⟨⟨h1, h2⟩, h3⟩ := h
        rw [hr, hb] at h3
        rw [hb]
        simp only [h1, if_true] at h3 ⊢
        cases hn : (d.state next).buffer <;> cases ho : d.current.buffer <;> simp_all
      · simp at h
    · rintro ⟨h1, h2⟩
      left; right
      rw [hr]
      rw [hb] at h2 ⊢
      by_cases hs : (d.state next).bufferIsSet = true
      · simp only [hs, if_true] at h2 ⊢
        cases hn : (d.state next).buffer <;> cases ho : d.current.buffer <;> simp_all
      · simp only [hs] at h2
        simp_all
  · simp only [List.mem_append, applyStateSignals, mem_emitIf, List.mem_map, List.mem_singleton]
    constructor
    · rintro ((h | h) | h)
      · exact absurd h (not_mem_prologue _ hp _ rfl)
      · simp at h
        obtain ⟨⟨h1, h2⟩, h3⟩ := h
        rw [hr, hb] at h3
        rw [hb]
        simp only [h1, if_true] at h3 ⊢
        cases hn : (d.state next).buffer <;> cases ho : d.current.buffer <;> simp_all
      · simp at h
    · rintro ⟨h1, h2⟩
      left; right
      rw [hr]
      rw [hb] at h2 ⊢
      by_cases hs : (d.state next).bufferIsSet = true
      · simp only [hs, if_true] at h2 ⊢
        cases hn : (d.state next).buffer <;> cases ho : d.current.buffer <;> simp_all
      · simp only [hs] at h2
        simp_all
  · have h1 : prologue.count Event.mapped = 0 :=
      List.count_eq_zero_of_not_mem (not_mem_prologue _ hp _ rfl)
    have h2 : prologue.count Event.unmapped = 0 :=
      List.count_eq_zero_of_not_mem (not_mem_prologue _ hp _ rfl)
    simp only [List.count_append, applyStateSignals, count_emitIf, h1, h2]
    simp [List.count_eq_zero_of_not_mem, List.count_singleton]
    split_ifs <;> simp_all

/-- C14: when the committed state attaches a buffer that is not null together
with surface damage or buffer damage that is not empty, the damage of the
surface after the commit is the rectangle `(0, 0, surface size)` intersected
with the union of the committed surface damage and the committed buffer damage
mapped through the buffer-to-surface matrix; it lies within the bounds of the
surface, and `damaged` is emitted once, with that region. -/
theorem applyState_damage (d : SurfaceInterfacePrivate) (next : StateRef)
    (buffer : ClientBuffer) (h1 : (d.state next).bufferIsSet = true)
    (h2 : (d.state next).buffer = some buffer)
    (h3 : (d.state next).damage.isEmpty = false ∨ (d.state next).bufferDamage.isEmpty = false) :
    (d.applyState next).damage =
      (QRegion.ofRect
          ⟨0, 0, (d.applyState next).size.width, (d.applyState next).size.height⟩).intersected
        ((d.state next).damage.united
          ((d.applyState next).mapFromBuffer (d.state next).bufferDamage)) ∧
    (∀ px py : Int, (d.applyState next).damage.contains px py = true →
      0 ≤ px ∧ px < (d.applyState next).size.width ∧
      0 ≤ py ∧ py < (d.applyState next).size.height) ∧
    (∃ events : List Event,
      (d.applyState next).log = d.log ++ events ∧
      events.count (Event.damaged (d.applyState next).damage) = 1 ∧
      ∀ region, Event.damaged region ∈ events → region = (d.applyState next).damage) := by
  have hd : (d.applyState next).damage =
      (QRegion.ofRect
          ⟨0, 0, (d.applyState next).size.width, (d.applyState next).size.height⟩).intersected
        ((d.state next).damage.united
          ((d.applyState next).mapFromBuffer (d.state next).bufferDamage)) := by
    have hcond : ((!(d.state next).damage.isEmpty || !(d.state next).bufferDamage.isEmpty)) =
        true := by
      rcases h3 with h | h <;> simp [h]
    simp [applyState, damage, size, mapFromBuffer, SurfaceState.mergeInto, h1, h2, hcond]
  refine ⟨hd, ?_, ?_⟩
  · intro px py h
    rw [hd, QRegion.contains_intersected, QRegion.contains_ofRect, Bool.and_eq_true] at h
    have := h.1
    simp only [QRect.contains, Bool.and_eq_true, decide_eq_true_eq] at this
    omega
  · obtain ⟨prologue, hp, hlog⟩ := applyState_log d next
    have hcond : ((!(d.state next).damage.isEmpty || !(d.state next).bufferDamage.isEmpty)) =
        true := by
      rcases h3 with h | h <;> simp [h]
    refine ⟨_, hlog, ?_, ?_⟩
    · have hp0 : prologue.count (Event.damaged (d.applyState next).damage) = 0 :=
        List.count_eq_zero_of_not_mem (not_mem_prologue _ hp _ rfl)
      simp only [List.count_append, applyStateSignals, count_emitIf, hp0]
      simp [List.count_eq_zero_of_not_mem, List.count_singleton, h1, h2, hcond]
      split_ifs <;> simp_all
    · intro region
      simp only [List.mem_append, applyStateSignals, mem_emitIf, List.mem_map,
        List.mem_singleton]
      rintro ((h | h) | h)
      · exact absurd h (not_mem_prologue _ hp _ rfl)
      · simp at h
        rcases h with h | h
        · split at h <;> simp at h
        · exact h.2
      · simp at h

/-- C14 at the surface `stagedDamage`: the commit leaves the damage
`(0, 0, 10, 10)` united with the buffer damage mapped to `(0, 0, 64, 64)`. -/
theorem applyState_damage_witness :
    (stagedDamage.state StateRef.pending).bufferIsSet = true ∧
    (stagedDamage.state StateRef.pending).buffer = some buffer128 ∧
    (stagedDamage.state StateRef.pending).damage.isEmpty = false ∧
    (stagedDamage.applyState StateRef.pending).damage =
      (QRegion.ofRect
          ⟨0, 0, (stagedDamage.applyState StateRef.pending).size.width,
            (stagedDamage.applyState StateRef.pending).size.height⟩).intersected
        ((stagedDamage.state StateRef.pending).damage.united
          ((stagedDamage.applyState StateRef.pending).mapFromBuffer
            (stagedDamage.state StateRef.pending).bufferDamage)) ∧
    (stagedDamage.applyState StateRef.pending).damage = ⟨[⟨0, 0, 10, 10⟩, ⟨0, 0, 64, 64⟩]⟩ :=
  ⟨by decide!, by decide!, by decide!,
    (applyState_damage stagedDamage StateRef.pending buffer128 (by decide!) (by decide!)
      (Or.inl (by decide!))).1,
    by decide!⟩

/-- C15: during `applyState` the parent-commit hook is invoked once for every
entry of the child lists of the committed current state, first for the
children of `current.below` in list order and then for the children of
`current.above` in list order; the commit hook of the role, if a role is
attached, runs once after all of those hooks, and `committed` is emitted last;
nothing that happens before is one of these. -/
theorem applyState_commit_hooks (d : SurfaceInterfacePrivate) (next : StateRef) :
    ∃ before : List Event,
      (d.applyState next).log =
        d.log ++ (before ++
          ((d.applyState next).current.below.map Event.parentCommit ++
            (d.applyState next).current.above.map Event.parentCommit ++
            (if d.role then [Event.roleCommit] else []) ++ [Event.committed])) ∧
      (∀ e ∈ before, (∀ child, e ≠ Event.parentCommit child) ∧ e ≠ Event.roleCommit ∧
        e ≠ Event.committed) := by
  obtain ⟨prologue, hp, hlog⟩ := applyState_log d next
  refine ⟨prologue ++ applyStateSignals d next, hlog, ?_⟩
  intro e he
  rw [List.mem_append] at he
  rcases he with he | he
  · have := hp e he
    refine ⟨?_, ?_, ?_⟩
    · intro child hc; rw [hc] at this; simp [Event.isPrologue] at this
    · intro hc; rw [hc] at this; simp [Event.isPrologue] at this
    · intro hc; rw [hc] at this; simp [Event.isPrologue] at this
  · simp only [List.mem_append, applyStateSignals, mem_emitIf] at he
    refine ⟨?_, ?_, ?_⟩
    · intro child hc
      subst hc
      simp at he
      split at he <;> simp at he
    · intro hc
      subst hc
      simp at he
      split at he <;> simp at he
    · intro hc
      subst hc
      simp at he
      split at he <;> simp at he

/-! ## Children of a surface -/

theorem insertIdx_at_indexOf (a s : SubSurfacePtr) (l : List SubSurfacePtr) (h : a ∈ l) :
    ∃ l1 l2, l = l1 ++ a :: l2 ∧
      l.insertIdx (l.indexOf a + 1) s = l1 ++ a :: s :: l2 ∧
      l.insertIdx (l.indexOf a) s = l1 ++ s :: a :: l2 := by
  induction l with
  | nil => simp at h
  | cons x t ih =>
    by_cases hx : x = a
    · subst hx
      refine ⟨[], t, rfl, ?_, ?_⟩
      · simp [List.indexOf_cons_eq, List.insertIdx_succ_cons, List.insertIdx_zero]
      · simp [List.indexOf_cons_eq, List.insertIdx_zero]
    · have ht : a ∈ t := by
        rcases List.mem_cons.1 h with h | h
        · exact absurd h.symm hx
        · exact h
      obtain ⟨l1, l2, h1, h2, h3⟩ := ih ht
      refine ⟨x :: l1, l2, by rw [h1]; rfl, ?_, ?_⟩
      · rw [List.indexOf_cons_ne _ hx, Nat.succ_eq_add_one, List.insertIdx_succ_cons, h2]
        rfl
      · rw [List.indexOf_cons_ne _ hx, Nat.succ_eq_add_one, List.insertIdx_succ_cons, h3]
        rfl

theorem child_injective : Function.Injective StackEntry.child := by
  intro a b h
  injection h

theorem erase_stacking (B A : List SubSurfacePtr) (s : SubSurfacePtr)
    (hs : (B.map StackEntry.child ++ StackEntry.parent :: A.map StackEntry.child).count
      (StackEntry.child s) = 1) :
    (B.map StackEntry.child ++ StackEntry.parent :: A.map StackEntry.child).erase
        (StackEntry.child s) =
      (B.erase s).map StackEntry.child ++ StackEntry.parent :: (A.erase s).map StackEntry.child := by
  have hcount : B.count s + A.count s = 1 := by
    rw [List.count_append, List.count_cons, List.count_map_of_injective _ _ child_injective,
      List.count_map_of_injective _ _ child_injective] at hs
    simpa using hs
  by_cases hB : s ∈ B
  · have hA : s ∉ A := by
      intro hA
      have h1 := List.one_le_count_iff.2 hB
      have h2 := List.one_le_count_iff.2 hA
      omega
    rw [List.erase_append_left _ (List.mem_map_of_mem _ hB), ← List.map_erase child_injective,
      List.erase_of_not_mem hA]
  · have hB' : StackEntry.child s ∉ B.map StackEntry.child := by
      simpa using hB
    rw [List.erase_append_right _ hB', List.erase_of_not_mem hB, List.erase_cons_tail (by simp),
      ← List.map_erase child_injective]

theorem mem_stacking (B A : List SubSurfacePtr) (a : SubSurfacePtr) :
    StackEntry.child a ∈ B.map StackEntry.child ++ StackEntry.parent :: A.map StackEntry.child ↔
      a ∈ B ∨ a ∈ A := by
  simp

/-- C16: read the pending stacking order as `pending.below`, then the parent,
then `pending.above`.  For a child `s` that occurs once in it and an anchor
`e` that is the parent or another child in it, `raiseChild(s, e)` returns true
and leaves `s` immediately after `e`, and `lowerChild(s, e)` returns true and
leaves `s` immediately before `e`; in both cases the entries other than `s`
keep their order (the order without `s` is the same before and after), the new
order is a rearrangement of the old one, so no entry is lost or duplicated, and
`pending.childrenChanged` is set. -/
theorem restack_relative_to_anchor (d : SurfaceInterfacePrivate) (s : SubSurfacePtr)
    (e : StackEntry) (hs : (stackingOrder d.pending).count (StackEntry.child s) = 1)
    (he : e ∈ stackingOrder d.pending) (hne : e ≠ StackEntry.child s) :
    ((d.raiseChild s (anchorOf e)).1 = true ∧
      (d.raiseChild s (anchorOf e)).2.pending.childrenChanged = true ∧
      (∃ pre post,
        (stackingOrder d.pending).erase (StackEntry.child s) = pre ++ e :: post ∧
        stackingOrder (d.raiseChild s (anchorOf e)).2.pending =
          pre ++ e :: StackEntry.child s :: post) ∧
      (stackingOrder (d.raiseChild s (anchorOf e)).2.pending).Perm (stackingOrder d.pending)) ∧
    ((d.lowerChild s (anchorOf e)).1 = true ∧
      (d.lowerChild s (anchorOf e)).2.pending.childrenChanged = true ∧
      (∃ pre post,
        (stackingOrder d.pending).erase (StackEntry.child s) = pre ++ e :: post ∧
        stackingOrder (d.lowerChild s (anchorOf e)).2.pending =
          pre ++ StackEntry.child s :: e :: post) ∧
      (stackingOrder (d.lowerChild s (anchorOf e)).2.pending).Perm (stackingOrder d.pending)) := by
  have hmem : StackEntry.child s ∈ stackingOrder d.pending := List.one_le_count_iff.1 (by omega)
  have herase := erase_stacking d.pending.below d.pending.above s hs
  have hraise : ∀ (l pre post : List StackEntry) (x : StackEntry),
      (stackingOrder d.pending).erase (StackEntry.child s) = pre ++ x :: post →
      l = pre ++ x :: StackEntry.child s :: post → l.Perm (stackingOrder d.pending) := by
    intro l pre post x h1 h2
    have h3 : l.Perm (StackEntry.child s :: (pre ++ x :: post)) := by
      rw [h2]
      have : pre ++ x :: StackEntry.child s :: post = (pre ++ [x]) ++ StackEntry.child s :: post := by
        simp
      rw [this]
      refine List.perm_middle.trans ?_
      simp
    rw [← h1] at h3
    exact h3.trans (List.perm_cons_erase hmem).symm
  have hlower : ∀ (l pre post : List StackEntry) (x : StackEntry),
      (stackingOrder d.pending).erase (StackEntry.child s) = pre ++ x :: post →
      l = pre ++ StackEntry.child s :: x :: post → l.Perm (stackingOrder d.pending) := by
    intro l pre post x h1 h2
    have h3 : l.Perm (StackEntry.child s :: (pre ++ x :: post)) := by
      rw [h2]
      exact List.perm_middle
    rw [← h1] at h3
    exact h3.trans (List.perm_cons_erase hmem).symm
  unfold stackingOrder at hs he herase hmem hraise hlower ⊢
  cases e with
  | parent =>
    have hr : stackingOrder (d.raiseChild s Anchor.parent).2.pending =
        List.map StackEntry.child (d.pending.below.erase s) ++
          StackEntry.parent :: StackEntry.child s ::
            List.map StackEntry.child (d.pending.above.erase s) := by
      simp [stackingOrder, raiseChild, List.insertIdx_zero]
    have hl : stackingOrder (d.lowerChild s Anchor.parent).2.pending =
        List.map StackEntry.child (d.pending.below.erase s) ++
          StackEntry.child s :: StackEntry.parent ::
            List.map StackEntry.child (d.pending.above.erase s) := by
      simp [stackingOrder, lowerChild, List.insertIdx_length_self]
    unfold stackingOrder at hr hl
    exact ⟨⟨rfl, rfl, ⟨_, _, herase, hr⟩, hraise _ _ _ _ herase hr⟩,
      ⟨rfl, rfl, ⟨_, _, herase, hl⟩, hlower _ _ _ _ herase hl⟩⟩
  | child a =>
    have has : a ≠ s := fun h => hne (by rw [h])
    have ha : a ∈ d.pending.below ∨ a ∈ d.pending.above := (mem_stacking _ _ _).1 he
    by_cases hA : a ∈ d.pending.above.erase s
    · obtain ⟨l1, l2, h1, h2, h3⟩ := insertIdx_at_indexOf a s _ hA
      have herase' :
          (List.map StackEntry.child d.pending.below ++
              StackEntry.parent :: List.map StackEntry.child d.pending.above).erase
            (StackEntry.child s) =
          (List.map StackEntry.child (d.pending.below.erase s) ++
              StackEntry.parent :: List.map StackEntry.child l1) ++
            StackEntry.child a :: List.map StackEntry.child l2 := by
        rw [herase, h1]; simp
      have hr : stackingOrder (d.raiseChild s (Anchor.surface (some a))).2.pending =
          (List.map StackEntry.child (d.pending.below.erase s) ++
              StackEntry.parent :: List.map StackEntry.child l1) ++
            StackEntry.child a :: StackEntry.child s :: List.map StackEntry.child l2 := by
        simp [stackingOrder, raiseChild, hA, h2]
      have hl : stackingOrder (d.lowerChild s (Anchor.surface (some a))).2.pending =
          (List.map StackEntry.child (d.pending.below.erase s) ++
              StackEntry.parent :: List.map StackEntry.child l1) ++
            StackEntry.child s :: StackEntry.child a :: List.map StackEntry.child l2 := by
        simp [stackingOrder, lowerChild, hA, h3]
      unfold stackingOrder at hr hl
      exact ⟨⟨by simp [raiseChild, anchorOf, hA], by simp [raiseChild, anchorOf, hA],
          ⟨_, _, herase', hr⟩, hraise _ _ _ _ herase' hr⟩,
        ⟨by simp [lowerChild, anchorOf, hA], by simp [lowerChild, anchorOf, hA],
          ⟨_, _, herase', hl⟩, hlower _ _ _ _ herase' hl⟩⟩
    · have hB : a ∈ d.pending.below.erase s := by
        rcases ha with h | h
        · exact (List.mem_erase_of_ne has).2 h
        · exact absurd ((List.mem_erase_of_ne has).2 h) hA
      obtain ⟨l1, l2, h1, h2, h3⟩ := insertIdx_at_indexOf a s _ hB
      have herase' :
          (List.map StackEntry.child d.pending.below ++
              StackEntry.parent :: List.map StackEntry.child d.pending.above).erase
            (StackEntry.child s) =
          List.map StackEntry.child l1 ++
            StackEntry.child a :: (List.map StackEntry.child l2 ++
              StackEntry.parent :: List.map StackEntry.child (d.pending.above.erase s)) := by
        rw [herase, h1]; simp
      have hr : stackingOrder (d.raiseChild s (Anchor.surface (some a))).2.pending =
          List.map StackEntry.child l1 ++
            StackEntry.child a :: StackEntry.child s :: (List.map StackEntry.child l2 ++
              StackEntry.parent :: List.map StackEntry.child (d.pending.above.erase s)) := by
        simp [stackingOrder, raiseChild, hA, hB, h2]
      have hl : stackingOrder (d.lowerChild s (Anchor.surface (some a))).2.pending =
          List.map StackEntry.child l1 ++
            StackEntry.child s :: StackEntry.child a :: (List.map StackEntry.child l2 ++
              StackEntry.parent :: List.map StackEntry.child (d.pending.above.erase s)) := by
        simp [stackingOrder, lowerChild, hA, hB, h3]
      unfold stackingOrder at hr hl
      exact ⟨⟨by simp [raiseChild, anchorOf, hA, hB], by simp [raiseChild, anchorOf, hA, hB],
          ⟨_, _, herase', hr⟩, hraise _ _ _ _ herase' hr⟩,
        ⟨by simp [lowerChild, anchorOf, hA, hB], by simp [lowerChild, anchorOf, hA, hB],
          ⟨_, _, herase', hl⟩, hlower _ _ _ _ herase' hl⟩⟩

/-- C16 at the surface `stackedChildren`: raising child 1 above child 3 and
lowering child 3 below the parent. -/
theorem restack_relative_to_anchor_witness :
    stackingOrder stackedChildren.pending =
      [StackEntry.child 1, StackEntry.parent, StackEntry.child 2, StackEntry.child 3] ∧
    (stackedChildren.raiseChild 1 (Anchor.surface (some 3))).1 = true ∧
    stackingOrder (stackedChildren.raiseChild 1 (Anchor.surface (some 3))).2.pending =
      [StackEntry.parent, StackEntry.child 2, StackEntry.child 3, StackEntry.child 1] ∧
    stackingOrder (stackedChildren.lowerChild 3 Anchor.parent).2.pending =
      [StackEntry.child 1, StackEntry.child 3, StackEntry.parent, StackEntry.child 2] :=
  ⟨by decide!,
    (restack_relative_to_anchor stackedChildren 1 (StackEntry.child 3) (by decide!) (by decide!)
      (by decide)).1.1,
    by decide!, by decide!⟩

/-- C17, the code at the failing input: on a surface whose pending lists are
`below = [1]`, `above = [2, 3]`, `raiseChild` of child 2 with an anchor whose
sub-surface 9 is not a child returns false and has removed child 2 from
`pending.above`; `lowerChild` of child 1 with an anchor that has no sub-surface
role returns false and has removed child 1 from `pending.below`.
`pending.childrenChanged` stays unset. -/
theorem restack_foreign_anchor_removes_child :
    stackedChildren.pending.below = [1] ∧ stackedChildren.pending.above = [2, 3] ∧
    stackedChildren.pending.childrenChanged = false ∧
    (stackedChildren.raiseChild 2 (Anchor.surface (some 9))).1 = false ∧
    (stackedChildren.raiseChild 2 (Anchor.surface (some 9))).2.pending.below = [1] ∧
    (stackedChildren.raiseChild 2 (Anchor.surface (some 9))).2.pending.above = [3] ∧
    (stackedChildren.raiseChild 2 (Anchor.surface (some 9))).2.pending.childrenChanged = false ∧
    (stackedChildren.lowerChild 1 (Anchor.surface none)).1 = false ∧
    (stackedChildren.lowerChild 1 (Anchor.surface none)).2.pending.below = [] ∧
    (stackedChildren.lowerChild 1 (Anchor.surface none)).2.pending.above = [2, 3] := by
  decide!

/-- C18, the code at the failing input: after `addChild(1)`, `addChild(2)` and
a `raiseChild` of child 1 with an anchor that is not a child, child 1, which
was added and not removed, does not occur in `pending.below ++ pending.above`. -/
theorem failed_restack_loses_child :
    (actAll freshSurface
        [.addChild 1, .addChild 2, .raiseChild 1 (Anchor.surface (some 9))]).map
      (fun d => d.pending.below ++ d.pending.above) = some [2] ∧
    (actAll freshSurface
        [.addChild 1, .addChild 2, .raiseChild 1 (Anchor.surface (some 9))]).map
      (fun d => (d.pending.below ++ d.pending.above).count 1) = some 0 := by
  decide!

theorem cons_erase_append_perm (B A : List SubSurfacePtr) (s : SubSurfacePtr)
    (hn : (B ++ A).Nodup) (hs : s ∈ B ++ A) :
    (s :: (B.erase s ++ A.erase s)).Perm (B ++ A) := by
  have hd := List.nodup_append.1 hn
  rcases List.mem_append.1 hs with h | h
  · have hA : s ∉ A := fun hA => hd.2.2 h hA
    rw [List.erase_of_not_mem hA]
    exact (List.Perm.append_right A (List.perm_cons_erase h).symm)
  · have hB : s ∉ B := fun hB => hd.2.2 hB h
    rw [List.erase_of_not_mem hB]
    exact List.perm_middle.symm.trans (List.Perm.append_left B (List.perm_cons_erase h).symm)

theorem raiseChild_perm (d : SurfaceInterfacePrivate) (s : SubSurfacePtr) (anchor : Anchor)
    (h : (d.raiseChild s anchor).1 = true) :
    ((d.raiseChild s anchor).2.pending.below ++ (d.raiseChild s anchor).2.pending.above).Perm
      (s :: (d.pending.below.erase s ++ d.pending.above.erase s)) := by
  cases anchor with
  | parent =>
    simp only [raiseChild, List.insertIdx_zero]
    exact List.perm_middle
  | surface sub =>
    cases sub with
    | none => simp [raiseChild] at h
    | some a =>
      simp only [raiseChild] at h ⊢
      split_ifs at h ⊢ with hA hB
      · have hlt := List.indexOf_lt_length.2 hA
        exact (List.Perm.append_left _ (List.perm_insertIdx s _ (by omega))).trans
          List.perm_middle
      · have hlt := List.indexOf_lt_length.2 hB
        exact List.Perm.append_right _ (List.perm_insertIdx s _ (by omega))

theorem lowerChild_perm (d : SurfaceInterfacePrivate) (s : SubSurfacePtr) (anchor : Anchor)
    (h : (d.lowerChild s anchor).1 = true) :
    ((d.lowerChild s anchor).2.pending.below ++ (d.lowerChild s anchor).2.pending.above).Perm
      (s :: (d.pending.below.erase s ++ d.pending.above.erase s)) := by
  cases anchor with
  | parent =>
    simp only [lowerChild, List.insertIdx_length_self, List.append_assoc, List.singleton_append]
    exact List.perm_middle
  | surface sub =>
    cases sub with
    | none => simp [lowerChild] at h
    | some a =>
      simp only [lowerChild] at h ⊢
      split_ifs at h ⊢ with hA hB
      · have hlt := List.indexOf_lt_length.2 hA
        exact (List.Perm.append_left _ (List.perm_insertIdx s _ (by omega))).trans
          List.perm_middle
      · have hlt := List.indexOf_lt_length.2 hB
        exact List.Perm.append_right _ (List.perm_insertIdx s _ (by omega))

/-- The children stay partitioned as long as every restacking call succeeds:
when `pending.below ++ pending.above` is a rearrangement of the duplicate-free
list of the children, it still is after a valid child operation. -/
theorem valid_child_action_keeps_partition (d d' : SurfaceInterfacePrivate)
    (live : List SubSurfacePtr) (a : Action)
    (hperm : (d.pending.below ++ d.pending.above).Perm live) (hnodup : live.Nodup)
    (hvalid : validChildAction d live a) (ha : act d a = some d') :
    (d'.pending.below ++ d'.pending.above).Perm (liveChildren live a) ∧
      (liveChildren live a).Nodup := by
  have hn : (d.pending.below ++ d.pending.above).Nodup := hperm.nodup_iff.2 hnodup
  cases a with
  | addChild child =>
    simp only [act, Option.some.injEq] at ha
    subst ha
    simp only [validChildAction] at hvalid
    constructor
    · simp only [addChild, liveChildren, ← List.append_assoc]
      exact List.Perm.append_right _ hperm
    · simp only [liveChildren]
      exact List.Nodup.append hnodup (List.nodup_singleton _) (by simpa using hvalid)
  | removeChild child =>
    simp only [act, Option.some.injEq] at ha
    subst ha
    constructor
    · simp only [removeChild, removeAll, liveChildren, ← List.filter_append]
      exact List.Perm.filter _ hperm
    · exact List.Nodup.filter _ hnodup
  | raiseChild s anchor =>
    simp only [act, Option.some.injEq] at ha
    subst ha
    obtain ⟨hs, hok⟩ := hvalid
    exact ⟨((raiseChild_perm d s anchor hok).trans
      (cons_erase_append_perm _ _ s hn (hperm.mem_iff.2 hs))).trans hperm, hnodup⟩
  | lowerChild s anchor =>
    simp only [act, Option.some.injEq] at ha
    subst ha
    obtain ⟨hs, hok⟩ := hvalid
    exact ⟨((lowerChild_perm d s anchor hok).trans
      (cons_erase_append_perm _ _ s hn (hperm.mem_iff.2 hs))).trans hperm, hnodup⟩
  | request r => exact absurd hvalid (by simp [validChildAction])
  | setOutputs clientResources outputs => exact absurd hvalid (by simp [validChildAction])
  | installLocked lock lifeTime => exact absurd hvalid (by simp [validChildAction])
  | installConfined confinement lifeTime => exact absurd hvalid (by simp [validChildAction])
  | lockedChanged sender isLocked => exact absurd hvalid (by simp [validChildAction])
  | confinedChanged sender isConfined => exact absurd hvalid (by simp [validChildAction])
  | constraintDestroyed sender => exact absurd hvalid (by simp [validChildAction])

theorem setOutputs_outputs (clientResources : OutputPtr → List Nat)
    (d : SurfaceInterfacePrivate) (outputs : List OutputPtr) :
    (d.setOutputs clientResources outputs).outputs = outputs := rfl

theorem mem_removeAll (l : List SubSurfacePtr) (child x : SubSurfacePtr) :
    x ∈ removeAll l child ↔ x ∈ l ∧ x ≠ child := by
  simp [removeAll]

/-- C19: `addChild(c)` makes `c` the last element of the `above` list of the
pending, the cached and the current state at once, leaves every `below` list
as it is, and calls `setOutputs` on the surface of the child with the outputs
of the parent, after which the outputs of the child are those of the parent;
`removeChild(c)` leaves no occurrence of `c` in any of the six `below` and
`above` lists of the pending, cached and current state and keeps the other
children in their order. -/
theorem add_and_remove_child (d : SurfaceInterfacePrivate) (child : SubSurfacePtr) :
    ((d.addChild child).pending.above = d.pending.above ++ [child] ∧
      (d.addChild child).cached.above = d.cached.above ++ [child] ∧
      (d.addChild child).current.above = d.current.above ++ [child] ∧
      (d.addChild child).pending.above.getLast? = some child ∧
      (d.addChild child).cached.above.getLast? = some child ∧
      (d.addChild child).current.above.getLast? = some child ∧
      (d.addChild child).pending.below = d.pending.below ∧
      (d.addChild child).cached.below = d.cached.below ∧
      (d.addChild child).current.below = d.current.below) ∧
    ((d.addChild child).log =
        d.log ++ [Event.childSetOutputs child d.outputs, Event.childSubSurfaceAdded child,
          Event.childSubSurfacesChanged] ∧
      ∀ (clientResources : OutputPtr → List Nat) (childSurface : SurfaceInterfacePrivate),
        (childSurface.setOutputs clientResources d.outputs).outputs = d.outputs) ∧
    ((d.removeChild child).pending.below = d.pending.below.filter (fun c => c != child) ∧
      (d.removeChild child).pending.above = d.pending.above.filter (fun c => c != child) ∧
      (d.removeChild child).cached.below = d.cached.below.filter (fun c => c != child) ∧
      (d.removeChild child).cached.above = d.cached.above.filter (fun c => c != child) ∧
      (d.removeChild child).current.below = d.current.below.filter (fun c => c != child) ∧
      (d.removeChild child).current.above = d.current.above.filter (fun c => c != child)) ∧
    (child ∉ (d.removeChild child).pending.below ∧ child ∉ (d.removeChild child).pending.above ∧
      child ∉ (d.removeChild child).cached.below ∧ child ∉ (d.removeChild child).cached.above ∧
      child ∉ (d.removeChild child).current.below ∧
      child ∉ (d.removeChild child).current.above) := by
  refine ⟨?_, ⟨rfl, fun _ _ => rfl⟩, ⟨rfl, rfl, rfl, rfl, rfl, rfl⟩, ?_⟩
  · simp [addChild]
  · simp [removeChild, mem_removeAll]

/-! ## Pointer constraints -/

theorem applyState_constraints (d : SurfaceInterfacePrivate) (next : StateRef) :
    (d.applyState next).lockedPointer = d.lockedPointer ∧
      (d.applyState next).confinedPointer = d.confinedPointer := by
  cases next <;> simp [applyState, setState]

theorem handle_constraints (d : SurfaceInterfacePrivate) (r : Request) :
    (handle d r).lockedPointer = d.lockedPointer ∧
      (handle d r).confinedPointer = d.confinedPointer := by
  cases r with
  | commit =>
    simp only [handle, surface_commit]
    cases d.subSurface with
    | none => exact applyState_constraints d _
    | some sub =>
      simp only [commitSubSurface]
      split_ifs
      · simp [commitToCache]
      · have := applyState_constraints d.commitToCache StateRef.cached
        simpa [commitFromCache, commitToCache] using this
      · exact applyState_constraints d _
  | attach buffer x y => cases buffer <;> simp [handle, surface_attach]
  | frame callbackResource => cases callbackResource <;> simp [handle, surface_frame]
  | setBufferScale scale =>
    by_cases hs : scale < 1 <;> simp [handle, surface_set_buffer_scale, hs]
  | setBufferTransform transform =>
    by_cases hs : transform < 0 ∨ transform > WL_OUTPUT_TRANSFORM_FLIPPED_270 <;>
      simp [handle, surface_set_buffer_transform, hs]
  | _ =>
    simp [handle, surface_damage, surface_damage_buffer, surface_set_opaque_region,
      surface_set_input_region, setShadow, setBlur, setSlide, setContrast]

theorem raiseChild_frame (d : SurfaceInterfacePrivate) (subsurface : SubSurfacePtr)
    (anchor : Anchor) :
    (d.raiseChild subsurface anchor).2 =
      { d with pending := (d.raiseChild subsurface anchor).2.pending } := by
  cases anchor with
  | parent => rfl
  | surface sub =>
    cases sub with
    | none => rfl
    | some a =>
      simp only [raiseChild]
      split_ifs <;> rfl

theorem lowerChild_frame (d : SurfaceInterfacePrivate) (subsurface : SubSurfacePtr)
    (anchor : Anchor) :
    (d.lowerChild subsurface anchor).2 =
      { d with pending := (d.lowerChild subsurface anchor).2.pending } := by
  cases anchor with
  | parent => rfl
  | surface sub =>
    cases sub with
    | none => rfl
    | some a =>
      simp only [lowerChild]
      split_ifs <;> rfl

theorem act_exclusive (d d' : SurfaceInterfacePrivate) (a : Action)
    (h : ¬ (d.lockedPointer.isSome = true ∧ d.confinedPointer.isSome = true))
    (ha : act d a = some d') :
    ¬ (d'.lockedPointer.isSome = true ∧ d'.confinedPointer.isSome = true) := by
  cases a with
  | request r =>
    simp only [act, Option.some.injEq] at ha
    subst ha
    rw [(handle_constraints d r).1, (handle_constraints d r).2]
    exact h
  | addChild child => simp only [act, Option.some.injEq] at ha; subst ha; exact h
  | removeChild child => simp only [act, Option.some.injEq] at ha; subst ha; exact h
  | raiseChild subsurface anchor =>
    simp only [act, Option.some.injEq] at ha
    subst ha
    rw [raiseChild_frame]
    exact h
  | lowerChild subsurface anchor =>
    simp only [act, Option.some.injEq] at ha
    subst ha
    rw [lowerChild_frame]
    exact h
  | setOutputs clientResources outputs =>
    simp only [act, Option.some.injEq] at ha; subst ha; exact h
  | installLocked lock lifeTime =>
    simp only [act, installPointerConstraintLocked] at ha
    by_cases h1 : d.lockedPointer.isSome = true
    · simp [h1] at ha
    · by_cases h2 : d.confinedPointer.isSome = true
      · simp [h1, h2] at ha
      · rw [if_neg h1, if_neg h2, Option.some.injEq] at ha
        subst ha
        simpa using h2
  | installConfined confinement lifeTime =>
    simp only [act, installPointerConstraintConfined] at ha
    by_cases h1 : d.lockedPointer.isSome = true
    · simp [h1] at ha
    · by_cases h2 : d.confinedPointer.isSome = true
      · simp [h1, h2] at ha
      · rw [if_neg h1, if_neg h2, Option.some.injEq] at ha
        subst ha
        simpa using h1
  | lockedChanged sender isLocked =>
    simp only [act, Option.some.injEq, lockedChanged] at ha
    subst ha
    split_ifs
    · exact h
    · simp [cleanUpLockedPointer]
    · exact h
  | confinedChanged sender isConfined =>
    simp only [act, Option.some.injEq, confinedChanged] at ha
    subst ha
    split_ifs
    · exact h
    · simp [cleanUpConfinedPointer]
    · exact h
  | constraintDestroyed sender =>
    simp only [act, Option.some.injEq, constraintDestroyed] at ha
    subst ha
    split_ifs
    · simp [cleanUpLockedPointer]
    · simp [cleanUpConfinedPointer]
    · exact h

theorem actAll_exclusive (actions : List Action) :
    ∀ d d' : SurfaceInterfacePrivate,
      ¬ (d.lockedPointer.isSome = true ∧ d.confinedPointer.isSome = true) →
      actAll d actions = some d' →
      ¬ (d'.lockedPointer.isSome = true ∧ d'.confinedPointer.isSome = true) := by
  induction actions with
  | nil =>
    intro d d' h ha
    simp only [actAll, Option.some.injEq] at ha
    subst ha
    exact h
  | cons a rest ih =>
    intro d d' h ha
    simp only [actAll] at ha
    cases h1 : act d a with
    | none => simp [h1] at ha
    | some d1 =>
      simp only [h1] at ha
      exact ih d1 d' (act_exclusive d d1 a h h1) ha

/-- C20: in every state reached through the actions on a surface, starting
from a state in which at most one of `lockedPointer` and `confinedPointer` is
set, at most one of them is set; installing a pointer lock or a confinement
while either kind is bound fails (the assertions of
`installPointerConstraint` do not hold, no state results, so no pointer is
changed), and installing one while none is bound succeeds and binds exactly
that constraint. -/
theorem pointer_constraints_exclusive (d d' : SurfaceInterfacePrivate) (actions : List Action)
    (h : ¬ (d.lockedPointer.isSome = true ∧ d.confinedPointer.isSome = true))
    (hrun : actAll d actions = some d') :
    ¬ (d'.lockedPointer.isSome = true ∧ d'.confinedPointer.isSome = true) ∧
    (∀ (constraint : Nat) (lifeTime : LifeTime),
      d'.lockedPointer.isSome = true ∨ d'.confinedPointer.isSome = true →
        d'.installPointerConstraintLocked constraint lifeTime = none ∧
        d'.installPointerConstraintConfined constraint lifeTime = none ∧
        actAll d (actions ++ [Action.installLocked constraint lifeTime]) = none ∧
        actAll d (actions ++ [Action.installConfined constraint lifeTime]) = none) ∧
    (∀ (constraint : Nat) (lifeTime : LifeTime),
      d'.lockedPointer = none → d'.confinedPointer = none →
        (∃ d1, d'.installPointerConstraintLocked constraint lifeTime = some d1 ∧
          d1.lockedPointer = some constraint ∧ d1.confinedPointer = none) ∧
        (∃ d2, d'.installPointerConstraintConfined constraint lifeTime = some d2 ∧
          d2.lockedPointer = none ∧ d2.confinedPointer = some constraint)) := by
  have happ : ∀ a, actAll d (actions ++ [a]) = act d' a := by
    intro a
    clear h
    induction actions generalizing d with
    | nil =>
      simp only [actAll, Option.some.injEq] at hrun
      subst hrun
      simp only [List.nil_append, actAll]
      cases act d a <;> rfl
    | cons b rest ih =>
      simp only [actAll, List.cons_append] at hrun ⊢
      cases h1 : act d b with
      | none => simp [h1] at hrun
      | some d1 =>
        simp only [h1] at hrun ⊢
        exact ih d1 hrun
  refine ⟨actAll_exclusive actions d d' h hrun, ?_, ?_⟩
  · intro constraint lifeTime hb
    have h1 : d'.installPointerConstraintLocked constraint lifeTime = none := by
      simp only [installPointerConstraintLocked]
      rcases hb with hb | hb
      · simp [hb]
      · split_ifs <;> simp_all
    have h2 : d'.installPointerConstraintConfined constraint lifeTime = none := by
      simp only [installPointerConstraintConfined]
      rcases hb with hb | hb
      · simp [hb]
      · split_ifs <;> simp_all
    refine ⟨h1, h2, ?_, ?_⟩
    · rw [happ]; exact h1
    · rw [happ]; exact h2
  · intro constraint lifeTime hl hc
    constructor
    · cases hres : d'.installPointerConstraintLocked constraint lifeTime with
      | none => simp [installPointerConstraintLocked, hl, hc] at hres
      | some d1 =>
        simp only [installPointerConstraintLocked, hl, hc, Option.isSome_none, Bool.false_eq_true,
          if_false, Option.some.injEq] at hres
        subst hres
        exact ⟨_, rfl, rfl, rfl⟩
    · cases hres : d'.installPointerConstraintConfined constraint lifeTime with
      | none => simp [installPointerConstraintConfined, hl, hc] at hres
      | some d2 =>
        simp only [installPointerConstraintConfined, hl, hc, Option.isSome_none,
          Bool.false_eq_true, if_false, Option.some.injEq] at hres
        subst hres
        exact ⟨_, rfl, rfl, rfl⟩

/-- C20 at the surface `confinedSurface`: with the confinement 5 bound, the
installation of the lock 7 and of the confinement 7 fail. -/
theorem pointer_constraints_exclusive_witness :
    actAll freshSurface
      [.request (.attach (some ⟨some buffer64⟩) 0 0), .request .commit,
        .installConfined 5 LifeTime.Persistent] = some confinedSurface ∧
    confinedSurface.lockedPointer = none ∧ confinedSurface.confinedPointer = some 5 ∧
    confinedSurface.installPointerConstraintLocked 7 LifeTime.OneShot = none ∧
    confinedSurface.installPointerConstraintConfined 7 LifeTime.OneShot = none :=
  ⟨by decide!, by decide!, by decide!,
    ((pointer_constraints_exclusive freshSurface confinedSurface
      [.request (.attach (some ⟨some buffer64⟩) 0 0), .request .commit,
        .installConfined 5 LifeTime.Persistent] (by decide!) (by decide!)).2.1 7
      LifeTime.OneShot (Or.inr (by decide!))).1,
    ((pointer_constraints_exclusive freshSurface confinedSurface
      [.request (.attach (some ⟨some buffer64⟩) 0 0), .request .commit,
        .installConfined 5 LifeTime.Persistent] (by decide!) (by decide!)).2.1 7
      LifeTime.OneShot (Or.inr (by decide!))).2.1⟩

/-! ## Unbinding of pointer constraints -/

theorem handle_connections (d : SurfaceInterfacePrivate) (r : Request) :
    (handle d r).constrainsOneShotConnection = d.constrainsOneShotConnection ∧
      (handle d r).constrainsUnboundConnection = d.constrainsUnboundConnection := by
  have happ : ∀ (e : SurfaceInterfacePrivate) (next : StateRef),
      (e.applyState next).constrainsOneShotConnection = e.constrainsOneShotConnection ∧
      (e.applyState next).constrainsUnboundConnection = e.constrainsUnboundConnection := by
    intro e next
    cases next <;> simp [applyState, setState]
  cases r with
  | commit =>
    simp only [handle, surface_commit]
    cases d.subSurface with
    | none => exact happ d _
    | some sub =>
      simp only [commitSubSurface]
      split_ifs
      · simp [commitToCache]
      · have := happ d.commitToCache StateRef.cached
        simpa [commitFromCache, commitToCache] using this
      · exact happ d _
  | attach buffer x y => cases buffer <;> simp [handle, surface_attach]
  | frame callbackResource => cases callbackResource <;> simp [handle, surface_frame]
  | setBufferScale scale =>
    by_cases hs : scale < 1 <;> simp [handle, surface_set_buffer_scale, hs]
  | setBufferTransform transform =>
    by_cases hs : transform < 0 ∨ transform > WL_OUTPUT_TRANSFORM_FLIPPED_270 <;>
      simp [handle, surface_set_buffer_transform, hs]
  | _ =>
    simp [handle, surface_damage, surface_damage_buffer, surface_set_opaque_region,
      surface_set_input_region, setShadow, setBlur, setSlide, setContrast]

theorem servesBinding_congr (d d' : SurfaceInterfacePrivate) (c : Option Connection)
    (hl : d'.lockedPointer = d.lockedPointer) (hc : d'.confinedPointer = d.confinedPointer) :
    servesBinding d' c = servesBinding d c := by
  rcases c with _ | ⟨sender, kind⟩
  · rfl
  · cases kind <;> simp [servesBinding, hl, hc]

theorem connectionsServeBinding_congr (d d' : SurfaceInterfacePrivate)
    (hl : d'.lockedPointer = d.lockedPointer) (hc : d'.confinedPointer = d.confinedPointer)
    (h1 : d'.constrainsOneShotConnection = d.constrainsOneShotConnection)
    (h2 : d'.constrainsUnboundConnection = d.constrainsUnboundConnection)
    (h : connectionsServeBinding d) : connectionsServeBinding d' := by
  unfold connectionsServeBinding at h ⊢
  rw [h1, h2, servesBinding_congr d d' _ hl hc, servesBinding_congr d d' _ hl hc]
  exact h

/-- With no constraint bound, connections that serve the binding are
disconnected. -/
theorem connections_none_of_unbound (d : SurfaceInterfacePrivate)
    (h : connectionsServeBinding d) (hl : d.lockedPointer = none)
    (hc : d.confinedPointer = none) :
    d.constrainsOneShotConnection = none ∧ d.constrainsUnboundConnection = none := by
  unfold connectionsServeBinding at h
  constructor
  · rcases ho : d.constrainsOneShotConnection with _ | ⟨sender, kind⟩
    · rfl
    · cases kind <;> simp [ho, servesBinding, hl, hc] at h
  · rcases ho : d.constrainsUnboundConnection with _ | ⟨sender, kind⟩
    · rfl
    · cases kind <;> simp [ho, servesBinding, hl, hc] at h

theorem cleanUpLockedPointer_serves (d : SurfaceInterfacePrivate) :
    connectionsServeBinding d.cleanUpLockedPointer := by
  simp [connectionsServeBinding, cleanUpLockedPointer, servesBinding]

theorem cleanUpConfinedPointer_serves (d : SurfaceInterfacePrivate) :
    connectionsServeBinding d.cleanUpConfinedPointer := by
  simp [connectionsServeBinding, cleanUpConfinedPointer, servesBinding]

theorem installLocked_eq (d d1 : SurfaceInterfacePrivate) (lock : Nat) (lifeTime : LifeTime)
    (h : d.installPointerConstraintLocked lock lifeTime = some d1) :
    d.lockedPointer = none ∧ d.confinedPointer = none ∧
    d1 = { d with
      lockedPointer := some lock
      constrainsOneShotConnection :=
        if lifeTime = LifeTime.OneShot then some ⟨lock, ConstraintKind.lock⟩
        else d.constrainsOneShotConnection
      constrainsUnboundConnection := some ⟨lock, ConstraintKind.lock⟩
      log := d.log ++ [Event.pointerConstraintsChanged] } := by
  simp only [installPointerConstraintLocked] at h
  by_cases h1 : d.lockedPointer.isSome = true
  · simp [h1] at h
  · by_cases h2 : d.confinedPointer.isSome = true
    · simp [h1, h2] at h
    · rw [if_neg h1, if_neg h2, Option.some.injEq] at h
      refine ⟨?_, ?_, h.symm⟩
      · simpa using h1
      · simpa using h2

theorem installConfined_eq (d d1 : SurfaceInterfacePrivate) (confinement : Nat)
    (lifeTime : LifeTime)
    (h : d.installPointerConstraintConfined confinement lifeTime = some d1) :
    d.lockedPointer = none ∧ d.confinedPointer = none ∧
    d1 = { d with
      confinedPointer := some confinement
      constrainsOneShotConnection :=
        if lifeTime = LifeTime.OneShot then some ⟨confinement, ConstraintKind.confinement⟩
        else d.constrainsOneShotConnection
      constrainsUnboundConnection := some ⟨confinement, ConstraintKind.confinement⟩
      log := d.log ++ [Event.pointerConstraintsChanged] } := by
  simp only [installPointerConstraintConfined] at h
  by_cases h1 : d.lockedPointer.isSome = true
  · simp [h1] at h
  · by_cases h2 : d.confinedPointer.isSome = true
    · simp [h1, h2] at h
    · rw [if_neg h1, if_neg h2, Option.some.injEq] at h
      refine ⟨?_, ?_, h.symm⟩
      · simpa using h1
      · simpa using h2

theorem act_serves (d d' : SurfaceInterfacePrivate) (a : Action)
    (h : connectionsServeBinding d) (ha : act d a = some d') :
    connectionsServeBinding d' := by
  cases a with
  | request r =>
    simp only [act, Option.some.injEq] at ha
    subst ha
    exact connectionsServeBinding_congr d _ (handle_constraints d r).1 (handle_constraints d r).2
      (handle_connections d r).1 (handle_connections d r).2 h
  | addChild child => simp only [act, Option.some.injEq] at ha; subst ha; exact h
  | removeChild child => simp only [act, Option.some.injEq] at ha; subst ha; exact h
  | raiseChild subsurface anchor =>
    simp only [act, Option.some.injEq] at ha
    subst ha
    rw [raiseChild_frame]
    exact h
  | lowerChild subsurface anchor =>
    simp only [act, Option.some.injEq] at ha
    subst ha
    rw [lowerChild_frame]
    exact h
  | setOutputs clientResources outputs =>
    simp only [act, Option.some.injEq] at ha; subst ha; exact h
  | installLocked lock lifeTime =>
    simp only [act] at ha
    obtain ⟨hl, hc, rfl⟩ := installLocked_eq d d' lock lifeTime ha
    have hn := connections_none_of_unbound d h hl hc
    cases lifeTime <;> simp [connectionsServeBinding, servesBinding, hn.1]
  | installConfined confinement lifeTime =>
    simp only [act] at ha
    obtain ⟨hl, hc, rfl⟩ := installConfined_eq d d' confinement lifeTime ha
    have hn := connections_none_of_unbound d h hl hc
    cases lifeTime <;> simp [connectionsServeBinding, servesBinding, hn.1]
  | lockedChanged sender isLocked =>
    simp only [act, Option.some.injEq, lockedChanged] at ha
    subst ha
    split_ifs
    · exact h
    · exact cleanUpLockedPointer_serves d
    · exact h
  | confinedChanged sender isConfined =>
    simp only [act, Option.some.injEq, confinedChanged] at ha
    subst ha
    split_ifs
    · exact h
    · exact cleanUpConfinedPointer_serves d
    · exact h
  | constraintDestroyed sender =>
    simp only [act, Option.some.injEq, constraintDestroyed] at ha
    subst ha
    split_ifs
    · exact cleanUpLockedPointer_serves d
    · exact cleanUpConfinedPointer_serves d
    · exact h

theorem actAll_serves (actions : List Action) :
    ∀ d d' : SurfaceInterfacePrivate, connectionsServeBinding d →
      actAll d actions = some d' → connectionsServeBinding d' := by
  induction actions with
  | nil =>
    intro d d' h ha
    simp only [actAll, Option.some.injEq] at ha
    subst ha
    exact h
  | cons a rest ih =>
    intro d d' h ha
    simp only [actAll] at ha
    cases h1 : act d a with
    | none => simp [h1] at ha
    | some d1 =>
      simp only [h1] at ha
      exact ih d1 d' (act_serves d d1 a h h1) ha

/-- The events of a constraint the surface is not bound to change nothing. -/
theorem foreign_constraint_events (d : SurfaceInterfacePrivate) (h : connectionsServeBinding d)
    (sender : Nat) :
    (d.lockedPointer ≠ some sender → ∀ isLocked, d.lockedChanged sender isLocked = d) ∧
    (d.confinedPointer ≠ some sender → ∀ isConfined, d.confinedChanged sender isConfined = d) ∧
    (d.lockedPointer ≠ some sender → d.confinedPointer ≠ some sender →
      d.constraintDestroyed sender = d) := by
  unfold connectionsServeBinding at h
  refine ⟨?_, ?_, ?_⟩
  · intro hl isLocked
    have : d.constrainsOneShotConnection ≠ some ⟨sender, ConstraintKind.lock⟩ := by
      intro hc
      rw [hc] at h
      simp [servesBinding] at h
      exact hl h.1
    simp [lockedChanged, this]
  · intro hl isConfined
    have : d.constrainsOneShotConnection ≠ some ⟨sender, ConstraintKind.confinement⟩ := by
      intro hc
      rw [hc] at h
      simp [servesBinding] at h
      exact hl h.1
    simp [confinedChanged, this]
  · intro hl hc
    have h1 : d.constrainsUnboundConnection ≠ some ⟨sender, ConstraintKind.lock⟩ := by
      intro hu
      rw [hu] at h
      simp [servesBinding] at h
      exact hl h.2
    have h2 : d.constrainsUnboundConnection ≠ some ⟨sender, ConstraintKind.confinement⟩ := by
      intro hu
      rw [hu] at h
      simp [servesBinding] at h
      exact hc h.2
    simp [constraintDestroyed, h1, h2]

theorem lockedChanges_fixed (d : SurfaceInterfacePrivate) (sender : Nat)
    (h : ∀ isLocked, d.lockedChanged sender isLocked = d) (changes : List Bool) :
    lockedChanges d sender changes = d := by
  induction changes with
  | nil => rfl
  | cons b rest ih =>
    simp only [lockedChanges, List.foldl_cons] at ih ⊢
    rw [h b]
    exact ih

theorem confinedChanges_fixed (d : SurfaceInterfacePrivate) (sender : Nat)
    (h : ∀ isConfined, d.confinedChanged sender isConfined = d) (changes : List Bool) :
    confinedChanges d sender changes = d := by
  induction changes with
  | nil => rfl
  | cons b rest ih =>
    simp only [confinedChanges, List.foldl_cons] at ih ⊢
    rw [h b]
    exact ih

theorem lockedChanges_oneShot (d : SurfaceInterfacePrivate) (sender : Nat)
    (h : d.constrainsOneShotConnection = some ⟨sender, ConstraintKind.lock⟩)
    (changes : List Bool) :
    lockedChanges d sender changes =
      if false ∈ changes then d.cleanUpLockedPointer else d := by
  induction changes with
  | nil => rfl
  | cons b rest ih =>
    cases b with
    | true =>
      have : d.lockedChanged sender true = d := by simp [lockedChanged]
      simp only [lockedChanges, List.foldl_cons, this] at ih ⊢
      rw [ih]
      simp
    | false =>
      have h1 : d.lockedChanged sender false = d.cleanUpLockedPointer := by
        simp [lockedChanged, h]
      have h2 : ∀ b, d.cleanUpLockedPointer.lockedChanged sender b = d.cleanUpLockedPointer := by
        intro b
        simp [lockedChanged, cleanUpLockedPointer]
      have := lockedChanges_fixed _ sender h2 rest
      simp only [lockedChanges, List.foldl_cons, h1] at this ⊢
      rw [this]
      simp

theorem confinedChanges_oneShot (d : SurfaceInterfacePrivate) (sender : Nat)
    (h : d.constrainsOneShotConnection = some ⟨sender, ConstraintKind.confinement⟩)
    (changes : List Bool) :
    confinedChanges d sender changes =
      if false ∈ changes then d.cleanUpConfinedPointer else d := by
  induction changes with
  | nil => rfl
  | cons b rest ih =>
    cases b with
    | true =>
      have : d.confinedChanged sender true = d := by simp [confinedChanged]
      simp only [confinedChanges, List.foldl_cons, this] at ih ⊢
      rw [ih]
      simp
    | false =>
      have h1 : d.confinedChanged sender false = d.cleanUpConfinedPointer := by
        simp [confinedChanged, h]
      have h2 : ∀ b,
          d.cleanUpConfinedPointer.confinedChanged sender b = d.cleanUpConfinedPointer := by
        intro b
        simp [confinedChanged, cleanUpConfinedPointer]
      have := confinedChanges_fixed _ sender h2 rest
      simp only [confinedChanges, List.foldl_cons, h1] at this ⊢
      rw [this]
      simp

/-- C21: in a state reached through the actions on a surface (from a state
whose connections serve the bound constraint, as on a new surface), after a
pointer lock or confinement has been installed: for a one-shot constraint the
condition-change events that find it still locked or confined change nothing
and the first one that finds it no longer locked or confined unbinds it, so a
sequence of such events ends in the state of one unbind exactly when one of
them finds it released; for a persistent constraint no condition-change event
changes anything; the destruction of the constraint unbinds either kind.  An
unbind sets the binding to null, disconnects the one-shot and the destruction
connection and emits `pointerConstraintsChanged` once, and after it no
condition change or destruction of any constraint changes the surface.  In
every reached state the events of a constraint the surface is not bound to
change nothing. -/
theorem pointer_constraint_unbinding (d0 d : SurfaceInterfacePrivate) (actions : List Action)
    (h0 : connectionsServeBinding d0) (hrun : actAll d0 actions = some d)
    (constraint : Nat) (lifeTime : LifeTime) :
    (∀ d1, d.installPointerConstraintLocked constraint lifeTime = some d1 →
      (∀ changes : List Bool, lockedChanges d1 constraint changes =
        if lifeTime = LifeTime.OneShot ∧ false ∈ changes then d1.cleanUpLockedPointer
        else d1) ∧
      d1.constraintDestroyed constraint = d1.cleanUpLockedPointer ∧
      d1.lockedPointer = some constraint ∧
      d1.cleanUpLockedPointer.lockedPointer = none ∧
      d1.cleanUpLockedPointer.confinedPointer = none ∧
      d1.cleanUpLockedPointer.constrainsOneShotConnection = none ∧
      d1.cleanUpLockedPointer.constrainsUnboundConnection = none ∧
      d1.cleanUpLockedPointer.log = d1.log ++ [Event.pointerConstraintsChanged] ∧
      ∀ (sender : Nat) (condition : Bool),
        d1.cleanUpLockedPointer.lockedChanged sender condition = d1.cleanUpLockedPointer ∧
        d1.cleanUpLockedPointer.confinedChanged sender condition = d1.cleanUpLockedPointer ∧
        d1.cleanUpLockedPointer.constraintDestroyed sender = d1.cleanUpLockedPointer) ∧
    (∀ d1, d.installPointerConstraintConfined constraint lifeTime = some d1 →
      (∀ changes : List Bool, confinedChanges d1 constraint changes =
        if lifeTime = LifeTime.OneShot ∧ false ∈ changes then d1.cleanUpConfinedPointer
        else d1) ∧
      d1.constraintDestroyed constraint = d1.cleanUpConfinedPointer ∧
      d1.confinedPointer = some constraint ∧
      d1.cleanUpConfinedPointer.lockedPointer = none ∧
      d1.cleanUpConfinedPointer.confinedPointer = none ∧
      d1.cleanUpConfinedPointer.constrainsOneShotConnection = none ∧
      d1.cleanUpConfinedPointer.constrainsUnboundConnection = none ∧
      d1.cleanUpConfinedPointer.log = d1.log ++ [Event.pointerConstraintsChanged] ∧
      ∀ (sender : Nat) (condition : Bool),
        d1.cleanUpConfinedPointer.lockedChanged sender condition = d1.cleanUpConfinedPointer ∧
        d1.cleanUpConfinedPointer.confinedChanged sender condition =
          d1.cleanUpConfinedPointer ∧
        d1.cleanUpConfinedPointer.constraintDestroyed sender = d1.cleanUpConfinedPointer) ∧
    (∀ sender : Nat,
      (d.lockedPointer ≠ some sender → ∀ isLocked, d.lockedChanged sender isLocked = d) ∧
      (d.confinedPointer ≠ some sender →
        ∀ isConfined, d.confinedChanged sender isConfined = d) ∧
      (d.lockedPointer ≠ some sender → d.confinedPointer ≠ some sender →
        d.constraintDestroyed sender = d)) := by
  have hd := actAll_serves actions d0 d h0 hrun
  refine ⟨?_, ?_, fun sender => foreign_constraint_events d hd sender⟩
  · intro d1 h1
    obtain ⟨hl, hc, rfl⟩ := installLocked_eq d d1 constraint lifeTime h1
    have hn := connections_none_of_unbound d hd hl hc
    refine ⟨?_, by simp [constraintDestroyed], rfl, rfl, hc, rfl, rfl, rfl, ?_⟩
    · intro changes
      cases lifeTime with
      | OneShot =>
        rw [lockedChanges_oneShot _ constraint (by simp) changes]
        simp
      | Persistent =>
        rw [lockedChanges_fixed _ constraint (by intro b; simp [lockedChanged, hn.1]) changes]
        simp
    · intro sender condition
      simp [lockedChanged, confinedChanged, constraintDestroyed, cleanUpLockedPointer]
  · intro d1 h1
    obtain ⟨hl, hc, rfl⟩ := installConfined_eq d d1 constraint lifeTime h1
    have hn := connections_none_of_unbound d hd hl hc
    refine ⟨?_, by simp [constraintDestroyed], rfl, hl, rfl, rfl, rfl, rfl, ?_⟩
    · intro changes
      cases lifeTime with
      | OneShot =>
        rw [confinedChanges_oneShot _ constraint (by simp) changes]
        simp
      | Persistent =>
        rw [confinedChanges_fixed _ constraint (by intro b; simp [confinedChanged, hn.1]) changes]
        simp
    · intro sender condition
      simp [lockedChanged, confinedChanged, constraintDestroyed, cleanUpConfinedPointer]

/-- C21 at the surface `lockedSurface`: the one-shot lock 7, installed after
the first commit, stays bound at a condition change that finds it locked and
is unbound by the next one, which finds it released; the third changes
nothing. -/
theorem pointer_constraint_unbinding_witness :
    firstCommit.installPointerConstraintLocked 7 LifeTime.OneShot = some lockedSurface ∧
    lockedChanges lockedSurface 7 [true, false, true] =
      if LifeTime.OneShot = LifeTime.OneShot ∧ false ∈ [true, false, true] then
        lockedSurface.cleanUpLockedPointer
      else lockedSurface :=
  ⟨by decide!,
    ((pointer_constraint_unbinding freshSurface firstCommit
      [.request (.attach (some ⟨some buffer64⟩) 0 0), .request .commit] (by decide!)
      (by decide!) 7 LifeTime.OneShot).1 lockedSurface (by decide!)).1 [true, false, true]⟩

/-! ## Damage staged without a buffer -/

theorem mergeInto_staged_damage (s t : SurfaceState) (damage bufferDamage : QRegion)
    (h : s.bufferIsSet = false) :
    SurfaceState.mergeInto { s with damage := damage, bufferDamage := bufferDamage } t =
      s.mergeInto t := by
  simp [SurfaceState.mergeInto, h]

theorem applyState_staged_damage (d : SurfaceInterfacePrivate) (damage bufferDamage : QRegion)
    (h : d.pending.bufferIsSet = false) :
    (withStagedDamage d damage bufferDamage).applyState StateRef.pending =
      d.applyState StateRef.pending := by
  have hm := mergeInto_staged_damage d.pending d.current damage bufferDamage h
  simp only [applyState, withStagedDamage, state, setState, hm]

theorem commitToCache_staged_damage (d : SurfaceInterfacePrivate)
    (damage bufferDamage : QRegion) (h : d.pending.bufferIsSet = false) :
    (withStagedDamage d damage bufferDamage).commitToCache = d.commitToCache := by
  have hm := mergeInto_staged_damage d.pending d.cached damage bufferDamage h
  simp only [commitToCache, withStagedDamage, hm]

theorem surface_commit_staged_damage (d : SurfaceInterfacePrivate)
    (damage bufferDamage : QRegion) (h : d.pending.bufferIsSet = false) :
    (withStagedDamage d damage bufferDamage).surface_commit = d.surface_commit := by
  have h1 := applyState_staged_damage d damage bufferDamage h
  have h2 := commitToCache_staged_damage d damage bufferDamage h
  have h3 : (withStagedDamage d damage bufferDamage).subSurface = d.subSurface := rfl
  have h4 : (withStagedDamage d damage bufferDamage).hasCacheState = d.hasCacheState := rfl
  simp only [surface_commit, h3]
  cases d.subSurface with
  | none => exact h1
  | some sub => simp only [commitSubSurface, h1, h2, h4]

theorem handle_staged_damage (d : SurfaceInterfacePrivate) (r : Request)
    (damage bufferDamage : QRegion) (h1 : r.isStaging = true) (h2 : r.isAttach = false) :
    (handle d r).pending.bufferIsSet = d.pending.bufferIsSet ∧
    ∃ damage1 bufferDamage1,
      handle (withStagedDamage d damage bufferDamage) r =
        withStagedDamage (if r.isDamage then d else handle d r) damage1 bufferDamage1 := by
  cases r with
  | commit => simp [Request.isStaging] at h1
  | attach buffer x y => simp [Request.isAttach] at h2
  | frame callbackResource =>
    cases callbackResource with
    | none => exact ⟨rfl, damage, bufferDamage, rfl⟩
    | some callback => exact ⟨rfl, damage, bufferDamage, rfl⟩
  | setBufferScale scale =>
    by_cases hs : scale < 1
    · refine ⟨by simp [handle, surface_set_buffer_scale, hs], damage, bufferDamage, ?_⟩
      simp [handle, surface_set_buffer_scale, hs, withStagedDamage, Request.isDamage]
    · refine ⟨by simp [handle, surface_set_buffer_scale, hs], damage, bufferDamage, ?_⟩
      simp [handle, surface_set_buffer_scale, hs, withStagedDamage, Request.isDamage]
  | setBufferTransform transform =>
    by_cases hs : transform < 0 ∨ transform > WL_OUTPUT_TRANSFORM_FLIPPED_270
    · refine ⟨by simp [handle, surface_set_buffer_transform, hs], damage, bufferDamage, ?_⟩
      simp [handle, surface_set_buffer_transform, hs, withStagedDamage, Request.isDamage]
    · refine ⟨by simp [handle, surface_set_buffer_transform, hs], damage, bufferDamage, ?_⟩
      simp [handle, surface_set_buffer_transform, hs, withStagedDamage, Request.isDamage]
  | damage x y width height =>
    exact ⟨rfl, damage.united (QRegion.ofRect ⟨x, y, width, height⟩), bufferDamage, rfl⟩
  | damageBuffer x y width height =>
    exact ⟨rfl, damage, bufferDamage.united (QRegion.ofRect ⟨x, y, width, height⟩), rfl⟩
  | setOpaqueRegion region => exact ⟨rfl, damage, bufferDamage, rfl⟩
  | setInputRegion region => exact ⟨rfl, damage, bufferDamage, rfl⟩
  | setShadow shadow => exact ⟨rfl, damage, bufferDamage, rfl⟩
  | setBlur blur => exact ⟨rfl, damage, bufferDamage, rfl⟩
  | setSlide slide => exact ⟨rfl, damage, bufferDamage, rfl⟩
  | setContrast contrast => exact ⟨rfl, damage, bufferDamage, rfl⟩

theorem run_staged_damage (requests : List Request) :
    ∀ (d : SurfaceInterfacePrivate) (damage bufferDamage : QRegion),
      (∀ r ∈ requests, r.isStaging = true ∧ r.isAttach = false) →
      (run d (requests.filter fun r => !r.isDamage)).pending.bufferIsSet =
        d.pending.bufferIsSet ∧
      ∃ damage1 bufferDamage1,
        run (withStagedDamage d damage bufferDamage) requests =
          withStagedDamage (run d (requests.filter fun r => !r.isDamage))
            damage1 bufferDamage1 := by
  induction requests with
  | nil => intro d damage bufferDamage _; exact ⟨rfl, damage, bufferDamage, rfl⟩
  | cons r rs ih =>
    intro d damage bufferDamage h
    have hr := h r (List.mem_cons_self r rs)
    have hrs : ∀ r' ∈ rs, r'.isStaging = true ∧ r'.isAttach = false :=
      fun r' hr' => h r' (List.mem_cons_of_mem r hr')
    obtain ⟨hb, damage1, bufferDamage1, h1⟩ := handle_staged_damage d r damage bufferDamage hr.1 hr.2
    cases hd : r.isDamage with
    | true =>
      simp only [hd, if_true] at h1
      obtain ⟨hb2, damage2, bufferDamage2, h2⟩ := ih d damage1 bufferDamage1 hrs
      refine ⟨?_, damage2, bufferDamage2, ?_⟩
      · simpa [List.filter, hd] using hb2
      · simp only [run, List.foldl_cons, List.filter, hd, Bool.not_true] at h2 ⊢
        rw [h1]
        exact h2
    | false =>
      simp only [hd, Bool.false_eq_true, if_false] at h1
      obtain ⟨hb2, damage2, bufferDamage2, h2⟩ := ih (handle d r) damage1 bufferDamage1 hrs
      refine ⟨?_, damage2, bufferDamage2, ?_⟩
      · simp only [run, List.filter, hd, Bool.not_false, List.foldl_cons] at hb2 ⊢
        rw [hb2, hb]
      · simp only [run, List.foldl_cons, List.filter, hd, Bool.not_false] at h2 ⊢
        rw [h1]
        exact h2

theorem surface_commit_pending_damage (d : SurfaceInterfacePrivate) :
    d.surface_commit.pending.damage = QRegion.empty ∧
      d.surface_commit.pending.bufferDamage = QRegion.empty := by
  have happ : ∀ e : SurfaceInterfacePrivate,
      (e.applyState StateRef.pending).pending.damage = QRegion.empty ∧
      (e.applyState StateRef.pending).pending.bufferDamage = QRegion.empty := by
    intro e
    simp [applyState, setState, state, SurfaceState.mergeInto]
  simp only [surface_commit]
  cases d.subSurface with
  | none => exact happ d
  | some sub =>
    simp only [commitSubSurface]
    split_ifs
    · simp [commitToCache, SurfaceState.mergeInto]
    · simp [commitFromCache, commitToCache, applyState, setState, state,
        SurfaceState.mergeInto]
    · exact happ d

theorem applyState_without_buffer (d : SurfaceInterfacePrivate) (next : StateRef)
    (h : (d.state next).bufferIsSet = false) :
    (d.applyState next).damage = d.damage ∧
    ∃ events : List Event, (d.applyState next).log = d.log ++ events ∧
      ∀ region, Event.damaged region ∉ events := by
  constructor
  · simp [applyState, damage, SurfaceState.mergeInto, h]
  · obtain ⟨prologue, hp, hlog⟩ := applyState_log d next
    refine ⟨_, hlog, ?_⟩
    intro region hmem
    simp only [List.mem_append, List.mem_map, List.mem_singleton, mem_emitIf,
      applyStateSignals, h] at hmem
    have := not_mem_prologue prologue hp (Event.damaged region) rfl
    simp_all

theorem run_staging_frame (requests : List Request) :
    ∀ d : SurfaceInterfacePrivate, (∀ r ∈ requests, r.isStaging = true) →
      (run d requests).subSurface = d.subSurface ∧
      (run d requests).hasCacheState = d.hasCacheState := by
  induction requests with
  | nil => intro d _; exact ⟨rfl, rfl⟩
  | cons r rs ih =>
    intro d h
    have h1 := handle_staging d r (h r (List.mem_cons_self r rs))
    have h2 := ih (handle d r) (fun r' hr' => h r' (List.mem_cons_of_mem r hr'))
    exact ⟨h2.1.trans h1.2.2.1, h2.2.trans h1.2.2.2⟩

/-- C30, the claim as stated fails: the sub-surface `cachedThenDesynchronized`
has a buffer and damage in its cached state and no buffer set in its pending
state.  It stages the damage `(0, 0, 10, 10)` without an attach and commits:
the commit applies the cached state, `damage()` is another region than before
the commit and `damaged` is emitted. -/
theorem cached_damage_shown_by_commit_without_attach :
    cachedThenDesynchronized.pending.bufferIsSet = false ∧
    (cachedThenDesynchronized.damage.equal
      (run cachedThenDesynchronized [.damage 0 0 10 10, .commit]).damage) = false ∧
    Event.damaged (QRegion.ofRect ⟨0, 0, 32, 32⟩) ∈
      (run cachedThenDesynchronized [.damage 0 0 10 10, .commit]).log.drop
        cachedThenDesynchronized.log.length := by
  decide!

/-- C30, amended: when the pending buffer is not set at the start of a commit
cycle (as after every commit) and the requests of the cycle are staging
requests other than `surface_attach`, the commit that ends the cycle leaves
the pending damage and the pending buffer damage empty and has the same
result as the commit of the cycle without its damage requests: the staged
damage is discarded.  Unless the commit applies a cached state whose buffer is
set (which only a desynchronized sub-surface with cache state does),
`damage()` is after the commit what it was before, and no `damaged` is among
the events of the commit. -/
theorem staged_damage_without_attach (d0 : SurfaceInterfacePrivate) (requests : List Request)
    (h0 : d0.pending.bufferIsSet = false)
    (hreq : ∀ r ∈ requests, r.isStaging = true ∧ r.isAttach = false) :
    (handle (run d0 requests) Request.commit).pending.damage = QRegion.empty ∧
    (handle (run d0 requests) Request.commit).pending.bufferDamage = QRegion.empty ∧
    handle (run d0 requests) Request.commit =
      handle (run d0 (requests.filter fun r => !r.isDamage)) Request.commit ∧
    (promotesCachedBuffer d0 = false →
      (handle (run d0 requests) Request.commit).damage = d0.damage ∧
      ∃ events : List Event,
        (handle (run d0 requests) Request.commit).log = d0.log ++ events ∧
        ∀ region, Event.damaged region ∉ events) := by
  have hst : ∀ r ∈ requests, r.isStaging = true := fun r hr => (hreq r hr).1
  obtain ⟨hb, damage1, bufferDamage1, hrun⟩ :=
    run_staged_damage requests d0 d0.pending.damage d0.pending.bufferDamage hreq
  have heta : withStagedDamage d0 d0.pending.damage d0.pending.bufferDamage = d0 := rfl
  rw [heta] at hrun
  have hbd : (run d0 requests).pending.bufferIsSet = false := by
    rw [hrun]
    simp only [withStagedDamage]
    rw [hb, h0]
  have hvis := (run_staging requests d0 hst).1
  have hcached := (run_staging requests d0 hst).2
  have hframe := run_staging_frame requests d0 hst
  refine ⟨(surface_commit_pending_damage _).1, (surface_commit_pending_damage _).2, ?_, ?_⟩
  · simp only [handle]
    rw [hrun]
    exact surface_commit_staged_damage _ damage1 bufferDamage1 (by rw [hb, h0])
  · intro hp
    have hcur : (run d0 requests).damage = d0.damage := by
      simp only [damage]
      rw [hvis.1]
    have hlog : (run d0 requests).log = d0.log := hvis.2.2.2.2.2.2.2
    have happ : ∀ (e : SurfaceInterfacePrivate) (next : StateRef),
        (e.state next).bufferIsSet = false → e.damage = d0.damage → e.log = d0.log →
        (e.applyState next).damage = d0.damage ∧
        ∃ events : List Event, (e.applyState next).log = d0.log ++ events ∧
          ∀ region, Event.damaged region ∉ events := by
      intro e next hn hd hl
      obtain ⟨h1, events, h2, h3⟩ := applyState_without_buffer e next hn
      exact ⟨h1.trans hd, events, by rw [h2, hl], h3⟩
    simp only [handle, surface_commit]
    cases hs : (run d0 requests).subSurface with
    | none => exact happ _ StateRef.pending hbd hcur hlog
    | some sub =>
      simp only [commitSubSurface]
      split_ifs with hsync hcache
      · exact ⟨hcur, [], by simp [commitToCache, hlog], by simp⟩
      · have hc0 : d0.cached.bufferIsSet = false := by
          rw [hframe.1] at hs
          rw [hframe.2] at hcache
          simpa [promotesCachedBuffer, hs, hsync, hcache] using hp
        have := happ (run d0 requests).commitToCache StateRef.cached
          (by simp [commitToCache, state, SurfaceState.mergeInto, hbd, hcached, hc0])
          hcur hlog
        simpa [commitFromCache, damage] using this
      · exact happ _ StateRef.pending hbd hcur hlog

/-- C30 at the surface `firstCommit`: the damage `(0, 0, 10, 10)` staged
after the first commit and committed without an attach leaves `damage()` as it
was. -/
theorem staged_damage_without_attach_witness :
    firstCommit.pending.bufferIsSet = false ∧
    (handle (run firstCommit [.damage 0 0 10 10]) Request.commit).damage = firstCommit.damage :=
  ⟨by decide!,
    ((staged_damage_without_attach firstCommit [.damage 0 0 10 10] (by decide!)
      (by decide)).2.2.2 (by decide!)).1⟩

/-! ## References on buffers -/

theorem referenceCalls_append (xs ys : List Event) :
    referenceCalls (xs ++ ys) = referenceCalls xs ++ referenceCalls ys := by
  simp [referenceCalls]

theorem referenceCalls_emitIf (c : Bool) (e : Event) (h : e.isReferenceCount = false) :
    referenceCalls (emitIf c e) = [] := by
  cases c <;> simp [emitIf, referenceCalls, h]

theorem referenceCalls_eq_nil (xs : List Event) (h : ∀ e ∈ xs, e.isReferenceCount = false) :
    referenceCalls xs = [] := by
  simp only [referenceCalls, List.filter_eq_nil_iff]
  intro e he
  simp [h e he]

/-- The reference counting calls of `applyState`. -/
theorem applyState_referenceCalls (d : SurfaceInterfacePrivate) (next : StateRef) :
    referenceCalls (d.applyState next).log =
      referenceCalls d.log ++ referenceChange d.bufferRef (d.applyState next).current.buffer := by
  have hmap : ∀ l : List SubSurfacePtr, referenceCalls (l.map Event.parentCommit) = [] := by
    intro l
    apply referenceCalls_eq_nil
    intro e he
    obtain ⟨c, _, rfl⟩ := List.mem_map.1 he
    rfl
  have hlock : referenceCalls
      ((match d.lockedPointer with
        | some lock => [Event.lockedPointerCommit lock]
        | none => []) ++
      (match d.confinedPointer with
        | some confinement => [Event.confinedPointerCommit confinement]
        | none => [])) = [] := by
    cases d.lockedPointer <;> cases d.confinedPointer <;> rfl
  have href : referenceCalls
      (if (d.bufferRef != (d.applyState next).current.buffer) = true then
        (match d.bufferRef with
          | some old => [Event.bufferUnref old]
          | none => []) ++
        (match (d.applyState next).current.buffer with
          | some new => [Event.bufferRef new]
          | none => [])
      else []) = referenceChange d.bufferRef (d.applyState next).current.buffer := by
    unfold referenceChange
    by_cases h : d.bufferRef = (d.applyState next).current.buffer
    · simp [h, referenceCalls]
    · simp only [bne_iff_ne, ne_eq, h, not_false_eq_true, if_true, if_false]
      cases d.bufferRef <;> cases (d.applyState next).current.buffer <;> rfl
  have hlog : (d.applyState next).log = d.log ++
      (((match d.lockedPointer with
        | some lock => [Event.lockedPointerCommit lock]
        | none => []) ++
      (match d.confinedPointer with
        | some confinement => [Event.confinedPointerCommit confinement]
        | none => [])) ++
      (if (d.bufferRef != (d.applyState next).current.buffer) = true then
        (match d.bufferRef with
          | some old => [Event.bufferUnref old]
          | none => []) ++
        (match (d.applyState next).current.buffer with
          | some new => [Event.bufferRef new]
          | none => [])
      else []) ++ applyStateSignals d next ++
          ((d.applyState next).current.below.map Event.parentCommit ++
            (d.applyState next).current.above.map Event.parentCommit ++
            emitIf d.role Event.roleCommit ++ [Event.committed])) := by
    cases hb : (d.state next).bufferIsSet <;>
      simp [applyState, applyStateSignals, size, input, damage, SurfaceState.mergeInto, hb,
        List.append_assoc]
  rw [hlog]
  have hc : referenceCalls [Event.committed] = [] := rfl
  have hsig : referenceCalls (applyStateSignals d next) = [] := by
    apply referenceCalls_eq_nil
    intro e he
    simp only [applyStateSignals, List.mem_append, mem_emitIf] at he
    rcases he with (((((((((((((h | h) | h) | h) | h) | h) | h) | h) | h) | h) | h) | h) | h) | h) <;>
      obtain ⟨_, rfl⟩ := h <;> first | rfl | (split <;> rfl)
  simp only [referenceCalls_append, hlock, href, hmap, hsig, hc,
    referenceCalls_emitIf d.role Event.roleCommit rfl, List.append_nil, List.nil_append]

theorem referencesHeld_append (xs ys : List Event) (buffer : ClientBuffer) :
    referencesHeld (xs ++ ys) buffer = referencesHeld xs buffer + referencesHeld ys buffer := by
  simp only [referencesHeld, List.count_append, Nat.cast_add]
  ring

theorem referencesHeld_referenceCalls (log : List Event) (buffer : ClientBuffer) :
    referencesHeld (referenceCalls log) buffer = referencesHeld log buffer := by
  simp only [referencesHeld, referenceCalls]
  rw [List.count_filter (by rfl), List.count_filter (by rfl)]

theorem referencesHeld_referenceChange (old new : Option ClientBuffer) (buffer : ClientBuffer) :
    referencesHeld (referenceChange old new) buffer =
      (if new = some buffer then 1 else 0) - (if old = some buffer then 1 else 0) := by
  unfold referenceChange
  by_cases h : old = new
  · simp [h, referencesHeld]
  · rw [if_neg h]
    rcases old with _ | o <;> rcases new with _ | n
    · exact absurd rfl h
    · by_cases hn : n = buffer <;> simp [referencesHeld, hn, List.count_singleton]
    · by_cases ho : o = buffer <;> simp [referencesHeld, ho, List.count_singleton]
    · have hne : o ≠ n := fun e => h (by rw [e])
      by_cases hn : n = buffer <;> by_cases ho : o = buffer <;>
        simp [referencesHeld, hn, ho, List.count_cons, List.count_singleton]

theorem applyState_referencesHeld (d : SurfaceInterfacePrivate) (next : StateRef)
    (buffer : ClientBuffer) :
    referencesHeld (d.applyState next).log buffer =
      referencesHeld d.log buffer +
        ((if (d.applyState next).current.buffer = some buffer then 1 else 0) -
          (if d.bufferRef = some buffer then 1 else 0)) := by
  rw [← referencesHeld_referenceCalls, applyState_referenceCalls, referencesHeld_append,
    referencesHeld_referenceCalls, referencesHeld_referenceChange]

theorem applyState_referencesBalanced (d : SurfaceInterfacePrivate) (next : StateRef)
    (h : referencesBalanced d) : referencesBalanced (d.applyState next) := by
  refine ⟨applyState_bufferRef d next, ?_⟩
  intro buffer
  rw [applyState_referencesHeld, h.2 buffer, h.1]
  ring

theorem handle_referencesBalanced (d : SurfaceInterfacePrivate) (r : Request)
    (h : referencesBalanced d) : referencesBalanced (handle d r) := by
  by_cases hs : r.isStaging = true
  · have hv := (handle_staging d r hs).1
    unfold referencesBalanced at h ⊢
    rw [hv.1, hv.2.2.2.2.2.2.1, hv.2.2.2.2.2.2.2]
    exact h
  · cases r <;> simp [Request.isStaging] at hs
    simp only [handle, surface_commit]
    cases d.subSurface with
    | none => exact applyState_referencesBalanced d _ h
    | some sub =>
      simp only [commitSubSurface]
      have hc : referencesBalanced d.commitToCache := h
      split_ifs
      · exact hc
      · exact applyState_referencesBalanced d.commitToCache StateRef.cached hc
      · exact applyState_referencesBalanced d _ h

theorem run_referencesBalanced (requests : List Request) :
    ∀ d : SurfaceInterfacePrivate, referencesBalanced d →
      referencesBalanced (run d requests) := by
  induction requests with
  | nil => intro d h; exact h
  | cons r rs ih =>
    intro d h
    exact ih (handle d r) (handle_referencesBalanced d r h)

theorem freshSurface_referencesBalanced : referencesBalanced freshSurface :=
  ⟨rfl, fun buffer => by simp [referencesHeld, freshSurface]⟩

theorem destroyFrameCallbacks_frame (callbacks : List KWaylandFrameCallback) :
    ∀ d : SurfaceInterfacePrivate,
      (callbacks.foldl destroyFrameCallback d).current.buffer = d.current.buffer ∧
      (callbacks.foldl destroyFrameCallback d).bufferRef = d.bufferRef ∧
      referenceCalls (callbacks.foldl destroyFrameCallback d).log = referenceCalls d.log := by
  induction callbacks with
  | nil => intro d; exact ⟨rfl, rfl, rfl⟩
  | cons c cs ih =>
    intro d
    obtain ⟨h1, h2, h3⟩ := ih (d.destroyFrameCallback c)
    refine ⟨h1, h2, ?_⟩
    rw [List.foldl_cons, h3]
    simp [destroyFrameCallback, callback_destroy_resource, referenceCalls,
      Event.isReferenceCount]

theorem destructor_referenceCalls (d : SurfaceInterfacePrivate) :
    referenceCalls d.destructor.log =
      referenceCalls d.log ++
        (match d.current.buffer with
          | some buffer => [Event.bufferUnref buffer]
          | none => []) := by
  have h1 := destroyFrameCallbacks_frame d.current.frameCallbacks d
  have h2 := destroyFrameCallbacks_frame
    (d.current.frameCallbacks.foldl destroyFrameCallback d).pending.frameCallbacks
    (d.current.frameCallbacks.foldl destroyFrameCallback d)
  have h3 := destroyFrameCallbacks_frame
    ((d.current.frameCallbacks.foldl destroyFrameCallback d).pending.frameCallbacks.foldl
      destroyFrameCallback (d.current.frameCallbacks.foldl destroyFrameCallback d)).cached.frameCallbacks
    ((d.current.frameCallbacks.foldl destroyFrameCallback d).pending.frameCallbacks.foldl
      destroyFrameCallback (d.current.frameCallbacks.foldl destroyFrameCallback d))
  simp only [destructor]
  rw [h3.1, h2.1, h1.1]
  cases d.current.buffer with
  | none => simp only [List.append_nil]; rw [h3.2.2, h2.2.2, h1.2.2]
  | some buffer =>
    simp only [referenceCalls_append]
    rw [h3.2.2, h2.2.2, h1.2.2]
    rfl

/-- C22, the claim as stated fails: after an attach on a new surface the
pending state refers to the buffer and the surface has made no `ref()` call on
it; after the commit of a synchronized sub-surface the cached state refers to
the buffer, and the surface still holds no reference on it. -/
theorem staged_buffer_without_reference :
    (run freshSurface [.attach (some ⟨some buffer64⟩) 0 0]).pending.buffer = some buffer64 ∧
    referencesHeld (run freshSurface [.attach (some ⟨some buffer64⟩) 0 0]).log buffer64 = 0 ∧
    (run { freshSurface with subSurface := some ⟨1, true⟩ }
      [.attach (some ⟨some buffer64⟩) 0 0, .commit]).cached.buffer = some buffer64 ∧
    referencesHeld (run { freshSurface with subSurface := some ⟨1, true⟩ }
      [.attach (some ⟨some buffer64⟩) 0 0, .commit]).log buffer64 = 0 := by
  decide!

/-- C22, amended: in every state reached by requests from a state in which
the surface holds one reference on its current buffer and none on any other
buffer (as a new surface does), `bufferRef` is the current buffer, the surface
holds exactly one reference on the buffer of the current state, and it holds
none on any other buffer, in particular none on a buffer only the pending or
the cached state refers to. -/
theorem current_buffer_is_referenced (d0 : SurfaceInterfacePrivate) (requests : List Request)
    (h0 : referencesBalanced d0) :
    (run d0 requests).bufferRef = (run d0 requests).current.buffer ∧
    (∀ buffer : ClientBuffer, (run d0 requests).current.buffer = some buffer →
      referencesHeld (run d0 requests).log buffer = 1) ∧
    (∀ buffer : ClientBuffer, (run d0 requests).current.buffer ≠ some buffer →
      referencesHeld (run d0 requests).log buffer = 0) := by
  have h := run_referencesBalanced requests d0 h0
  refine ⟨h.1, ?_, ?_⟩
  · intro buffer hb
    rw [h.2 buffer, if_pos hb]
  · intro buffer hb
    rw [h.2 buffer, if_neg hb]

/-- C22 on a new surface: after the first and the second commit of the
scenario, `bufferRef` is the current buffer. -/
theorem current_buffer_is_referenced_witness :
    referencesBalanced freshSurface ∧
    (run freshSurface [.attach (some ⟨some buffer64⟩) 0 0, .commit,
      .attach (some ⟨some buffer128⟩) 0 0, .setBufferScale 2, .commit]).bufferRef =
    (run freshSurface [.attach (some ⟨some buffer64⟩) 0 0, .commit,
      .attach (some ⟨some buffer128⟩) 0 0, .setBufferScale 2, .commit]).current.buffer :=
  ⟨freshSurface_referencesBalanced,
    (current_buffer_is_referenced freshSurface
      [.attach (some ⟨some buffer64⟩) 0 0, .commit,
        .attach (some ⟨some buffer128⟩) 0 0, .setBufferScale 2, .commit]
      freshSurface_referencesBalanced).1⟩

/-- C23: when the surface holds one reference on its current buffer and none
on any other buffer (as a new surface does, and as it does after every
request), then after `applyState` `bufferRef` is the current buffer and the
surface again holds one reference on it and none on any other buffer; a commit
that keeps the current buffer makes no reference counting call, a commit that
changes it makes one `unref()` call on the previous buffer, if there was one,
followed by one `ref()` call on the new buffer, if there is one; the
destructor makes one `unref()` call on the current buffer, if there is one,
after which the surface holds no reference on any buffer. -/
theorem buffer_references_balanced (d : SurfaceInterfacePrivate) (next : StateRef)
    (h : referencesBalanced d) :
    (d.applyState next).bufferRef = (d.applyState next).current.buffer ∧
    (∀ buffer : ClientBuffer,
      referencesHeld (d.applyState next).log buffer =
        if (d.applyState next).current.buffer = some buffer then 1 else 0) ∧
    ((d.applyState next).current.buffer = d.current.buffer →
      referenceCalls (d.applyState next).log = referenceCalls d.log) ∧
    ((d.applyState next).current.buffer ≠ d.current.buffer →
      referenceCalls (d.applyState next).log =
        referenceCalls d.log ++
          ((match d.current.buffer with
            | some old => [Event.bufferUnref old]
            | none => []) ++
          (match (d.applyState next).current.buffer with
            | some new => [Event.bufferRef new]
            | none => []))) ∧
    referenceCalls (d.applyState next).destructor.log =
      referenceCalls (d.applyState next).log ++
        (match (d.applyState next).current.buffer with
          | some buffer => [Event.bufferUnref buffer]
          | none => []) ∧
    (∀ buffer : ClientBuffer, referencesHeld (d.applyState next).destructor.log buffer = 0) := by
  have hb := applyState_referencesBalanced d next h
  have hcalls := applyState_referenceCalls d next
  rw [h.1] at hcalls
  refine ⟨hb.1, hb.2, ?_, ?_, destructor_referenceCalls _, ?_⟩
  · intro he
    rw [hcalls, he]
    simp [referenceChange]
  · intro hne
    rw [hcalls]
    simp only [referenceChange, if_neg (Ne.symm hne)]
  · intro buffer
    rw [← referencesHeld_referenceCalls, destructor_referenceCalls, referencesHeld_append,
      referencesHeld_referenceCalls, hb.2 buffer]
    cases hc : (d.applyState next).current.buffer with
    | none => simp [referencesHeld]
    | some b =>
      by_cases hbb : b = buffer <;> simp [referencesHeld, hbb, List.count_singleton]

/-- C23 at the second commit of the scenario: the commit that replaces the
64x64 buffer by the 128x128 buffer leaves `bufferRef` at the current buffer,
and after the destruction of the surface no reference is held on either
buffer. -/
theorem buffer_references_balanced_witness :
    referencesBalanced (run firstCommit [.attach (some ⟨some buffer128⟩) 0 0]) ∧
    ((run firstCommit [.attach (some ⟨some buffer128⟩) 0 0]).applyState
      StateRef.pending).bufferRef = some buffer128 ∧
    referencesHeld ((run firstCommit [.attach (some ⟨some buffer128⟩) 0 0]).applyState
      StateRef.pending).destructor.log buffer64 = 0 ∧
    referencesHeld ((run firstCommit [.attach (some ⟨some buffer128⟩) 0 0]).applyState
      StateRef.pending).destructor.log buffer128 = 0 :=
  ⟨run_referencesBalanced _ firstCommit
      (run_referencesBalanced _ freshSurface freshSurface_referencesBalanced),
    by decide!,
    (buffer_references_balanced (run firstCommit [.attach (some ⟨some buffer128⟩) 0 0])
      StateRef.pending (run_referencesBalanced _ firstCommit
        (run_referencesBalanced _ freshSurface freshSurface_referencesBalanced))).2.2.2.2.2
      buffer64,
    (buffer_references_balanced (run firstCommit [.attach (some ⟨some buffer128⟩) 0 0])
      StateRef.pending (run_referencesBalanced _ firstCommit
        (run_referencesBalanced _ freshSurface freshSurface_referencesBalanced))).2.2.2.2.2
      buffer128⟩

/-! ## The surface-to-buffer matrix -/

theorem QMatrix4x4.det_scale (m : QMatrix4x4) (sx sy : ℚ) :
    (m.scale sx sy).det = m.det * (sx * sy) := by
  simp only [QMatrix4x4.det, QMatrix4x4.scale]
  ring

theorem QMatrix4x4.det_translate (m : QMatrix4x4) (tx ty : ℚ) :
    (m.translate tx ty).det = m.det := rfl

theorem QMatrix4x4.det_rotate (m : QMatrix4x4) (angle : Int) : (m.rotate angle).det = m.det := by
  simp only [QMatrix4x4.rotate]
  split_ifs <;> simp only [QMatrix4x4.det, QMatrix4x4.rotateCS] <;> ring

theorem QMatrix4x4.inverted_map (m : QMatrix4x4) (h : m.det ≠ 0) (p : QPointF) :
    m.inverted.map (m.map p) = p ∧ m.map (m.inverted.map p) = p := by
  have h1 : m.m11 * m.m22 - m.m12 * m.m21 ≠ 0 := h
  obtain ⟨x, y⟩ := p
  unfold QMatrix4x4.inverted
  rw [if_neg h]
  simp only [QMatrix4x4.map, QMatrix4x4.det, QPointF.mk.injEq]
  refine ⟨⟨?_, ?_⟩, ?_, ?_⟩ <;> field_simp <;> ring

/-- The matrices `applyState` stores are the one `buildSurfaceToBufferMatrix`
builds from the state after the commit and its inverse. -/
theorem applyState_matrices (d : SurfaceInterfacePrivate) (next : StateRef) :
    (d.applyState next).surfaceToBufferMatrix = (d.applyState next).buildSurfaceToBufferMatrix ∧
    (d.applyState next).bufferToSurfaceMatrix =
      (d.applyState next).surfaceToBufferMatrix.inverted := by
  constructor
  · simp only [applyState, buildSurfaceToBufferMatrix]
  · rfl

theorem buildSurfaceToBufferMatrix_det (d : SurfaceInterfacePrivate)
    (hb : d.current.buffer.isSome = true) (hs : 1 ≤ d.current.bufferScale)
    (hsize : d.size.isEmpty = false) : d.buildSurfaceToBufferMatrix.det ≠ 0 := by
  obtain ⟨buffer, hbuf⟩ := Option.isSome_iff_exists.1 hb
  have hscale : (d.current.bufferScale : ℚ) ≠ 0 := by
    have : (0 : ℚ) < (d.current.bufferScale : ℚ) := by exact_mod_cast (by omega : 0 < d.current.bufferScale)
    exact ne_of_gt this
  have hid : QMatrix4x4.identity.det = 1 := by simp [QMatrix4x4.identity, QMatrix4x4.det]
  simp only [size, QSize.isEmpty, Bool.or_eq_false_iff, decide_eq_false_iff_not, not_lt] at hsize
  have hw : (d.surfaceSize.width : ℚ) ≠ 0 := by
    have : (0 : ℚ) < (d.surfaceSize.width : ℚ) := by exact_mod_cast (by omega : 0 < d.surfaceSize.width)
    exact ne_of_gt this
  have hh : (d.surfaceSize.height : ℚ) ≠ 0 := by
    have : (0 : ℚ) < (d.surfaceSize.height : ℚ) := by exact_mod_cast (by omega : 0 < d.surfaceSize.height)
    exact ne_of_gt this
  simp only [buildSurfaceToBufferMatrix, hbuf]
  by_cases hv : d.current.viewport.sourceGeometry.isValid = true
  · have hv2 := hv
    simp only [QRectF.isValid, Bool.and_eq_true, decide_eq_true_eq] at hv2
    have h1 : d.current.viewport.sourceGeometry.width ≠ 0 := ne_of_gt hv2.1
    have h2 : d.current.viewport.sourceGeometry.height ≠ 0 := ne_of_gt hv2.2
    simp only [hv, if_true]
    cases d.current.bufferTransform <;>
      simp [QMatrix4x4.det_scale, QMatrix4x4.det_translate, QMatrix4x4.det_rotate, hid, hscale,
        h1, h2, hw, hh]
  · simp only [hv, Bool.false_eq_true, if_false]
    cases d.current.bufferTransform <;>
      simp [QMatrix4x4.det_scale, QMatrix4x4.det_translate, QMatrix4x4.det_rotate, hid, hscale]

/-- C24: after every `applyState` that leaves a current buffer, a buffer
scale of at least 1 and a surface size that is not empty, whatever the buffer
transform and whether or not the viewport source rectangle is valid, the
buffer-to-surface matrix is the inverse of the surface-to-buffer matrix:
`mapFromBuffer(mapToBuffer(p))` is `p` and `mapToBuffer(mapFromBuffer(p))` is
`p` for every point `p`.  The `float` entries of the matrices are exact
rationals here, so the equalities are those of exact arithmetic. -/
theorem buffer_matrix_round_trip (d : SurfaceInterfacePrivate) (next : StateRef)
    (hb : (d.applyState next).current.buffer.isSome = true)
    (hs : 1 ≤ (d.applyState next).current.bufferScale)
    (hsize : (d.applyState next).size.isEmpty = false) (p : QPointF) :
    (d.applyState next).mapFromBufferPoint ((d.applyState next).mapToBufferPoint p) = p ∧
    (d.applyState next).mapToBufferPoint ((d.applyState next).mapFromBufferPoint p) = p := by
  have hm := applyState_matrices d next
  have hdet := buildSurfaceToBufferMatrix_det (d.applyState next) hb hs hsize
  rw [← hm.1] at hdet
  simp only [mapFromBufferPoint, mapToBufferPoint, hm.2]
  exact QMatrix4x4.inverted_map _ hdet p

/-- C24 at the surface `viewportStaged`: after the commit of a 128x128 buffer
with scale 2, transform `Flipped90` and the viewport source rectangle
`(16, 8, 32, 24)`, the point `(3, 5)` maps to the buffer and back to itself. -/
theorem buffer_matrix_round_trip_witness :
    (viewportStaged.applyState StateRef.pending).current.viewport.sourceGeometry.isValid = true ∧
    (viewportStaged.applyState StateRef.pending).mapToBufferPoint ⟨3, 5⟩ = ⟨26, 38⟩ ∧
    (viewportStaged.applyState StateRef.pending).mapFromBufferPoint
      ((viewportStaged.applyState StateRef.pending).mapToBufferPoint ⟨3, 5⟩) = ⟨3, 5⟩ :=
  ⟨by decide!, by decide!,
    (buffer_matrix_round_trip viewportStaged StateRef.pending (by decide!) (by decide!)
      (by decide!) ⟨3, 5⟩).1⟩

/-- Without a valid viewport source rectangle, the surface-to-buffer matrix
of a surface with a buffer maps a point as `transformedPoint` says. -/
theorem buildSurfaceToBufferMatrix_map (d : SurfaceInterfacePrivate) (buffer : ClientBuffer)
    (hb : d.current.buffer = some buffer)
    (hv : d.current.viewport.sourceGeometry.isValid = false) (x y : ℚ) :
    d.buildSurfaceToBufferMatrix.map ⟨x, y⟩ =
      transformedPoint d.current.bufferTransform d.current.bufferScale
        (Int.tdiv d.bufferSize.width d.current.bufferScale : Int)
        (Int.tdiv d.bufferSize.height d.current.bufferScale : Int) x y := by
  simp only [buildSurfaceToBufferMatrix, hb, hv, Bool.false_eq_true, if_false]
  cases d.current.bufferTransform <;>
    simp [transformedPoint, QMatrix4x4.map, QMatrix4x4.scale, QMatrix4x4.translate,
      QMatrix4x4.rotate, QMatrix4x4.rotateCS, QMatrix4x4.identity] <;>
    (try constructor) <;> ring

theorem qRound_intCast (n : Int) : qRound (n : ℚ) = n := by
  unfold qRound
  rw [Int.floor_eq_iff]
  constructor <;> linarith

theorem QSize.divScale_mul (s w h : Int) (hs : 1 ≤ s) :
    QSize.divScale ⟨s * w, s * h⟩ s = ⟨w, h⟩ := by
  have hq : (s : ℚ) ≠ 0 := by
    have : (0 : ℚ) < (s : ℚ) := by exact_mod_cast (by omega : 0 < s)
    exact ne_of_gt this
  simp only [QSize.divScale, Int.cast_mul, mul_div_cancel_left₀ _ hq, qRound_intCast]

theorem perm_of_count {α : Type} [DecidableEq α] (xs ys : List α)
    (h : ∀ a, xs.count a = ys.count a) : xs.Perm ys :=
  List.perm_iff_count.2 h

theorem perm4_2031 {α : Type} [DecidableEq α] (a b c d : α) : [c, a, d, b].Perm [a, b, c, d] := by
  apply perm_of_count
  intro x
  simp only [List.count_cons, List.count_nil]
  ring

theorem perm4_3210 {α : Type} [DecidableEq α] (a b c d : α) : [d, c, b, a].Perm [a, b, c, d] := by
  apply perm_of_count
  intro x
  simp only [List.count_cons, List.count_nil]
  ring

theorem perm4_1302 {α : Type} [DecidableEq α] (a b c d : α) : [b, d, a, c].Perm [a, b, c, d] := by
  apply perm_of_count
  intro x
  simp only [List.count_cons, List.count_nil]
  ring

theorem perm4_1032 {α : Type} [DecidableEq α] (a b c d : α) : [b, a, d, c].Perm [a, b, c, d] := by
  apply perm_of_count
  intro x
  simp only [List.count_cons, List.count_nil]
  ring

theorem perm4_0213 {α : Type} [DecidableEq α] (a b c d : α) : [a, c, b, d].Perm [a, b, c, d] := by
  apply perm_of_count
  intro x
  simp only [List.count_cons, List.count_nil]
  ring

theorem perm4_2301 {α : Type} [DecidableEq α] (a b c d : α) : [c, d, a, b].Perm [a, b, c, d] := by
  apply perm_of_count
  intro x
  simp only [List.count_cons, List.count_nil]
  ring

theorem perm4_3120 {α : Type} [DecidableEq α] (a b c d : α) : [d, b, c, a].Perm [a, b, c, d] := by
  apply perm_of_count
  intro x
  simp only [List.count_cons, List.count_nil]
  ring

/-- The corners of the surface rectangle go to the corners of the buffer
rectangle under `transformedPoint`, and a point lies in the surface rectangle
exactly when its image lies in the buffer rectangle. -/
theorem transformedPoint_corners (transform : Transform) (s w h : Int) (hs : 1 ≤ s) :
    ((corners (if transform.swapsAxes then h else w) (if transform.swapsAxes then w else h)).map
      fun p => transformedPoint transform s w h p.x p.y).Perm (corners (s * w) (s * h)) ∧
    ∀ x y : ℚ,
      (0 ≤ x ∧ x ≤ ((if transform.swapsAxes then h else w : Int) : ℚ) ∧
        0 ≤ y ∧ y ≤ ((if transform.swapsAxes then w else h : Int) : ℚ)) ↔
      (0 ≤ (transformedPoint transform s w h x y).x ∧
        (transformedPoint transform s w h x y).x ≤ ((s * w : Int) : ℚ) ∧
        0 ≤ (transformedPoint transform s w h x y).y ∧
        (transformedPoint transform s w h x y).y ≤ ((s * h : Int) : ℚ)) := by
  have hq : (0 : ℚ) < (s : ℚ) := by exact_mod_cast (by omega : 0 < s)
  constructor
  · cases transform <;>
      simp only [Transform.swapsAxes, if_true, Bool.false_eq_true, if_false, corners,
        transformedPoint, List.map_cons, List.map_nil, Int.cast_mul, sub_zero, sub_self,
        mul_zero]
    · exact List.Perm.refl _
    · exact perm4_2031 _ _ _ _
    · exact perm4_3210 _ _ _ _
    · exact perm4_1302 _ _ _ _
    · exact perm4_1032 _ _ _ _
    · exact perm4_0213 _ _ _ _
    · exact perm4_2301 _ _ _ _
    · exact perm4_3120 _ _ _ _
  · intro x y
    cases transform <;>
      simp only [Transform.swapsAxes, if_true, Bool.false_eq_true, if_false, transformedPoint,
        Int.cast_mul, mul_nonneg_iff_of_pos_left hq, mul_le_mul_left hq] <;>
      constructor <;> rintro ⟨h1, h2, h3, h4⟩ <;> refine ⟨?_, ?_, ?_, ?_⟩ <;> linarith

/-- C25: after every `applyState` that leaves a current buffer of size
`W x H` with a buffer scale `s` of at least 1 that divides `W` and `H`, and no
valid viewport source rectangle or destination size, whatever the buffer
transform, the surface-to-buffer matrix sends the four corners of the surface
rectangle `(0, 0, size)` to the four corners of the buffer rectangle
`(0, 0, W, H)`, and a point lies in the surface rectangle if and only if its
image lies in the buffer rectangle.  After an `applyState` that leaves no
current buffer the matrix is the identity. -/
theorem matrix_maps_surface_onto_buffer (d : SurfaceInterfacePrivate) (next : StateRef) :
    (∀ buffer : ClientBuffer, (d.applyState next).current.buffer = some buffer →
      1 ≤ (d.applyState next).current.bufferScale →
      (d.applyState next).current.bufferScale ∣ buffer.size.width →
      (d.applyState next).current.bufferScale ∣ buffer.size.height →
      (d.applyState next).current.viewport.sourceGeometry.isValid = false →
      (d.applyState next).current.viewport.destinationSize.isValid = false →
      ((corners (d.applyState next).size.width (d.applyState next).size.height).map
        (d.applyState next).mapToBufferPoint).Perm
        (corners buffer.size.width buffer.size.height) ∧
      ∀ p : QPointF,
        (0 ≤ p.x ∧ p.x ≤ ((d.applyState next).size.width : ℚ) ∧
          0 ≤ p.y ∧ p.y ≤ ((d.applyState next).size.height : ℚ)) ↔
        (0 ≤ ((d.applyState next).mapToBufferPoint p).x ∧
          ((d.applyState next).mapToBufferPoint p).x ≤ (buffer.size.width : ℚ) ∧
          0 ≤ ((d.applyState next).mapToBufferPoint p).y ∧
          ((d.applyState next).mapToBufferPoint p).y ≤ (buffer.size.height : ℚ))) ∧
    ((d.applyState next).current.buffer = none →
      (d.applyState next).surfaceToBufferMatrix = QMatrix4x4.identity) := by
  have hm := (applyState_matrices d next).1
  constructor
  · intro buffer hb hs hw hh hv hdest
    obtain ⟨w, hw⟩ := hw
    obtain ⟨h, hh⟩ := hh
    have hsizes := applyState_size_cases d next
    rw [hb] at hsizes
    simp only [hv, hdest, Bool.false_eq_true, if_false] at hsizes
    obtain ⟨hbs, hsize⟩ := hsizes
    have hbuf : buffer.size = ⟨(d.applyState next).current.bufferScale * w,
        (d.applyState next).current.bufferScale * h⟩ := by
      rw [← hw, ← hh]
    have hs0 : (d.applyState next).current.bufferScale ≠ 0 := by omega
    have hmap : ∀ x y : ℚ, (d.applyState next).mapToBufferPoint ⟨x, y⟩ =
        transformedPoint (d.applyState next).current.bufferTransform
          (d.applyState next).current.bufferScale w h x y := by
      intro x y
      have := buildSurfaceToBufferMatrix_map (d.applyState next) buffer hb hv x y
      rw [hbs, hbuf] at this
      simp only [Int.mul_tdiv_cancel_left _ hs0] at this
      simp only [mapToBufferPoint, hm]
      exact this
    have hsz : (d.applyState next).size =
        ⟨if (d.applyState next).current.bufferTransform.swapsAxes then h else w,
          if (d.applyState next).current.bufferTransform.swapsAxes then w else h⟩ := by
      rw [hsize, hbuf, QSize.divScale_mul _ _ _ hs]
      cases (d.applyState next).current.bufferTransform.swapsAxes <;> rfl
    have hc := transformedPoint_corners (d.applyState next).current.bufferTransform
      (d.applyState next).current.bufferScale w h hs
    rw [hsz, hw, hh]
    constructor
    · have hfun : (d.applyState next).mapToBufferPoint =
          fun p => transformedPoint (d.applyState next).current.bufferTransform
            (d.applyState next).current.bufferScale w h p.x p.y := by
        funext p
        exact hmap p.x p.y
      rw [hfun]
      exact hc.1
    · intro p
      rw [hmap p.x p.y]
      exact hc.2 p.x p.y
  · intro hb
    rw [hm]
    simp only [buildSurfaceToBufferMatrix, hb]

/-- C25 at the surface `rotatedStaged`: after the commit of a 128x64 buffer
with scale 2 and transform `Rotated90` the surface is 32x64, and its corner
`(32, 64)` goes to the corner `(128, 0)` of the buffer. -/
theorem matrix_maps_surface_onto_buffer_witness :
    (rotatedStaged.applyState StateRef.pending).size = ⟨32, 64⟩ ∧
    (rotatedStaged.applyState StateRef.pending).mapToBufferPoint ⟨32, 64⟩ = ⟨128, 0⟩ ∧
    ((corners (rotatedStaged.applyState StateRef.pending).size.width
        (rotatedStaged.applyState StateRef.pending).size.height).map
      (rotatedStaged.applyState StateRef.pending).mapToBufferPoint).Perm (corners 128 64) :=
  ⟨by decide!, by decide!,
    ((matrix_maps_surface_onto_buffer rotatedStaged StateRef.pending).1 ⟨3, ⟨128, 64⟩⟩
      (by decide!) (by decide!) (by decide!) (by decide!) (by decide!) (by decide!)).1⟩

/-! ## Mapping state of sub-surfaces -/

theorem isMapped_sub_surface (d : SurfaceInterfacePrivate)
    (ancestors : List SurfaceInterfacePrivate) (h : d.subSurface.isSome = true) :
    d.isMapped ancestors = true ↔
      d.subSurfaceIsMapped = true ∧
        ∃ parent rest, ancestors = parent :: rest ∧ parent.isMapped rest = true := by
  obtain ⟨sub, hsub⟩ := Option.isSome_iff_exists.1 h
  cases ancestors with
  | nil => simp [isMapped, hsub]
  | cons parent rest =>
    rw [isMapped]
    simp only [hsub, Bool.and_eq_true, List.cons.injEq]
    constructor
    · rintro ⟨h1, h2⟩
      exact ⟨h1, parent, rest, ⟨rfl, rfl⟩, h2⟩
    · rintro ⟨h1, p, r, ⟨rfl, rfl⟩, h2⟩
      exact ⟨h1, h2⟩

theorem isMapped_chain (before : List SurfaceInterfacePrivate) :
    ∀ (d ancestor : SurfaceInterfacePrivate) (after : List SurfaceInterfacePrivate),
      d.subSurface.isSome = true → (∀ s ∈ before, s.subSurface.isSome = true) →
      ancestor.isMapped after = false → d.isMapped (before ++ ancestor :: after) = false := by
  induction before with
  | nil =>
    intro d ancestor after hd _ hm
    rw [← Bool.not_eq_true, isMapped_sub_surface d _ hd]
    rintro ⟨_, parent, rest, he, hp⟩
    simp only [List.nil_append, List.cons.injEq] at he
    rw [← he.1, ← he.2, hm] at hp
    exact Bool.noConfusion hp
  | cons b bs ih =>
    intro d ancestor after hd hb hm
    rw [← Bool.not_eq_true, isMapped_sub_surface d _ hd]
    rintro ⟨_, parent, rest, he, hp⟩
    simp only [List.cons_append, List.cons.injEq] at he
    rw [← he.1, ← he.2, ih b ancestor after (hb b (List.mem_cons_self b bs))
      (fun s hs => hb s (List.mem_cons_of_mem b hs)) hm] at hp
    exact Bool.noConfusion hp

/-- C29: a surface that is a sub-surface is mapped if and only if its flag
`subSurfaceIsMapped` is set, it has a parent surface, and that parent surface
is mapped; hence it is not mapped when any surface of its chain of parents is
not mapped.  A surface that is not a sub-surface is mapped if and only if its
current buffer is not null.  The flag `subSurfaceIsMapped` records the applied
buffer: an `applyState` after which the presence of a current buffer differs
from before sets it to whether a current buffer is present, and every other
`applyState` leaves it as it is. -/
theorem sub_surface_mapped_with_parent (d : SurfaceInterfacePrivate)
    (ancestors : List SurfaceInterfacePrivate) :
    (d.subSurface.isSome = true →
      (d.isMapped ancestors = true ↔
        d.subSurfaceIsMapped = true ∧
          ∃ parent rest, ancestors = parent :: rest ∧ parent.isMapped rest = true)) ∧
    (d.subSurface.isSome = true →
      ∀ (before : List SurfaceInterfacePrivate) (ancestor : SurfaceInterfacePrivate)
        (after : List SurfaceInterfacePrivate),
        ancestors = before ++ ancestor :: after →
        (∀ s ∈ before, s.subSurface.isSome = true) →
        ancestor.isMapped after = false → d.isMapped ancestors = false) ∧
    (d.subSurface = none → (d.isMapped ancestors = true ↔ d.current.buffer ≠ none)) ∧
    (∀ next : StateRef,
      (d.current.buffer.isSome ≠ (d.applyState next).current.buffer.isSome →
        (d.applyState next).subSurfaceIsMapped = (d.applyState next).current.buffer.isSome) ∧
      (d.current.buffer.isSome = (d.applyState next).current.buffer.isSome →
        (d.applyState next).subSurfaceIsMapped = d.subSurfaceIsMapped)) := by
  refine ⟨isMapped_sub_surface d ancestors, ?_, ?_, ?_⟩
  · intro hd before ancestor after he hb hm
    rw [he]
    exact isMapped_chain before d ancestor after hd hb hm
  · intro hd
    cases ancestors <;> simp [isMapped, hd, Option.isSome_iff_ne_none]
  · intro next
    have hbuf := applyState_current_buffer d next
    have href := applyState_bufferRef d next
    have hflag : (d.applyState next).subSurfaceIsMapped =
        if ((d.state next).bufferIsSet &&
            (d.current.buffer.isSome != (d.state next).buffer.isSome)) = true then
          (d.applyState next).bufferRef.isSome
        else d.subSurfaceIsMapped := by
      simp only [applyState]
    rw [hflag, href, hbuf]
    cases hset : (d.state next).bufferIsSet <;> simp
    by_cases hp : d.current.buffer.isSome = (d.state next).buffer.isSome
    · simp [hp]
    · simp [hp]

/-- C29 at the surface of the first commit: as a sub-surface it is mapped
under a mapped parent, and it is not mapped under a new surface, which has no
buffer. -/
theorem sub_surface_mapped_with_parent_witness :
    (SurfaceInterfacePrivate.isMapped { firstCommit with subSurface := some ⟨1, false⟩ }
      [firstCommit] = true ↔
      ({ firstCommit with subSurface := some ⟨1, false⟩ } :
        SurfaceInterfacePrivate).subSurfaceIsMapped = true ∧
      ∃ parent rest, [firstCommit] = parent :: rest ∧ parent.isMapped rest = true) ∧
    SurfaceInterfacePrivate.isMapped { firstCommit with subSurface := some ⟨1, false⟩ }
      [firstCommit] = true ∧
    SurfaceInterfacePrivate.isMapped { firstCommit with subSurface := some ⟨1, false⟩ }
      [freshSurface] = false :=
  ⟨(sub_surface_mapped_with_parent { firstCommit with subSurface := some ⟨1, false⟩ }
      [firstCommit]).1 (by decide!), by decide!, by decide!⟩

/-! ## Frame callbacks -/

theorem SurfaceState.eta_frameCallbacks (s : SurfaceState) (l : List KWaylandFrameCallback)
    (h : s.frameCallbacks = l) : { s with frameCallbacks := l } = s := by
  subst h
  rfl

theorem withFrameCallbacksDone_of_empty (msec : Nat) (d : SurfaceInterfacePrivate)
    (h : d.current.frameCallbacks = []) : withFrameCallbacksDone msec d = d := by
  unfold withFrameCallbacksDone
  rw [SurfaceState.eta_frameCallbacks _ _ h, h]
  simp [frameCallbackCalls]

/-- The loop of `frameRendered` ends with an empty current queue within as
many rounds as the queue is long, whatever the queues hold. -/
theorem notifyFrameCallbacks_empties (msec : Nat) (rounds : Nat) :
    ∀ d : SurfaceInterfacePrivate, d.current.frameCallbacks.length ≤ rounds →
      (notifyFrameCallbacks msec rounds d).current.frameCallbacks = [] := by
  induction rounds with
  | zero =>
    intro d hlen
    exact List.length_eq_zero.1 (Nat.le_zero.1 hlen)
  | succ n ih =>
    intro d hlen
    rw [notifyFrameCallbacks]
    cases hq : d.current.frameCallbacks with
    | nil => simpa using hq
    | cons cb rest =>
      simp only
      apply ih
      rw [hq] at hlen
      have := List.length_erase_le cb rest
      simp only [destroyFrameCallback, callback_destroy_resource]
      simp only [List.length_cons] at hlen
      omega

theorem notifyFrameCallbacks_eq (msec : Nat) (rounds : Nat) :
    ∀ d : SurfaceInterfacePrivate, d.current.frameCallbacks.length ≤ rounds →
      distinctFrameCallbacks d →
      notifyFrameCallbacks msec rounds d = withFrameCallbacksDone msec d := by
  induction rounds with
  | zero =>
    intro d hlen _
    have : d.current.frameCallbacks = [] := List.length_eq_zero.1 (Nat.le_zero.1 hlen)
    rw [withFrameCallbacksDone_of_empty msec d this]
    rfl
  | succ n ih =>
    intro d hlen hd
    cases hq : d.current.frameCallbacks with
    | nil =>
      rw [withFrameCallbacksDone_of_empty msec d hq, notifyFrameCallbacks]
      simp only [hq]
    | cons cb rest =>
      unfold distinctFrameCallbacks at hd
      rw [hq] at hd hlen
      simp only [List.cons_append, List.nodup_cons, List.mem_append, not_or] at hd
      obtain ⟨⟨⟨h1, h2⟩, h3⟩, hnodup⟩ := hd
      have hstep : destroyFrameCallback
          { d with
            current := { d.current with frameCallbacks := rest }
            log := d.log ++ [Event.send_done cb msec] } cb =
          { d with
            current := { d.current with frameCallbacks := rest }
            log := d.log ++ [Event.send_done cb msec, Event.frameCallbackDestroy cb] } := by
        simp [destroyFrameCallback, callback_destroy_resource, List.erase_of_not_mem, h1, h2, h3]
      rw [notifyFrameCallbacks]
      simp only [hq]
      rw [hstep, ih _ (by simpa using hlen) (by simpa [distinctFrameCallbacks] using hnodup)]
      simp [withFrameCallbacksDone, frameCallbackCalls, hq]

theorem frameRenderedCallbacks_eq (msec : Nat) (d : SurfaceInterfacePrivate)
    (h : distinctFrameCallbacks d) :
    d.frameRenderedCallbacks msec = withFrameCallbacksDone msec d :=
  notifyFrameCallbacks_eq msec _ d (Nat.le_refl _) h

theorem frameCallbackCalls_append (msec : Nat) (xs ys : List KWaylandFrameCallback) :
    frameCallbackCalls msec (xs ++ ys) = frameCallbackCalls msec xs ++ frameCallbackCalls msec ys := by
  simp [frameCallbackCalls]

mutual
theorem SurfaceTree.frameRendered_eq (msec : Nat) :
    ∀ t : SurfaceTree, (∀ d ∈ t.surfaces, distinctFrameCallbacks d) →
      (t.frameRendered msec).1.surfaces = t.surfaces.map (withFrameCallbacksDone msec) ∧
      (t.frameRendered msec).2 = frameCallbackCalls msec t.frameCallbacks ∧
      (t.frameRendered msec).1.wellFormed = t.wellFormed
  | .node d below above, h => by
    have hd : distinctFrameCallbacks d := h d (by simp [SurfaceTree.surfaces])
    have hb := SubSurfaceList.frameRendered_list_eq msec below
      (fun s hs => h s (by simp [SurfaceTree.surfaces, hs]))
    have ha := SubSurfaceList.frameRendered_list_eq msec above
      (fun s hs => h s (by simp [SurfaceTree.surfaces, hs]))
    have hself := frameRenderedCallbacks_eq msec d hd
    simp only [SurfaceTree.frameRendered, SurfaceTree.surfaces, SurfaceTree.frameCallbacks,
      SurfaceTree.wellFormed, hself, hb.1, ha.1, hb.2.1, ha.2.1, hb.2.2.1, ha.2.2.1, hb.2.2.2,
      ha.2.2.2, List.map_cons, List.map_append, frameCallbackCalls_append]
    refine ⟨trivial, ?_, ?_⟩
    · simp [withFrameCallbacksDone]
    · simp [withFrameCallbacksDone]
theorem SubSurfaceList.frameRendered_list_eq (msec : Nat) :
    ∀ l : SubSurfaceList, (∀ d ∈ l.surfaces, distinctFrameCallbacks d) →
      (l.frameRendered msec).1.surfaces = l.surfaces.map (withFrameCallbacksDone msec) ∧
      (l.frameRendered msec).2 = frameCallbackCalls msec l.frameCallbacks ∧
      (l.frameRendered msec).1.handles = l.handles ∧
      (l.frameRendered msec).1.wellFormed = l.wellFormed
  | .nil, _ => by
    simp [SubSurfaceList.frameRendered, SubSurfaceList.surfaces, SubSurfaceList.frameCallbacks,
      frameCallbackCalls]
  | .cons subsurface position surface rest, h => by
    have ht := SurfaceTree.frameRendered_eq msec surface
      (fun s hs => h s (by simp [SubSurfaceList.surfaces, hs]))
    have hr := SubSurfaceList.frameRendered_list_eq msec rest
      (fun s hs => h s (by simp [SubSurfaceList.surfaces, hs]))
    have hroot : (surface.frameRendered msec).1.d.subSurface = surface.d.subSurface := by
      have h1 := ht.1
      cases surface with
      | node d below above =>
        cases hres : (SurfaceTree.node d below above).frameRendered msec with
        | mk t1 calls =>
          cases t1 with
          | node d1 below1 above1 =>
            rw [hres] at h1
            simp only [SurfaceTree.surfaces, List.map_cons, List.cons.injEq] at h1
            simp only [SurfaceTree.d, h1.1, withFrameCallbacksDone]
    simp only [SubSurfaceList.frameRendered, SubSurfaceList.surfaces,
      SubSurfaceList.frameCallbacks, SubSurfaceList.handles, SubSurfaceList.wellFormed, ht.1,
      hr.1, ht.2.1, hr.2.1, hr.2.2.1, ht.2.2, hr.2.2.2, hroot, List.map_append,
      frameCallbackCalls_append]
    exact ⟨trivial, trivial, trivial, trivial⟩
end

mutual
theorem SurfaceTree.frameCallbacks_eq :
    ∀ t : SurfaceTree, t.frameCallbacks = t.surfaces.flatMap fun d => d.current.frameCallbacks
  | .node d below above => by
    simp [SurfaceTree.frameCallbacks, SurfaceTree.surfaces,
      SubSurfaceList.frameCallbacks_list_eq below, SubSurfaceList.frameCallbacks_list_eq above]
theorem SubSurfaceList.frameCallbacks_list_eq :
    ∀ l : SubSurfaceList, l.frameCallbacks = l.surfaces.flatMap fun d => d.current.frameCallbacks
  | .nil => rfl
  | .cons _ _ surface rest => by
    simp [SubSurfaceList.frameCallbacks, SubSurfaceList.surfaces,
      SurfaceTree.frameCallbacks_eq surface, SubSurfaceList.frameCallbacks_list_eq rest]
end

theorem count_flatMap_append {α β : Type} [DecidableEq β] (l : List α) (f g : α → List β)
    (b : β) :
    (l.flatMap fun a => f a ++ g a).count b = (l.flatMap f).count b + (l.flatMap g).count b := by
  induction l with
  | nil => rfl
  | cons a as ih =>
    simp only [List.flatMap_cons, List.count_append, ih]
    omega

/-- When no frame callback occurs twice among all queues of a tree, every
surface has distinct frame callbacks, and a callback of a pending or cached
queue is in no current queue. -/
theorem allFrameCallbacks_nodup (t : SurfaceTree) (h : t.allFrameCallbacks.Nodup) :
    (∀ d ∈ t.surfaces, distinctFrameCallbacks d) ∧
    ∀ d ∈ t.surfaces, ∀ cb ∈ d.pending.frameCallbacks ++ d.cached.frameCallbacks,
      cb ∉ t.frameCallbacks := by
  constructor
  · intro d hd
    unfold SurfaceTree.allFrameCallbacks at h
    rw [List.nodup_flatMap] at h
    exact h.1 d hd
  · intro d hd cb hcb hcur
    rw [SurfaceTree.frameCallbacks_eq] at hcur
    have hcount := List.nodup_iff_count_le_one.1 h cb
    unfold SurfaceTree.allFrameCallbacks at hcount
    have hsplit : (t.surfaces.flatMap fun d =>
        d.current.frameCallbacks ++ d.pending.frameCallbacks ++ d.cached.frameCallbacks) =
        t.surfaces.flatMap fun d =>
          d.current.frameCallbacks ++ (d.pending.frameCallbacks ++ d.cached.frameCallbacks) := by
      simp only [List.append_assoc]
    rw [hsplit, count_flatMap_append] at hcount
    have h1 : 0 < (t.surfaces.flatMap fun d => d.current.frameCallbacks).count cb :=
      List.count_pos_iff.2 hcur
    have h2 : 0 < (t.surfaces.flatMap fun d =>
        d.pending.frameCallbacks ++ d.cached.frameCallbacks).count cb :=
      List.count_pos_iff.2 (List.mem_flatMap.2 ⟨d, hd, hcb⟩)
    omega

/-- C26: on a tree of surfaces whose frame callbacks are distinct objects,
`frameRendered(msec)` calls `send_done(msec)` and then `destroy()` once on
every callback of the current queue of the surface, in queue order, then does
the same for every sub-surface below and then for every sub-surface above,
each with its own sub-surfaces; afterwards `hasFrameCallbacks()` is false for
every surface of the tree, no callback of a pending or a cached queue has been
called, and the pending and the cached queues are what they were: each
surface differs from before only by its empty current queue and the calls in
its log. -/
theorem frameRendered_notifies_current_callbacks (t : SurfaceTree) (msec : Nat)
    (hwf : t.wellFormed = true) (hdistinct : t.allFrameCallbacks.Nodup) :
    (t.frameRendered msec).2 = frameCallbackCalls msec t.frameCallbacks ∧
    (t.frameRendered msec).1.surfaces = t.surfaces.map (withFrameCallbacksDone msec) ∧
    (t.frameRendered msec).1.wellFormed = true ∧
    (∀ d ∈ (t.frameRendered msec).1.surfaces, d.hasFrameCallbacks = false) ∧
    (∀ d ∈ t.surfaces, ∀ cb ∈ d.pending.frameCallbacks ++ d.cached.frameCallbacks,
      ∀ e ∈ (t.frameRendered msec).2,
        e ≠ Event.send_done cb msec ∧ e ≠ Event.frameCallbackDestroy cb) ∧
    (t.frameRendered msec).1.surfaces.map
        (fun d => (d.pending.frameCallbacks, d.cached.frameCallbacks)) =
      t.surfaces.map (fun d => (d.pending.frameCallbacks, d.cached.frameCallbacks)) := by
  obtain ⟨hd, hpending⟩ := allFrameCallbacks_nodup t hdistinct
  obtain ⟨h1, h2, h3⟩ := SurfaceTree.frameRendered_eq msec t hd
  refine ⟨h2, h1, h3.trans hwf, ?_, ?_, ?_⟩
  · intro d hmem
    rw [h1] at hmem
    obtain ⟨d0, _, rfl⟩ := List.mem_map.1 hmem
    simp [hasFrameCallbacks, withFrameCallbacksDone]
  · intro d hmem cb hcb e he
    rw [h2] at he
    simp only [frameCallbackCalls, List.mem_flatMap, List.mem_cons, List.mem_singleton,
      List.not_mem_nil, or_false] at he
    obtain ⟨cb0, hcb0, he⟩ := he
    have hne : cb0 ≠ cb := fun e => hpending d hmem cb hcb (e ▸ hcb0)
    rcases he with rfl | rfl
    · simp [hne]
    · simp [hne]
  · rw [h1, List.map_map]
    rfl

/-- C26 at the tree `parentWithChild`: the callbacks 4 and 5 of the parent
are notified and destroyed first, then the callback 6 of the sub-surface. -/
theorem frameRendered_notifies_current_callbacks_witness :
    parentWithChild.wellFormed = true ∧ parentWithChild.allFrameCallbacks.Nodup ∧
    (parentWithChild.frameRendered 17).2 =
      [.send_done 4 17, .frameCallbackDestroy 4, .send_done 5 17, .frameCallbackDestroy 5,
        .send_done 6 17, .frameCallbackDestroy 6] ∧
    (parentWithChild.frameRendered 17).2 =
      frameCallbackCalls 17 parentWithChild.frameCallbacks :=
  ⟨by decide!, by decide!, by decide!,
    (frameRendered_notifies_current_callbacks parentWithChild 17 (by decide!) (by decide!)).1⟩

/-! ## Outputs of a tree of surfaces -/

theorem foldl_erase_eq_filter (xs : List OutputPtr) :
    ∀ l : List OutputPtr, l.Nodup →
      xs.foldl (fun removed o => removed.erase o) l = l.filter fun o => decide (o ∉ xs) := by
  induction xs with
  | nil => intro l _; simp
  | cons x xs ih =>
    intro l hl
    rw [List.foldl_cons, ih _ (hl.erase x), hl.erase_eq_filter, List.filter_filter]
    congr 1
    funext o
    by_cases h1 : o = x <;> by_cases h2 : o ∈ xs <;> simp [h1, h2]

mutual
theorem SurfaceTree.setOutputs_surfaces (clientResources : OutputPtr → List Nat)
    (outputs : List OutputPtr) :
    ∀ t : SurfaceTree,
      (t.setOutputs clientResources outputs).surfaces =
        t.surfaces.map (fun d => d.setOutputs clientResources outputs) ∧
      (t.setOutputs clientResources outputs).wellFormed = t.wellFormed ∧
      (t.setOutputs clientResources outputs).d.subSurface = t.d.subSurface
  | .node d below above => by
    have hb := SubSurfaceList.setOutputs_list_surfaces clientResources outputs below
    have ha := SubSurfaceList.setOutputs_list_surfaces clientResources outputs above
    simp only [SurfaceTree.setOutputs, SurfaceTree.surfaces, SurfaceTree.wellFormed,
      SurfaceTree.d, hb.1, ha.1, hb.2.1, ha.2.1, hb.2.2, ha.2.2, List.map_cons, List.map_append]
    exact ⟨trivial, by simp [SurfaceInterfacePrivate.setOutputs], rfl⟩
theorem SubSurfaceList.setOutputs_list_surfaces (clientResources : OutputPtr → List Nat)
    (outputs : List OutputPtr) :
    ∀ l : SubSurfaceList,
      (l.setOutputs clientResources outputs).surfaces =
        l.surfaces.map (fun d => d.setOutputs clientResources outputs) ∧
      (l.setOutputs clientResources outputs).handles = l.handles ∧
      (l.setOutputs clientResources outputs).wellFormed = l.wellFormed
  | .nil => ⟨rfl, rfl, rfl⟩
  | .cons subsurface position surface rest => by
    have ht := SurfaceTree.setOutputs_surfaces clientResources outputs surface
    have hr := SubSurfaceList.setOutputs_list_surfaces clientResources outputs rest
    simp only [SubSurfaceList.setOutputs, SubSurfaceList.surfaces, SubSurfaceList.handles,
      SubSurfaceList.wellFormed, ht.1, hr.1, ht.2.1, ht.2.2, hr.2.1, hr.2.2, List.map_append]
    exact ⟨trivial, trivial, trivial⟩
end

theorem setOutputs_log (clientResources : OutputPtr → List Nat) (d : SurfaceInterfacePrivate)
    (outputs : List OutputPtr) (hnew : outputs.Nodup) (hold : d.outputs.Nodup) :
    (d.setOutputs clientResources outputs).log =
      d.log ++
        ((d.outputs.filter fun o => decide (o ∉ outputs)).flatMap fun o =>
          (clientResources o).map Event.send_leave) ++
        ((outputs.filter fun o => decide (o ∉ d.outputs)).flatMap fun o =>
          (clientResources o).map Event.send_enter) ++
        d.current.below.map (fun child => Event.childSetOutputs child outputs) ++
        d.current.above.map (fun child => Event.childSetOutputs child outputs) := by
  simp only [SurfaceInterfacePrivate.setOutputs, foldl_erase_eq_filter _ _ hold,
    foldl_erase_eq_filter _ _ hnew]

/-- C28: for an output list without duplicates, on a tree whose surfaces have
output lists without duplicates, `setOutputs(outputs)` does to every surface
of the tree what it does to the surface at the root: it sends `leave` to the
client's resources of exactly the outputs that were among the outputs of the
surface and are not in the new list, then `enter` to the client's resources of
exactly the outputs of the new list that were not among the outputs of the
surface, and nothing for an output in both; afterwards `outputs()` of every
surface of the tree is the new list.  A second call with the same list sends
no `enter` and no `leave` on any surface of the tree. -/
theorem setOutputs_enter_and_leave (t : SurfaceTree) (clientResources : OutputPtr → List Nat)
    (outputs : List OutputPtr) (hwf : t.wellFormed = true) (hnew : outputs.Nodup)
    (hold : ∀ d ∈ t.surfaces, d.outputs.Nodup) :
    (t.setOutputs clientResources outputs).surfaces =
      t.surfaces.map (fun d => d.setOutputs clientResources outputs) ∧
    (t.setOutputs clientResources outputs).wellFormed = true ∧
    (∀ d ∈ t.surfaces,
      (d.setOutputs clientResources outputs).log =
        d.log ++
          ((d.outputs.filter fun o => decide (o ∉ outputs)).flatMap fun o =>
            (clientResources o).map Event.send_leave) ++
          ((outputs.filter fun o => decide (o ∉ d.outputs)).flatMap fun o =>
            (clientResources o).map Event.send_enter) ++
          d.current.below.map (fun child => Event.childSetOutputs child outputs) ++
          d.current.above.map (fun child => Event.childSetOutputs child outputs)) ∧
    (∀ d ∈ (t.setOutputs clientResources outputs).surfaces, d.outputs = outputs) ∧
    (∀ d ∈ (t.setOutputs clientResources outputs).surfaces,
      (d.setOutputs clientResources outputs).log =
        d.log ++
          d.current.below.map (fun child => Event.childSetOutputs child outputs) ++
          d.current.above.map (fun child => Event.childSetOutputs child outputs)) := by
  obtain ⟨h1, h2, _⟩ := SurfaceTree.setOutputs_surfaces clientResources outputs t
  have hout : ∀ d ∈ (t.setOutputs clientResources outputs).surfaces, d.outputs = outputs := by
    intro d hd
    rw [h1] at hd
    obtain ⟨d0, _, rfl⟩ := List.mem_map.1 hd
    rfl
  refine ⟨h1, h2.trans hwf, ?_, hout, ?_⟩
  · intro d hd
    exact setOutputs_log clientResources d outputs hnew (hold d hd)
  · intro d hd
    have ho := hout d hd
    have hnone : (outputs.filter fun o => decide (o ∉ outputs)) = [] := by
      simp [List.filter_eq_nil_iff]
    rw [setOutputs_log clientResources d outputs hnew (ho ▸ hnew), ho, hnone]
    simp

/-- C28 at the tree `parentWithChild`: the parent is on the outputs 1 and 2
and its sub-surface on the outputs 2 and 3; with the new list 2, 4 and one
resource per output, the parent gets `leave` for output 1 and `enter` for
output 4, and the sub-surface `leave` for output 3 and `enter` for output 4. -/
theorem setOutputs_enter_and_leave_witness :
    parentWithChild.wellFormed = true ∧
    ((parentWithChild.setOutputs (fun o => [100 + o]) [2, 4]).surfaces.map
      fun d => (d.outputs, d.log.filter fun e =>
        match e with
        | .send_enter _ => true
        | .send_leave _ => true
        | _ => false)) =
      [([2, 4], [.send_leave 101, .send_enter 104]),
        ([2, 4], [.send_leave 103, .send_enter 104])] ∧
    (parentWithChild.setOutputs (fun o => [100 + o]) [2, 4]).surfaces =
      parentWithChild.surfaces.map (fun d => d.setOutputs (fun o => [100 + o]) [2, 4]) :=
  ⟨by decide!, by decide!,
    (setOutputs_enter_and_leave parentWithChild (fun o => [100 + o]) [2, 4] (by decide!)
      (by decide) (by decide!)).1⟩

/-! ## The surface at a position -/

mutual
theorem SurfaceTree.surfaceAt_eq :
    ∀ (t : SurfaceTree) (ancestors : List SurfaceInterfacePrivate) (position : QPointF),
      t.surfaceAt ancestors position =
        (t.paintOrder ancestors position).find? SurfaceHit.inBounds
  | .node d below above, ancestors, position => by
    have ha := SubSurfaceList.surfaceAtReversed_eq above (d :: ancestors) position
    have hb := SubSurfaceList.surfaceAtReversed_eq below (d :: ancestors) position
    simp only [SurfaceTree.surfaceAt, SurfaceTree.paintOrder, ha, hb]
    cases hm : d.isMapped ancestors with
    | false => simp
    | true =>
      simp only [Bool.not_true, Bool.false_eq_true, if_false, if_true, List.find?_append,
        List.find?_cons]
      cases (above.paintOrder (d :: ancestors) position).find? SurfaceHit.inBounds with
      | some s => rfl
      | none =>
        simp only [Option.or, SurfaceHit.inBounds]
        cases (!d.size.isEmpty && (QRectF.ofSize ⟨0, 0⟩ d.size).contains position) <;> rfl
theorem SubSurfaceList.surfaceAtReversed_eq :
    ∀ (l : SubSurfaceList) (ancestors : List SurfaceInterfacePrivate) (position : QPointF),
      l.surfaceAtReversed ancestors position =
        (l.paintOrder ancestors position).find? SurfaceHit.inBounds
  | .nil, _, _ => rfl
  | .cons _ childPosition surface rest, ancestors, position => by
    have ht := SurfaceTree.surfaceAt_eq surface ancestors (position.minus childPosition)
    have hr := SubSurfaceList.surfaceAtReversed_eq rest ancestors position
    simp only [SubSurfaceList.surfaceAtReversed, SubSurfaceList.paintOrder, ht, hr,
      List.find?_append]
    cases (rest.paintOrder ancestors position).find? SurfaceHit.inBounds <;> rfl
end

mutual
theorem SurfaceTree.inputSurfaceAt_eq :
    ∀ (t : SurfaceTree) (ancestors : List SurfaceInterfacePrivate) (position : QPointF),
      t.inputSurfaceAt ancestors position =
        (t.paintOrder ancestors position).find? fun hit => hit.inBounds && hit.inInput
  | .node d below above, ancestors, position => by
    have ha := SubSurfaceList.inputSurfaceAtReversed_eq above (d :: ancestors) position
    have hb := SubSurfaceList.inputSurfaceAtReversed_eq below (d :: ancestors) position
    simp only [SurfaceTree.inputSurfaceAt, SurfaceTree.paintOrder, ha, hb]
    cases hm : d.isMapped ancestors with
    | false => simp
    | true =>
      simp only [Bool.not_true, Bool.false_eq_true, if_false, if_true, List.find?_append,
        List.find?_cons]
      cases (above.paintOrder (d :: ancestors) position).find?
          fun hit => hit.inBounds && hit.inInput with
      | some s => rfl
      | none =>
        simp only [Option.or, SurfaceHit.inBounds, SurfaceHit.inInput]
        cases (!d.size.isEmpty && (QRectF.ofSize ⟨0, 0⟩ d.size).contains position &&
          d.input.contains position.toPoint.x position.toPoint.y) <;> rfl
theorem SubSurfaceList.inputSurfaceAtReversed_eq :
    ∀ (l : SubSurfaceList) (ancestors : List SurfaceInterfacePrivate) (position : QPointF),
      l.inputSurfaceAtReversed ancestors position =
        (l.paintOrder ancestors position).find? fun hit => hit.inBounds && hit.inInput
  | .nil, _, _ => rfl
  | .cons _ childPosition surface rest, ancestors, position => by
    have ht := SurfaceTree.inputSurfaceAt_eq surface ancestors (position.minus childPosition)
    have hr := SubSurfaceList.inputSurfaceAtReversed_eq rest ancestors position
    simp only [SubSurfaceList.inputSurfaceAtReversed, SubSurfaceList.paintOrder, ht, hr,
      List.find?_append]
    cases (rest.paintOrder ancestors position).find?
      fun hit => hit.inBounds && hit.inInput <;> rfl
end

mutual
theorem SurfaceTree.paintOrder_mapped :
    ∀ (t : SurfaceTree) (ancestors : List SurfaceInterfacePrivate) (position : QPointF),
      ∀ hit ∈ t.paintOrder ancestors position, hit.surface.isMapped hit.ancestors = true
  | .node d below above, ancestors, position => by
    intro hit hmem
    simp only [SurfaceTree.paintOrder] at hmem
    cases hm : d.isMapped ancestors with
    | false => simp [hm] at hmem
    | true =>
      simp only [hm, if_true, List.mem_append, List.mem_cons] at hmem
      rcases hmem with h | rfl | h
      · exact SubSurfaceList.paintOrder_list_mapped above _ _ hit h
      · exact hm
      · exact SubSurfaceList.paintOrder_list_mapped below _ _ hit h
theorem SubSurfaceList.paintOrder_list_mapped :
    ∀ (l : SubSurfaceList) (ancestors : List SurfaceInterfacePrivate) (position : QPointF),
      ∀ hit ∈ l.paintOrder ancestors position, hit.surface.isMapped hit.ancestors = true
  | .nil, _, _ => by
    intro hit hmem
    simp [SubSurfaceList.paintOrder] at hmem
  | .cons _ childPosition surface rest, ancestors, position => by
    intro hit hmem
    simp only [SubSurfaceList.paintOrder, List.mem_append] at hmem
    rcases hmem with h | h
    · exact SubSurfaceList.paintOrder_list_mapped rest _ _ hit h
    · exact SurfaceTree.paintOrder_mapped surface _ _ hit h
end

/-- C27: `surfaceAt(position)` returns null when the surface is not mapped,
and otherwise the first surface in paint order from top to bottom whose size
is not empty and whose rectangle `(0, 0, size)` contains the position in its
coordinates: the sub-surfaces of `current.above` come first, from the last to
the first, each with its own sub-surfaces and the position translated by the
position of the sub-surface, then the surface itself, then the sub-surfaces of
`current.below` from the last to the first; sub-surfaces that are not mapped
are passed over with all their sub-surfaces.  A surface it returns is mapped,
its size is not empty and its rectangle contains the translated position.
`inputSurfaceAt(position)` returns the first surface in the same order that in
addition has the translated position, rounded to an integer point, in its
effective input region. -/
theorem surfaceAt_first_in_paint_order (t : SurfaceTree)
    (ancestors : List SurfaceInterfacePrivate) (position : QPointF)
    (hwf : t.wellFormed = true) :
    (t.d.isMapped ancestors = false →
      t.surfaceAt ancestors position = none ∧ t.inputSurfaceAt ancestors position = none) ∧
    t.surfaceAt ancestors position =
      (t.paintOrder ancestors position).find? SurfaceHit.inBounds ∧
    t.inputSurfaceAt ancestors position =
      ((t.paintOrder ancestors position).find? fun hit => hit.inBounds && hit.inInput) ∧
    (∀ hit, t.surfaceAt ancestors position = some hit →
      hit.surface.isMapped hit.ancestors = true ∧ hit.surface.size.isEmpty = false ∧
      (QRectF.ofSize ⟨0, 0⟩ hit.surface.size).contains hit.position = true) ∧
    (∀ hit, t.inputSurfaceAt ancestors position = some hit →
      hit.surface.isMapped hit.ancestors = true ∧ hit.surface.size.isEmpty = false ∧
      (QRectF.ofSize ⟨0, 0⟩ hit.surface.size).contains hit.position = true ∧
      hit.surface.input.contains hit.position.toPoint.x hit.position.toPoint.y = true) := by
  have h1 := SurfaceTree.surfaceAt_eq t ancestors position
  have h2 := SurfaceTree.inputSurfaceAt_eq t ancestors position
  have hmapped := SurfaceTree.paintOrder_mapped t ancestors position
  refine ⟨?_, h1, h2, ?_, ?_⟩
  · intro hm
    have hnil : t.paintOrder ancestors position = [] := by
      cases t with
      | node d below above =>
        simp only [SurfaceTree.d] at hm
        simp [SurfaceTree.paintOrder, hm]
    rw [h1, h2, hnil]
    exact ⟨rfl, rfl⟩
  · intro hit hhit
    rw [h1] at hhit
    have hmem := List.mem_of_find?_eq_some hhit
    have hp := List.find?_some hhit
    simp only [SurfaceHit.inBounds, Bool.and_eq_true, Bool.not_eq_true'] at hp
    exact ⟨hmapped hit hmem, hp.1, hp.2⟩
  · intro hit hhit
    rw [h2] at hhit
    have hmem := List.mem_of_find?_eq_some hhit
    have hp := List.find?_some hhit
    simp only [SurfaceHit.inBounds, SurfaceHit.inInput, Bool.and_eq_true,
      Bool.not_eq_true'] at hp
    exact ⟨hmapped hit hmem, hp.1.1, hp.1.2, hp.2⟩

/-- C27 at the tree `parentWithChild`: the sub-surface lies above its parent
at `(10, 10)`; the position `(20, 20)` hits the sub-surface at `(10, 10)` of
its coordinates, the position `(5, 5)` hits the parent, the position
`(70, 70)` hits the sub-surface, and the position `(80, 80)` hits nothing. -/
theorem surfaceAt_first_in_paint_order_witness :
    parentWithChild.wellFormed = true ∧
    (parentWithChild.surfaceAt [] ⟨20, 20⟩).map
      (fun hit => (hit.surface.subSurface, hit.position)) = some (some ⟨1, false⟩, ⟨10, 10⟩) ∧
    (parentWithChild.surfaceAt [] ⟨5, 5⟩).map
      (fun hit => (hit.surface.subSurface, hit.position)) = some (none, ⟨5, 5⟩) ∧
    (parentWithChild.inputSurfaceAt [] ⟨70, 70⟩).map
      (fun hit => (hit.surface.subSurface, hit.position)) = some (some ⟨1, false⟩, ⟨60, 60⟩) ∧
    parentWithChild.surfaceAt [] ⟨80, 80⟩ = none ∧
    parentWithChild.surfaceAt [] ⟨20, 20⟩ =
      (parentWithChild.paintOrder [] ⟨20, 20⟩).find? SurfaceHit.inBounds :=
  ⟨by decide!, by decide!, by decide!, by decide!, by decide!,
    (surfaceAt_first_in_paint_order parentWithChild [] ⟨20, 20⟩ (by decide!)).2.1⟩

end KWaylandServer
